import Mathlib

/-!
# Booking allocation engine (booking-service)

A shallow embedding of `booking-service/internal/{models,repository,service}`:
the two tables (`events`, `bookings`) are lists of rows, the repository methods
are functions on a database value, and the two units of work of the service,
`CreateBooking` and `CancelBooking`, are functions from a database value to a
reply and a database value.

* Go `int` / `int64` quantities are `Int`, `uint` identifiers and row counts are `Nat`.
* `time.Time` instants are integers on one timeline; `Before` / `After` are `<` / `>`.
* Every repository call may be failed by the database driver; which calls fail
  during one unit of work is given by a `Driver`.
-/

namespace BookingMicroservice

/-! ## models -/

/-- Instants of `time.Time`; `0` is the zero instant. -/
abbrev Time := Int

/-- The three values of `models.BookingStatus`. -/
inductive BookingStatus where
  | StatusConfirmed
  | StatusWaitlisted
  | StatusCancelled
  deriving DecidableEq, Repr

/-- A row of `bookings` (`models.Booking`). `WaitlistOrder` is the nullable `*int`.
The `Event` association pointer is never loaded by the service and is left out. -/
structure Booking where
  ID : Nat
  EventID : Nat
  UserID : String
  Status : BookingStatus
  WaitlistOrder : Option Int
  CreatedAt : Time
  UpdatedAt : Time
  deriving DecidableEq, Repr

/-- Modelled from the spec: the declaration of `models.Event` of the booking-service
is not among the sources. The fields are those of the data model (identifier, display
name, maximum confirmable seats, waitlist capacity, price, booking-window start and end),
with the names and Go types used by the service, its test fixtures and the column list
of the replication consumer. `Price` (a `float64`, informational only) is carried as its
bit pattern. -/
structure Event where
  ID : Nat
  Name : String
  MaxSeats : Int
  WaitlistLimit : Int
  Price : Nat
  BookingStartAt : Time
  BookingEndAt : Time
  CreatedAt : Time
  UpdatedAt : Time
  deriving DecidableEq, Repr

/-! ## errors -/

/-- Error values seen by the service: its five package-level sentinels,
`gorm.ErrRecordNotFound`, a value made on the spot by `errors.New`, and any other
failure reported by the database driver. -/
inductive Error where
  | ErrEventNotFound
  | ErrBookingNotFound
  | ErrBookingClosed
  | ErrAlreadyBooked
  | ErrEventFullyBooked
  | ErrRecordNotFound
  | New (text : String)
  | driver (text : String)
  deriving DecidableEq, Repr

/-! ## the database -/

/-- The database: the two tables and the sequence that feeds `bookings.id`. -/
structure DB where
  events : List Event
  bookings : List Booking
  bookings_id_seq : Nat
  deriving DecidableEq, Repr

/-- The calls a unit of work makes to the database. -/
inductive Call where
  | Begin
  | FindByID
  | FindByIDForUpdate
  | FindActiveByUserAndEvent
  | CountByStatus (status : BookingStatus)
  | Create
  | UpdateStatus (status : BookingStatus)
  | FindFirstWaitlisted
  | Commit
  deriving DecidableEq, Repr

/-- For each call of one unit of work: `none` when the call reaches the data,
`some text` when the driver fails it (connection lost, lock wait timeout, ...). -/
abbrev Driver := Call → Option String

/-- The driver that never fails. -/
def healthy : Driver := fun _ => none

/-- A row counts for the partial unique index `idx_booking_active` and for
`FindActiveByUserAndEvent` when its status is not cancelled. -/
def Booking.active (b : Booking) : Bool :=
  decide (b.Status ≠ BookingStatus.StatusCancelled)

/-- `ORDER BY ... LIMIT 1`: the first row of the table order that no other row
strictly precedes in the ordering `before`. -/
def firstBy (before : Booking → Booking → Bool) : List Booking → Option Booking
  | [] => none
  | b :: rest =>
    match firstBy before rest with
    | none => some b
    | some m => if before m b then some m else some b

/-- `ORDER BY id`. -/
def idBefore (a b : Booking) : Bool := decide (a.ID < b.ID)

/-- `ORDER BY waitlist_order ASC, id ASC` (a NULL order sorts after every value). -/
def waitlistBefore (a b : Booking) : Bool :=
  match a.WaitlistOrder, b.WaitlistOrder with
  | some x, some y => decide (x < y ∨ (x = y ∧ a.ID < b.ID))
  | some _, none => true
  | none, some _ => false
  | none, none => decide (a.ID < b.ID)

/-! ## repository -/

/-- The row selected by the query that reads the event with the given id. -/
def DB.eventRow (db : DB) (id : Nat) : Option Event :=
  db.events.find? (fun e => decide (e.ID = id))

/-- The rows selected by the query that counts the bookings of an event with a given status. -/
def DB.count (db : DB) (eventID : Nat) (status : BookingStatus) : Nat :=
  db.bookings.countP (fun b => decide (b.EventID = eventID) && decide (b.Status = status))

/-- The rows selected by the query for the active bookings of a user for an event. -/
def DB.activeFor (db : DB) (userID : String) (eventID : Nat) : List Booking :=
  db.bookings.filter (fun b =>
    decide (b.UserID = userID) && decide (b.EventID = eventID) &&
      decide (b.Status ≠ BookingStatus.StatusCancelled))

/-- The rows selected by the query for the waitlisted bookings of an event. -/
def DB.waitlistedOf (db : DB) (eventID : Nat) : List Booking :=
  db.bookings.filter (fun b =>
    decide (b.EventID = eventID) && decide (b.Status = BookingStatus.StatusWaitlisted))

/-- `eventRepository.FindByIDForUpdate`: the read of the event row that opens a unit of
work, meant as a locking read. -/
def eventRepository.FindByIDForUpdate (drv : Driver) (tx : DB) (id : Nat) : Except Error Event :=
  match drv Call.FindByIDForUpdate with
  | some text => Except.error (Error.driver text)
  | none =>
    match tx.eventRow id with
    | some event => Except.ok event
    | none => Except.error Error.ErrRecordNotFound

/-- Some row of `bookings` has the given primary key. -/
def DB.hasKey (db : DB) (id : Nat) : Bool :=
  db.bookings.any (fun b => decide (b.ID = id))

/-- Some active row of `bookings` is for the given (event, user). -/
def DB.hasActive (db : DB) (eventID : Nat) (userID : String) : Bool :=
  db.bookings.any (fun b => b.active && decide (b.EventID = eventID) && decide (b.UserID = userID))

/-- Some row with the given id shares its (event, user) with an active row of another id. -/
def DB.collides (db : DB) (bookingID : Nat) : Bool :=
  db.bookings.any (fun b =>
    decide (b.ID = bookingID) && db.bookings.any (fun c =>
      decide (c.ID ≠ bookingID) && c.active &&
        decide (c.EventID = b.EventID) && decide (c.UserID = b.UserID)))

/-- The row as the insert fills it in: the key comes from the sequence value `seq` when the
`ID` field is zero, and each timestamp is stamped with `now` when it is zero. -/
def Booking.filled (booking : Booking) (seq : Nat) (now : Time) : Booking :=
  { booking with
    ID := if booking.ID = 0 then seq else booking.ID
    CreatedAt := if booking.CreatedAt = 0 then now else booking.CreatedAt
    UpdatedAt := if booking.UpdatedAt = 0 then now else booking.UpdatedAt }

/-- `bookingRepository.Create`: the insert. The insert fails on a duplicate primary key and
on a second active row for the same (event, user), the partial unique index
`idx_booking_active`. Returns the booking as filled in and the new table. -/
def bookingRepository.Create (drv : Driver) (now : Time) (tx : DB) (booking : Booking) :
    Except Error (Booking × DB) :=
  match drv Call.Create with
  | some text => Except.error (Error.driver text)
  | none =>
    let seq := if booking.ID = 0 then tx.bookings_id_seq + 1 else tx.bookings_id_seq
    let row := booking.filled seq now
    if tx.hasKey row.ID then
      Except.error (Error.driver "duplicate key value violates unique constraint bookings_pkey")
    else if row.active && tx.hasActive row.EventID row.UserID then
      Except.error (Error.driver "duplicate key value violates unique constraint idx_booking_active")
    else
      Except.ok (row, { tx with bookings := tx.bookings ++ [row], bookings_id_seq := seq })

/-- `bookingRepository.FindByID`: `First(&booking, id)`. -/
def bookingRepository.FindByID (drv : Driver) (db : DB) (id : Nat) : Except Error Booking :=
  match drv Call.FindByID with
  | some text => Except.error (Error.driver text)
  | none =>
    match firstBy idBefore (db.bookings.filter (fun b => decide (b.ID = id))) with
    | some booking => Except.ok booking
    | none => Except.error Error.ErrRecordNotFound

/-- `bookingRepository.FindActiveByUserAndEvent`. -/
def bookingRepository.FindActiveByUserAndEvent (drv : Driver) (tx : DB) (userID : String)
    (eventID : Nat) : Except Error Booking :=
  match drv Call.FindActiveByUserAndEvent with
  | some text => Except.error (Error.driver text)
  | none =>
    match firstBy idBefore (tx.activeFor userID eventID) with
    | some booking => Except.ok booking
    | none => Except.error Error.ErrRecordNotFound

/-- `bookingRepository.CountByStatus`. -/
def bookingRepository.CountByStatus (drv : Driver) (tx : DB) (eventID : Nat)
    (status : BookingStatus) : Except Error Nat :=
  match drv (Call.CountByStatus status) with
  | some text => Except.error (Error.driver text)
  | none =>
    Except.ok (tx.count eventID status)

/-- The row written by `UPDATE bookings SET status = ?, updated_at = ?`. -/
def Booking.withStatus (b : Booking) (status : BookingStatus) (now : Time) : Booking :=
  { b with Status := status, UpdatedAt := now }

/-- The table after `UPDATE bookings SET status = ?, updated_at = ? WHERE id = ?`. -/
def DB.setStatus (db : DB) (bookingID : Nat) (status : BookingStatus) (now : Time) : DB :=
  { db with bookings :=
      db.bookings.map (fun b => if b.ID = bookingID then b.withStatus status now else b) }

/-- `bookingRepository.UpdateStatus`: every row with the given id gets the status (and a
fresh `updated_at`); an id with no row is not an error. The update fails when a row it
makes active collides in `idx_booking_active` with another row. -/
def bookingRepository.UpdateStatus (drv : Driver) (now : Time) (tx : DB) (bookingID : Nat)
    (status : BookingStatus) : Except Error DB :=
  match drv (Call.UpdateStatus status) with
  | some text => Except.error (Error.driver text)
  | none =>
    if decide (status ≠ BookingStatus.StatusCancelled) && tx.collides bookingID then
      Except.error (Error.driver "duplicate key value violates unique constraint idx_booking_active")
    else
      Except.ok (tx.setStatus bookingID status now)

/-- `bookingRepository.FindFirstWaitlisted`: the earliest waitlisted booking for promotion. -/
def bookingRepository.FindFirstWaitlisted (drv : Driver) (tx : DB) (eventID : Nat) :
    Except Error Booking :=
  match drv Call.FindFirstWaitlisted with
  | some text => Except.error (Error.driver text)
  | none =>
    match firstBy waitlistBefore (tx.waitlistedOf eventID) with
    | some booking => Except.ok booking
    | none => Except.error Error.ErrRecordNotFound

/-! ## service -/

/-- The reply of a unit of work: the pair `(result, err)` returned to the caller. -/
structure Reply where
  result : Option Booking
  err : Option Error
  deriving DecidableEq, Repr

/-- `db.Transaction(fc)`: begins a transaction and runs `fc` in it; when the begin fails
`fc` is not run; when `fc` returns an error, or the commit fails, the database is rolled
back to what it was (the sequence value with it: gaps left in the keys by aborted inserts
are not modelled). The first component of the value of `fc` is the variable `result` that
the closure assigns. -/
def Transaction (drv : Driver) (db : DB) (fc : DB → Option Booking × Option Error × DB) :
    Reply × DB :=
  match drv Call.Begin with
  | some text => ({ result := none, err := some (Error.driver text) }, db)
  | none =>
    match fc db with
    | (result, some err, _) => ({ result := result, err := some err }, db)
    | (result, none, tx) =>
      match drv Call.Commit with
      | some text => ({ result := result, err := some (Error.driver text) }, db)
      | none => ({ result := result, err := none }, tx)

/-- `bookingService.CreateBooking`, at the instant `now` read by `time.Now()`; the row it
inserts is stamped with the same instant. -/
def CreateBooking (drv : Driver) (db : DB) (eventID : Nat) (userID : String) (now : Time) :
    Reply × DB :=
  Transaction drv db (fun tx =>
    -- 1. Lock the event row
    match eventRepository.FindByIDForUpdate drv tx eventID with
    | Except.error _ => (none, some Error.ErrEventNotFound, tx)
    | Except.ok event =>
      -- 2. Check booking window
      if now < event.BookingStartAt ∨ now > event.BookingEndAt then
        (none, some Error.ErrBookingClosed, tx)
      else
        -- 3. Check double-booking
        match bookingRepository.FindActiveByUserAndEvent drv tx userID eventID with
        | Except.ok _ => (none, some Error.ErrAlreadyBooked, tx)
        | Except.error err =>
          if err ≠ Error.ErrRecordNotFound then (none, some err, tx)
          else
            -- 4. Count confirmed seats
            match bookingRepository.CountByStatus drv tx eventID BookingStatus.StatusConfirmed with
            | Except.error err => (none, some err, tx)
            | Except.ok confirmedCount =>
              -- 5. Determine status
              if (confirmedCount : Int) < event.MaxSeats then
                let booking : Booking :=
                  { ID := 0, EventID := eventID, UserID := userID,
                    Status := BookingStatus.StatusConfirmed, WaitlistOrder := none,
                    CreatedAt := 0, UpdatedAt := 0 }
                match bookingRepository.Create drv now tx booking with
                | Except.error err => (none, some err, tx)
                | Except.ok (booking, tx1) => (some booking, none, tx1)
              else
                -- 6. Seats full, try waitlist
                match bookingRepository.CountByStatus drv tx eventID BookingStatus.StatusWaitlisted with
                | Except.error err => (none, some err, tx)
                | Except.ok waitlistedCount =>
                  if (waitlistedCount : Int) < event.WaitlistLimit then
                    let order : Int := (waitlistedCount : Int) + 1
                    let booking : Booking :=
                      { ID := 0, EventID := eventID, UserID := userID,
                        Status := BookingStatus.StatusWaitlisted, WaitlistOrder := some order,
                        CreatedAt := 0, UpdatedAt := 0 }
                    match bookingRepository.Create drv now tx booking with
                    | Except.error err => (none, some err, tx)
                    | Except.ok (booking, tx1) => (some booking, none, tx1)
                  else
                    -- 7. Everything full
                    (none, some Error.ErrEventFullyBooked, tx))

/-- `bookingService.CancelBooking`; `now` is the instant stamped on the updated rows.
The booking is loaded through the plain connection `db`, everything else runs in `tx`. -/
def CancelBooking (drv : Driver) (db : DB) (bookingID : Nat) (now : Time) : Reply × DB :=
  Transaction drv db (fun tx =>
    -- Find the booking
    match bookingRepository.FindByID drv db bookingID with
    | Except.error _ => (none, some Error.ErrBookingNotFound, tx)
    | Except.ok booking =>
      if booking.Status = BookingStatus.StatusCancelled then
        (none, some (Error.New "booking is already cancelled"), tx)
      else
        let wasPreviouslyConfirmed : Bool := decide (booking.Status = BookingStatus.StatusConfirmed)
        -- Lock the event row
        match eventRepository.FindByIDForUpdate drv tx booking.EventID with
        | Except.error err => (none, some err, tx)
        | Except.ok _ =>
          -- Cancel the booking
          match bookingRepository.UpdateStatus drv now tx bookingID BookingStatus.StatusCancelled with
          | Except.error err => (none, some err, tx)
          | Except.ok tx1 =>
            let booking : Booking := { booking with Status := BookingStatus.StatusCancelled }
            let result : Option Booking := some booking
            -- If a confirmed booking was cancelled, promote first waitlisted
            if wasPreviouslyConfirmed then
              match bookingRepository.FindFirstWaitlisted drv tx1 booking.EventID with
              | Except.error err =>
                if err = Error.ErrRecordNotFound then (result, none, tx1)
                else (result, some err, tx1)
              | Except.ok waitlisted =>
                match bookingRepository.UpdateStatus drv now tx1 waitlisted.ID
                    BookingStatus.StatusConfirmed with
                | Except.error err => (result, some err, tx1)
                | Except.ok tx2 => (result, none, tx2)
            else
              (result, none, tx1))

/-! ## error identity and the cancellation handler -/

/-- The error value is held by a package-level variable, allocated once: the five
sentinels of the service and `gorm.ErrRecordNotFound`. The other values are allocated
where they are returned: `errors.New` returns a distinct value at each call, and a driver
failure is a fresh value of the driver. -/
def Error.packageLevel : Error → Bool
  | Error.ErrEventNotFound => true
  | Error.ErrBookingNotFound => true
  | Error.ErrBookingClosed => true
  | Error.ErrAlreadyBooked => true
  | Error.ErrEventFullyBooked => true
  | Error.ErrRecordNotFound => true
  | Error.New _ => false
  | Error.driver _ => false

/-- `errors.Is(err, target)` for an error returned by a call and a target that the caller
holds apart from that call (a package-level variable, or the error of another call): the
two are compared by identity, so they match only when both are the same package-level
value. -/
def errorsIs (err target : Error) : Bool :=
  err.packageLevel && decide (err = target)

/-- The error values that the service package exports for matching. -/
def exportedErrors : List Error :=
  [Error.ErrEventNotFound, Error.ErrBookingNotFound, Error.ErrBookingClosed,
   Error.ErrAlreadyBooked, Error.ErrEventFullyBooked]

/-- `BookingHandler.CancelBooking`, as the HTTP status it answers: `param` is the result
of parsing the path parameter as an unsigned number, `svc` the service call. -/
def BookingHandler.CancelBooking (svc : Nat → Reply) (param : Option Nat) : Nat :=
  match param with
  | none => 400
  | some bookingID =>
    match (svc bookingID).err with
    | some err => if errorsIs err Error.ErrBookingNotFound then 404 else 400
    | none => 200

/-! ## schema invariants -/

/-- The sequence of `bookings.id` is ahead of every stored key, so the next value is fresh. -/
def DB.SeqAhead (db : DB) : Prop := ∀ b ∈ db.bookings, b.ID ≤ db.bookings_id_seq

/-- The primary key of `bookings`: no two rows share an id. -/
def DB.PrimaryKey (db : DB) : Prop := db.bookings.Pairwise (fun a b => a.ID ≠ b.ID)

/-- The partial unique index `idx_booking_active`: no two active rows share (event, user). -/
def DB.ActiveUnique (db : DB) : Prop :=
  db.bookings.Pairwise (fun a b =>
    a.active = true → b.active = true → a.EventID = b.EventID → a.UserID ≠ b.UserID)

instance (db : DB) : Decidable db.SeqAhead :=
  inferInstanceAs (Decidable (∀ b ∈ db.bookings, b.ID ≤ db.bookings_id_seq))

instance (db : DB) : Decidable db.PrimaryKey :=
  inferInstanceAs (Decidable (db.bookings.Pairwise (fun a b : Booking => a.ID ≠ b.ID)))

instance (db : DB) : Decidable db.ActiveUnique :=
  inferInstanceAs (Decidable (db.bookings.Pairwise (fun a b : Booking =>
    a.active = true → b.active = true → a.EventID = b.EventID → a.UserID ≠ b.UserID)))

/-- Every stored waitlist order is a positive number. -/
def DB.OrdersPositive (db : DB) : Prop :=
  ∀ b ∈ db.bookings, ∀ k : Int, b.WaitlistOrder = some k → 1 ≤ k

/-! ## sequences of calls -/

/-- `CreateBooking` calls for one event, one after another: the replies in call order
and the final database. Each call is a user and the instant of the call. -/
def createAll (db : DB) (eventID : Nat) : List (String × Time) → List Reply × DB
  | [] => ([], db)
  | (userID, now) :: rest =>
    let r := CreateBooking healthy db eventID userID now
    let rs := createAll r.2 eventID rest
    (r.1 :: rs.1, rs.2)

/-- A call to the service, with the driver behaviour during that call. -/
inductive Op where
  | create (drv : Driver) (eventID : Nat) (userID : String) (now : Time)
  | cancel (drv : Driver) (bookingID : Nat) (now : Time)

/-- One call run to completion. -/
def step (db : DB) : Op → DB
  | Op.create drv eventID userID now => (CreateBooking drv db eventID userID now).2
  | Op.cancel drv bookingID now => (CancelBooking drv db bookingID now).2

/-- A finite sequence of calls, each run to completion before the next starts. -/
def run (db : DB) (ops : List Op) : DB := ops.foldl step db

/-- The row that `CreateBooking` inserts. -/
def newRow (db : DB) (eventID : Nat) (userID : String) (status : BookingStatus)
    (order : Option Int) (now : Time) : Booking :=
  { ID := db.bookings_id_seq + 1, EventID := eventID, UserID := userID, Status := status,
    WaitlistOrder := order, CreatedAt := now, UpdatedAt := now }

/-- The database after `CreateBooking` has inserted a row. -/
def DB.inserted (db : DB) (row : Booking) : DB :=
  { db with bookings := db.bookings ++ [row], bookings_id_seq := db.bookings_id_seq + 1 }

/-- Cancelling a confirmed booking `b` and promoting `w`, as one rewrite of the table. -/
def promotedRows (rows : List Booking) (b w : Booking) (now : Time) : List Booking :=
  rows.map (fun x =>
    if x.ID = b.ID then x.withStatus BookingStatus.StatusCancelled now
    else if x.ID = w.ID then x.withStatus BookingStatus.StatusConfirmed now
    else x)

/-! ## sample data -/

/-- An event with two seats and one waitlist place, bookable from instant 100 to 200. -/
def workshop : Event :=
  { ID := 1, Name := "Golang Workshop Bangkok", MaxSeats := 2, WaitlistLimit := 1, Price := 0,
    BookingStartAt := 100, BookingEndAt := 200, CreatedAt := 0, UpdatedAt := 0 }

/-- The replica holds the workshop and no booking. -/
def dbEmpty : DB := { events := [workshop], bookings := [], bookings_id_seq := 0 }

/-- A booking row of the workshop. -/
def sampleRow (id : Nat) (userID : String) (status : BookingStatus) (order : Option Int) :
    Booking :=
  { ID := id, EventID := 1, UserID := userID, Status := status, WaitlistOrder := order,
    CreatedAt := 100, UpdatedAt := 100 }

/-- Both seats of the workshop are taken, the waitlist is empty. -/
def dbSeatsTaken : DB :=
  { events := [workshop],
    bookings := [sampleRow 1 "user-000" BookingStatus.StatusConfirmed none,
                 sampleRow 2 "user-001" BookingStatus.StatusConfirmed none],
    bookings_id_seq := 2 }

/-- Both seats and the waitlist place of the workshop are taken. -/
def dbFull : DB :=
  { events := [workshop],
    bookings := [sampleRow 1 "user-000" BookingStatus.StatusConfirmed none,
                 sampleRow 2 "user-001" BookingStatus.StatusConfirmed none,
                 sampleRow 3 "user-002" BookingStatus.StatusWaitlisted (some 1)],
    bookings_id_seq := 3 }

/-- The event of the concurrency test: 50 seats, 5 waitlist places. -/
def workshop50 : Event :=
  { ID := 1, Name := "Golang Workshop Bangkok", MaxSeats := 50, WaitlistLimit := 5, Price := 0,
    BookingStartAt := 100, BookingEndAt := 200, CreatedAt := 0, UpdatedAt := 0 }

/-- The replica holds that event and no booking. -/
def dbEmpty50 : DB := { events := [workshop50], bookings := [], bookings_id_seq := 0 }

/-- Sixty users. -/
def users60 : List String :=
  ["user-000", "user-001", "user-002", "user-003", "user-004", "user-005", "user-006",
   "user-007", "user-008", "user-009", "user-010", "user-011", "user-012", "user-013",
   "user-014", "user-015", "user-016", "user-017", "user-018", "user-019", "user-020",
   "user-021", "user-022", "user-023", "user-024", "user-025", "user-026", "user-027",
   "user-028", "user-029", "user-030", "user-031", "user-032", "user-033", "user-034",
   "user-035", "user-036", "user-037", "user-038", "user-039", "user-040", "user-041",
   "user-042", "user-043", "user-044", "user-045", "user-046", "user-047", "user-048",
   "user-049", "user-050", "user-051", "user-052", "user-053", "user-054", "user-055",
   "user-056", "user-057", "user-058", "user-059"]

/-- One call by each of the sixty users, all at instant 150. -/
def calls60 : List (String × Time) := users60.map (fun u => (u, 150))

/-- Three users book the workshop, then the first booking is cancelled. -/
def sampleOps : List Op :=
  [Op.create healthy 1 "user-000" 100, Op.create healthy 1 "user-001" 120,
   Op.create healthy 1 "user-002" 150, Op.cancel healthy 1 160]

/-- The state of `TestCancelAndWaitlistPromotion` before the cancellation: the first 50
users hold the seats, the next 3 are waitlisted. -/
def dbPromotionTest : DB :=
  (createAll dbEmpty50 1 ((users60.take 53).map (fun u => (u, 150)))).2

/-- The two events of `TestBookingWindowValidation`, seen from the instant 1000. -/
def dbWindowTest : DB :=
  { events :=
      [{ ID := 1, Name := "Past Event", MaxSeats := 50, WaitlistLimit := 5, Price := 0,
         BookingStartAt := 200, BookingEndAt := 600, CreatedAt := 0, UpdatedAt := 0 },
       { ID := 2, Name := "Future Event", MaxSeats := 50, WaitlistLimit := 5, Price := 0,
         BookingStartAt := 1400, BookingEndAt := 1800, CreatedAt := 0, UpdatedAt := 0 }],
    bookings := [], bookings_id_seq := 0 }

/-- The first booking of the workshop is cancelled, the second holds a seat. -/
def dbOneCancelled : DB :=
  { events := [workshop],
    bookings := [sampleRow 1 "user-000" BookingStatus.StatusCancelled none,
                 sampleRow 2 "user-001" BookingStatus.StatusConfirmed none],
    bookings_id_seq := 2 }

/-- An event with one seat and three waitlist places. -/
def clinic : Event :=
  { ID := 1, Name := "Clinic", MaxSeats := 1, WaitlistLimit := 3, Price := 0,
    BookingStartAt := 100, BookingEndAt := 200, CreatedAt := 0, UpdatedAt := 0 }

/-- The replica holds that event and no booking. -/
def dbClinic : DB := { events := [clinic], bookings := [], bookings_id_seq := 0 }

/-- Four users book the clinic (one seat, then waitlist orders 1, 2, 3), the first two
waitlisted users cancel, and a fifth user books. -/
def waitlistChurn : List Op :=
  [Op.create healthy 1 "user-000" 100, Op.create healthy 1 "user-001" 110,
   Op.create healthy 1 "user-002" 120, Op.create healthy 1 "user-003" 130,
   Op.cancel healthy 2 140, Op.cancel healthy 3 150,
   Op.create healthy 1 "user-004" 160]

/-- Three users book the clinic (one seat, then waitlist orders 1, 2), the first
waitlisted user cancels, and a fourth user books. -/
def waitlistReuse : List Op :=
  [Op.create healthy 1 "user-000" 100, Op.create healthy 1 "user-001" 110,
   Op.create healthy 1 "user-002" 120, Op.cancel healthy 2 130,
   Op.create healthy 1 "user-003" 140]

/-- A driver that fails the locking read of the event row and nothing else. -/
def lockReadFails : Driver :=
  fun c => if c = Call.FindByIDForUpdate then some "connection reset by peer" else none

/-- A driver that fails the load of a booking by id and nothing else. -/
def loadFails : Driver :=
  fun c => if c = Call.FindByID then some "connection reset by peer" else none

/-- A driver that fails the lookup of the first waitlisted booking and nothing else. -/
def waitlistLookupFails : Driver :=
  fun c => if c = Call.FindFirstWaitlisted then some "connection reset by peer" else none

/-! ## CancelBooking in two steps -/

/-- Where a call of `CancelBooking` stands after its plain read: it holds the booking it
loaded and the flag `wasPreviouslyConfirmed`, or it has returned. -/
inductive Cancelling where
  | loaded (booking : Booking) (wasPreviouslyConfirmed : Bool)
  | returned (reply : Reply)
  deriving DecidableEq, Repr

/-- The first step of `bookingService.CancelBooking`: the transaction is begun, the booking
is loaded through the plain connection (`FindByID` reads with `r.db`, no lock is held), its
status is checked and recorded. -/
def CancelBooking.load (drv : Driver) (db : DB) (bookingID : Nat) : Cancelling :=
  match drv Call.Begin with
  | some text => Cancelling.returned { result := none, err := some (Error.driver text) }
  | none =>
    match bookingRepository.FindByID drv db bookingID with
    | Except.error _ =>
      Cancelling.returned { result := none, err := some Error.ErrBookingNotFound }
    | Except.ok booking =>
      if booking.Status = BookingStatus.StatusCancelled then
        Cancelling.returned
          { result := none, err := some (Error.New "booking is already cancelled") }
      else
        Cancelling.loaded booking (decide (booking.Status = BookingStatus.StatusConfirmed))

/-- The second step of `bookingService.CancelBooking`, on the database as it is when the
call gets the lock of the event row: the locking read, the update of the booking, the
promotion when the recorded flag is set, and the commit. -/
def CancelBooking.locked (drv : Driver) (db : DB) (bookingID : Nat) (now : Time) :
    Cancelling → Reply × DB
  | Cancelling.returned reply => (reply, db)
  | Cancelling.loaded booking wasPreviouslyConfirmed =>
    -- Lock the event row
    match eventRepository.FindByIDForUpdate drv db booking.EventID with
    | Except.error err => ({ result := none, err := some err }, db)
    | Except.ok _ =>
      -- Cancel the booking
      match bookingRepository.UpdateStatus drv now db bookingID BookingStatus.StatusCancelled with
      | Except.error err => ({ result := none, err := some err }, db)
      | Except.ok tx1 =>
        let booking : Booking := { booking with Status := BookingStatus.StatusCancelled }
        let result : Option Booking := some booking
        let commit : DB → Reply × DB := fun tx =>
          match drv Call.Commit with
          | some text => ({ result := result, err := some (Error.driver text) }, db)
          | none => ({ result := result, err := none }, tx)
        -- If a confirmed booking was cancelled, promote first waitlisted
        if wasPreviouslyConfirmed then
          match bookingRepository.FindFirstWaitlisted drv tx1 booking.EventID with
          | Except.error err =>
            if err = Error.ErrRecordNotFound then commit tx1
            else ({ result := result, err := some err }, db)
          | Except.ok waitlisted =>
            match bookingRepository.UpdateStatus drv now tx1 waitlisted.ID
                BookingStatus.StatusConfirmed with
            | Except.error err => ({ result := result, err := some err }, db)
            | Except.ok tx2 => commit tx2
        else
          commit tx1

/-- A store of the clinic: the seat is taken by booking 1, bookings 2 and 3 wait. -/
def dbClinicWaiting : DB :=
  run dbClinic [Op.create healthy 1 "user-000" 100, Op.create healthy 1 "user-001" 110,
    Op.create healthy 1 "user-002" 120]

/-! ## CreateBooking calls that run at the same time -/

/-- The reads of `bookingService.CreateBooking` (steps 1 to 6) in the transaction `tx`: the
read of the event row, the window check, the double-booking check and the counts.
They end with the error the call returns, or with the booking that step 5 or 6 passes to
the insert. -/
def CreateBooking.reads (drv : Driver) (tx : DB) (eventID : Nat) (userID : String)
    (now : Time) : Except Error Booking :=
  -- 1. Lock the event row
  match eventRepository.FindByIDForUpdate drv tx eventID with
  | Except.error _ => Except.error Error.ErrEventNotFound
  | Except.ok event =>
    -- 2. Check booking window
    if now < event.BookingStartAt ∨ now > event.BookingEndAt then
      Except.error Error.ErrBookingClosed
    else
      -- 3. Check double-booking
      match bookingRepository.FindActiveByUserAndEvent drv tx userID eventID with
      | Except.ok _ => Except.error Error.ErrAlreadyBooked
      | Except.error err =>
        if err ≠ Error.ErrRecordNotFound then Except.error err
        else
          -- 4. Count confirmed seats
          match bookingRepository.CountByStatus drv tx eventID BookingStatus.StatusConfirmed with
          | Except.error err => Except.error err
          | Except.ok confirmedCount =>
            -- 5. Determine status
            if (confirmedCount : Int) < event.MaxSeats then
              Except.ok
                { ID := 0, EventID := eventID, UserID := userID,
                  Status := BookingStatus.StatusConfirmed, WaitlistOrder := none,
                  CreatedAt := 0, UpdatedAt := 0 }
            else
              -- 6. Seats full, try waitlist
              match bookingRepository.CountByStatus drv tx eventID
                  BookingStatus.StatusWaitlisted with
              | Except.error err => Except.error err
              | Except.ok waitlistedCount =>
                if (waitlistedCount : Int) < event.WaitlistLimit then
                  Except.ok
                    { ID := 0, EventID := eventID, UserID := userID,
                      Status := BookingStatus.StatusWaitlisted,
                      WaitlistOrder := some ((waitlistedCount : Int) + 1),
                      CreatedAt := 0, UpdatedAt := 0 }
                else
                  -- 7. Everything full
                  Except.error Error.ErrEventFullyBooked

/-- `CreateBooking` calls for one event that run at the same time, each a user and the
instant the call reads from the clock. `db` is the committed database, which every
statement reads. `waiting` are the calls that have not read yet, `pending` the calls whose
reads have ended with a booking to insert and that have not inserted it yet, `settled` the
calls that have returned, with their replies, in the order in which they returned. -/
structure World where
  db : DB
  waiting : List (String × Time)
  pending : List ((String × Time) × Booking)
  settled : List ((String × Time) × Reply)
  deriving DecidableEq, Repr

/-- What the scheduler lets happen next: the waiting call number `i` runs its reads, or the
pending call number `j` runs its insert and commits. -/
inductive Move where
  | reads (i : Nat)
  | insert (j : Nat)
  deriving DecidableEq, Repr

/-- One move. No call waits for another: `FindByIDForUpdate` asks for the row lock with the
setting `gorm:query_option`, which `gorm.io/gorm` does not read, so its statement is a
plain `SELECT` and the reads of a call go through while other calls are between their reads
and their insert. A call whose reads end with an error rolls back and returns at once. The
insert of a pending call is checked against the committed rows (primary key and
`idx_booking_active`) and committed. A move that names no call changes nothing. -/
def World.move (eventID : Nat) (w : World) : Move → World
  | Move.reads i =>
    match w.waiting[i]? with
    | none => w
    | some call =>
      match CreateBooking.reads healthy w.db eventID call.1 call.2 with
      | Except.error err =>
        { w with
          waiting := w.waiting.eraseIdx i
          settled := w.settled ++ [(call, { result := none, err := some err })] }
      | Except.ok booking =>
        { w with
          waiting := w.waiting.eraseIdx i
          pending := w.pending ++ [(call, booking)] }
  | Move.insert j =>
    match w.pending[j]? with
    | none => w
    | some (call, booking) =>
      match bookingRepository.Create healthy call.2 w.db booking with
      | Except.error err =>
        { w with
          pending := w.pending.eraseIdx j
          settled := w.settled ++ [(call, { result := none, err := some err })] }
      | Except.ok (row, tx) =>
        { w with
          db := tx
          pending := w.pending.eraseIdx j
          settled := w.settled ++ [(call, { result := some row, err := none })] }

/-- A schedule: the moves in the order in which they happen. -/
def World.play (eventID : Nat) (w : World) (moves : List Move) : World :=
  moves.foldl (World.move eventID) w

/-- The calls start together on the database `db`. -/
def World.start (db : DB) (calls : List (String × Time)) : World :=
  { db := db, waiting := calls, pending := [], settled := [] }

/-- Every call has returned. -/
def World.allSettled (w : World) : Bool :=
  w.waiting.isEmpty && w.pending.isEmpty

/-- The schedule that lets the first waiting call run to its end, `n` times over. -/
def oneByOne : Nat → List Move
  | 0 => []
  | n + 1 => Move.reads 0 :: Move.insert 0 :: oneByOne n

/-- Two users call for the clinic, which has one seat, at the same time. -/
def twoCalls : List (String × Time) := [("user-000", 150), ("user-001", 150)]

/-- One user calls twice for the clinic at the same time. -/
def sameUserTwice : List (String × Time) := [("user-000", 150), ("user-000", 150)]

/-- The schedule of two calls in which both read before either inserts. -/
def readsFirst : List Move :=
  [Move.reads 0, Move.reads 0, Move.insert 0, Move.insert 0]

/-! ## the booking handler -/

/-- The JSON body of a booking, `dto.BookingResponse`. -/
structure dto.BookingResponse where
  ID : Nat
  EventID : Nat
  UserID : String
  Status : BookingStatus
  WaitlistOrder : Option Int
  CreatedAt : Time
  deriving DecidableEq, Repr

/-- `dto.ToBookingResponse`. -/
def dto.ToBookingResponse (b : Booking) : dto.BookingResponse :=
  { ID := b.ID, EventID := b.EventID, UserID := b.UserID, Status := b.Status,
    WaitlistOrder := b.WaitlistOrder, CreatedAt := b.CreatedAt }

/-- What a handler call ends with: a JSON body written with a status code, an
`echo.HTTPError` returned with a status code, or the dereference of a nil booking. -/
inductive Answer where
  | JSON (code : Nat) (body : dto.BookingResponse)
  | HTTPError (code : Nat)
  | nilDereference
  deriving DecidableEq, Repr

/-- `BookingHandler.CreateBooking`. `param` is the value of `strconv.ParseUint` on the path
parameter (`none` when it reports an error), `bound` the `user_id` of the request body
after `c.Bind` (`none` when the binding reports an error). The service is a function on a
state `s`, so that a call of the service shows in the state the handler ends with. -/
def BookingHandler.CreateBooking {σ : Type} (svc : σ → Nat → String → Reply × σ) (s : σ)
    (param : Option Nat) (bound : Option String) : Answer × σ :=
  match param with
  | none => (Answer.HTTPError 400, s)
  | some eventID =>
    match bound with
    | none => (Answer.HTTPError 400, s)
    | some userID =>
      if userID = "" then (Answer.HTTPError 400, s)
      else
        match svc s eventID userID with
        | ({ result := _, err := some err }, s1) =>
          if errorsIs err Error.ErrEventNotFound then (Answer.HTTPError 404, s1)
          else if errorsIs err Error.ErrBookingClosed then (Answer.HTTPError 400, s1)
          else if errorsIs err Error.ErrAlreadyBooked then (Answer.HTTPError 409, s1)
          else if errorsIs err Error.ErrEventFullyBooked then (Answer.HTTPError 409, s1)
          else (Answer.HTTPError 500, s1)
        | ({ result := some booking, err := none }, s1) =>
          (Answer.JSON 201 (dto.ToBookingResponse booking), s1)
        | ({ result := none, err := none }, s1) => (Answer.nilDereference, s1)

/-! ## the event handler of the event-service -/

/-- The request body of the event creation, `dto.CreateEventRequest`. The `validate` tags of
its fields are read by no code of the service. `Price` is carried as for `Event`. -/
structure dto.CreateEventRequest where
  Name : String
  MaxSeats : Int
  WaitlistLimit : Int
  Price : Nat
  BookingStartAt : Time
  BookingEndAt : Time
  deriving DecidableEq, Repr

/-- `EventHandler.CreateEvent` of the event-service, as the status code it answers. `bound`
is the request body after `c.Bind` (`none` when the binding reports an error); the service
is a function on a state `s` that gets the event the handler builds. -/
def EventHandler.CreateEvent {σ : Type} (svc : σ → Event → Option Error × σ) (s : σ)
    (bound : Option dto.CreateEventRequest) : Nat × σ :=
  match bound with
  | none => (400, s)
  | some req =>
    if req.Name = "" ∨ req.MaxSeats ≤ 0 then (400, s)
    else if ¬ (req.BookingEndAt > req.BookingStartAt) then (400, s)
    else
      let event : Event :=
        { ID := 0, Name := req.Name, MaxSeats := req.MaxSeats,
          WaitlistLimit := req.WaitlistLimit, Price := req.Price,
          BookingStartAt := req.BookingStartAt, BookingEndAt := req.BookingEndAt,
          CreatedAt := 0, UpdatedAt := 0 }
      match svc s event with
      | (some _, s1) => (500, s1)
      | (none, s1) => (201, s1)

/-- A service double in the way of `mockEventService`: it keeps the events it is given and
reports no error. -/
def mockEventService (given : List Event) (event : Event) : Option Error × List Event :=
  (none, given ++ [event])

/-- A request body with a negative waitlist limit. -/
def negativeWaitlistRequest : dto.CreateEventRequest :=
  { Name := "Golang Workshop", MaxSeats := 50, WaitlistLimit := -1, Price := 0,
    BookingStartAt := 100, BookingEndAt := 200 }

/-! ## the replication consumer -/

/-- What the consumer tells the broker about a delivery: `msg.Ack(multiple)` or
`msg.Nack(multiple, requeue)`. -/
inductive Settlement where
  | Ack (multiple : Bool)
  | Nack (multiple requeue : Bool)
  deriving DecidableEq, Repr

/-- The event row as the insert fills it in, with the rules of `Booking.filled`: the key
`gorm:"primaryKey"` comes from the sequence value `nextval` when the `ID` field is zero,
and each timestamp is stamped with `now` when it is zero. -/
def Event.filled (event : Event) (nextval : Nat) (now : Time) : Event :=
  { event with
    ID := if event.ID = 0 then nextval else event.ID
    CreatedAt := if event.CreatedAt = 0 then now else event.CreatedAt
    UpdatedAt := if event.UpdatedAt = 0 then now else event.UpdatedAt }

/-- `DO UPDATE SET` of the upsert: the stored row takes the columns `name`, `max_seats`,
`waitlist_limit`, `price`, `booking_start_at`, `booking_end_at` and `updated_at` of the
row proposed for insertion. -/
def Event.assigned (row excluded : Event) : Event :=
  { row with
    Name := excluded.Name
    MaxSeats := excluded.MaxSeats
    WaitlistLimit := excluded.WaitlistLimit
    Price := excluded.Price
    BookingStartAt := excluded.BookingStartAt
    BookingEndAt := excluded.BookingEndAt
    UpdatedAt := excluded.UpdatedAt }

/-- Some row of `events` has the given primary key. -/
def DB.hasEvent (db : DB) (id : Nat) : Bool :=
  db.events.any (fun e => decide (e.ID = id))

/-- The upsert of `EventConsumer.handleMessage`: `Create` with `ON CONFLICT (id) DO UPDATE`.
`fails` is the failure of the driver, if any, `nextval` the next value of the sequence of
`events.id`. -/
def EventConsumer.upsert (fails : Option String) (now : Time) (nextval : Nat) (db : DB)
    (event : Event) : Except Error DB :=
  match fails with
  | some text => Except.error (Error.driver text)
  | none =>
    let row := event.filled nextval now
    if db.hasEvent row.ID then
      Except.ok { db with
        events := db.events.map (fun e => if e.ID = row.ID then e.assigned row else e) }
    else
      Except.ok { db with events := db.events ++ [row] }

/-- `EventConsumer.handleMessage`: `decoded` is the event that `json.Unmarshal` reads from
the body (`none` when it reports an error). The value is the calls made on the delivery,
in order, and the database. -/
def EventConsumer.handleMessage (fails : Option String) (now : Time) (nextval : Nat) (db : DB)
    (decoded : Option Event) : List Settlement × DB :=
  match decoded with
  | none => ([Settlement.Nack false false], db)
  | some event =>
    -- Upsert: insert or update on conflict (same ID from Event Service)
    match EventConsumer.upsert fails now nextval db event with
    | Except.error _ => ([Settlement.Nack false true], db)
    | Except.ok db1 => ([Settlement.Ack false], db1)

/-- The primary key of `events`: no two rows share an id. -/
def DB.EventsPrimaryKey (db : DB) : Prop := db.events.Pairwise (fun a b => a.ID ≠ b.ID)

instance (db : DB) : Decidable db.EventsPrimaryKey :=
  inferInstanceAs (Decidable (db.events.Pairwise (fun a b : Event => a.ID ≠ b.ID)))

/-- The workshop as a message carries it when the field `updated_at` is left out. -/
def workshopUnstamped : Event :=
  { ID := 1, Name := "Golang Workshop Bangkok", MaxSeats := 2, WaitlistLimit := 1, Price := 0,
    BookingStartAt := 100, BookingEndAt := 200, CreatedAt := 90, UpdatedAt := 0 }

/-- The workshop after a change of its capacity, as the event service stamps it. -/
def workshopEnlarged : Event :=
  { ID := 1, Name := "Golang Workshop Bangkok", MaxSeats := 3, WaitlistLimit := 1, Price := 0,
    BookingStartAt := 100, BookingEndAt := 200, CreatedAt := 90, UpdatedAt := 95 }

/-- A database without events and bookings. -/
def dbBlank : DB := { events := [], bookings := [], bookings_id_seq := 0 }

/-! ## lemmas on the queries -/

theorem firstBy_eq_none {before : Booking → Booking → Bool} {l : List Booking} :
    firstBy before l = none ↔ l = [] := by
  cases l with
  | nil => simp [firstBy]
  | cons b rest =>
    simp only [firstBy]
    cases firstBy before rest with
    | none => simp
    | some m => by_cases h : before m b = true <;> simp [h]

theorem firstBy_mem {before : Booking → Booking → Bool} {l : List Booking} {m : Booking}
    (h : firstBy before l = some m) : m ∈ l := by
  induction l generalizing m with
  | nil => simp [firstBy] at h
  | cons b rest ih =>
    simp only [firstBy] at h
    cases hr : firstBy before rest with
    | none => simp [hr] at h; simp [h]
    | some m0 =>
      simp only [hr] at h
      by_cases hb : before m0 b = true
      · simp [hb] at h; subst h; exact List.mem_cons_of_mem _ (ih hr)
      · simp [hb] at h; simp [h]

theorem activeFor_eq_nil {db : DB} {userID : String} {eventID : Nat} :
    db.activeFor userID eventID = [] ↔
      ∀ b ∈ db.bookings, b.EventID = eventID → b.UserID = userID →
        b.Status = BookingStatus.StatusCancelled := by
  simp only [DB.activeFor, List.filter_eq_nil_iff]
  constructor
  · intro h b hb he hu
    have := h b hb
    simpa [he, hu] using this
  · intro h b hb
    have := h b hb
    simp only [Bool.and_eq_true, decide_eq_true_eq, not_and]
    intro hu hs
    exact hs (this hu.2 hu.1)

/-! ## one call of CreateBooking -/

/-- No event row (or a failed locking read): `ErrEventNotFound`, nothing written. -/
theorem CreateBooking_no_event (drv : Driver) (db : DB) (eventID : Nat) (userID : String)
    (now : Time) (hbegin : drv Call.Begin = none) (h : db.eventRow eventID = none) :
    CreateBooking drv db eventID userID now =
      ({ result := none, err := some Error.ErrEventNotFound }, db) := by
  unfold CreateBooking Transaction eventRepository.FindByIDForUpdate
  cases drv Call.FindByIDForUpdate <;> simp [hbegin, h]

/-- Outside the window: `ErrBookingClosed`, nothing written. -/
theorem CreateBooking_closed (drv : Driver) (db : DB) (eventID : Nat) (userID : String)
    (now : Time) (event : Event) (h : db.eventRow eventID = some event)
    (hbegin : drv Call.Begin = none) (hlock : drv Call.FindByIDForUpdate = none)
    (hw : now < event.BookingStartAt ∨ now > event.BookingEndAt) :
    CreateBooking drv db eventID userID now =
      ({ result := none, err := some Error.ErrBookingClosed }, db) := by
  unfold CreateBooking Transaction eventRepository.FindByIDForUpdate
  simp [hbegin, hlock, h, hw]

theorem window_open {a b now : Time} (hw : a ≤ now ∧ now ≤ b) : ¬ (now < a ∨ now > b) := by
  rintro (h | h)
  · exact absurd h (not_lt.mpr hw.1)
  · exact absurd h (not_lt.mpr hw.2)

/-- The user already holds an active booking: `ErrAlreadyBooked`, nothing written. -/
theorem CreateBooking_already (db : DB) (eventID : Nat) (userID : String) (now : Time)
    (event : Event) (h : db.eventRow eventID = some event)
    (hw : event.BookingStartAt ≤ now ∧ now ≤ event.BookingEndAt)
    (ha : db.activeFor userID eventID ≠ []) :
    CreateBooking healthy db eventID userID now =
      ({ result := none, err := some Error.ErrAlreadyBooked }, db) := by
  have hw2 := window_open hw
  unfold CreateBooking Transaction eventRepository.FindByIDForUpdate
    bookingRepository.FindActiveByUserAndEvent
  cases hf : firstBy idBefore (db.activeFor userID eventID) with
  | none => exact absurd (firstBy_eq_none.mp hf) ha
  | some m => simp [healthy, h, hw2, hf]

theorem Create_ok (db : DB) (eventID : Nat) (userID : String) (status : BookingStatus)
    (order : Option Int) (now : Time) (hseq : db.SeqAhead)
    (ha : db.activeFor userID eventID = []) :
    bookingRepository.Create healthy now db
        { ID := 0, EventID := eventID, UserID := userID, Status := status,
          WaitlistOrder := order, CreatedAt := 0, UpdatedAt := 0 } =
      Except.ok (newRow db eventID userID status order now,
        db.inserted (newRow db eventID userID status order now)) := by
  have hpk : db.hasKey (db.bookings_id_seq + 1) = false := by
    unfold DB.hasKey
    rw [List.any_eq_false]
    intro b hb
    have := hseq b hb
    simp only [decide_eq_true_eq]
    omega
  have hidx : db.hasActive eventID userID = false := by
    unfold DB.hasActive
    rw [List.any_eq_false]
    intro b hb
    have := activeFor_eq_nil.mp ha b hb
    simp only [Booking.active, Bool.and_eq_true, decide_eq_true_eq, not_and]
    intro hs hu
    exact hs.1 (this hs.2 hu)
  unfold bookingRepository.Create
  simp [healthy, Booking.filled, hpk, hidx, newRow, DB.inserted]

/-- A seat is free: the confirmed row is inserted and returned. -/
theorem CreateBooking_seat (db : DB) (eventID : Nat) (userID : String) (now : Time)
    (event : Event) (h : db.eventRow eventID = some event)
    (hw : event.BookingStartAt ≤ now ∧ now ≤ event.BookingEndAt)
    (ha : db.activeFor userID eventID = [])
    (hc : (db.count eventID BookingStatus.StatusConfirmed : Int) < event.MaxSeats)
    (hseq : db.SeqAhead) :
    CreateBooking healthy db eventID userID now =
      ({ result := some (newRow db eventID userID BookingStatus.StatusConfirmed none now),
         err := none },
       db.inserted (newRow db eventID userID BookingStatus.StatusConfirmed none now)) := by
  have hw2 := window_open hw
  have hf : firstBy idBefore (db.activeFor userID eventID) = none := firstBy_eq_none.mpr ha
  have hcr := Create_ok db eventID userID BookingStatus.StatusConfirmed none now hseq ha
  unfold CreateBooking Transaction eventRepository.FindByIDForUpdate
    bookingRepository.FindActiveByUserAndEvent bookingRepository.CountByStatus
  simp only [healthy] at hcr ⊢
  simp [h, hw2, hf, hc, hcr]

/-- No seat, but room on the waitlist: the waitlisted row is inserted and returned. -/
theorem CreateBooking_waitlist (db : DB) (eventID : Nat) (userID : String) (now : Time)
    (event : Event) (h : db.eventRow eventID = some event)
    (hw : event.BookingStartAt ≤ now ∧ now ≤ event.BookingEndAt)
    (ha : db.activeFor userID eventID = [])
    (hc : event.MaxSeats ≤ (db.count eventID BookingStatus.StatusConfirmed : Int))
    (hq : (db.count eventID BookingStatus.StatusWaitlisted : Int) < event.WaitlistLimit)
    (hseq : db.SeqAhead) :
    CreateBooking healthy db eventID userID now =
      ({ result := some (newRow db eventID userID BookingStatus.StatusWaitlisted
            (some ((db.count eventID BookingStatus.StatusWaitlisted : Int) + 1)) now),
         err := none },
       db.inserted (newRow db eventID userID BookingStatus.StatusWaitlisted
            (some ((db.count eventID BookingStatus.StatusWaitlisted : Int) + 1)) now)) := by
  have hw2 := window_open hw
  have hf : firstBy idBefore (db.activeFor userID eventID) = none := firstBy_eq_none.mpr ha
  have hcr := Create_ok db eventID userID BookingStatus.StatusWaitlisted
    (some ((db.count eventID BookingStatus.StatusWaitlisted : Int) + 1)) now hseq ha
  have hc2 : ¬ ((db.count eventID BookingStatus.StatusConfirmed : Int) < event.MaxSeats) :=
    not_lt.mpr hc
  unfold CreateBooking Transaction eventRepository.FindByIDForUpdate
    bookingRepository.FindActiveByUserAndEvent bookingRepository.CountByStatus
  simp only [healthy] at hcr ⊢
  simp [h, hw2, hf, hc2, hq, hcr]

/-- No seat and no room on the waitlist: `ErrEventFullyBooked`, nothing written. -/
theorem CreateBooking_full (db : DB) (eventID : Nat) (userID : String) (now : Time)
    (event : Event) (h : db.eventRow eventID = some event)
    (hw : event.BookingStartAt ≤ now ∧ now ≤ event.BookingEndAt)
    (ha : db.activeFor userID eventID = [])
    (hc : event.MaxSeats ≤ (db.count eventID BookingStatus.StatusConfirmed : Int))
    (hq : event.WaitlistLimit ≤ (db.count eventID BookingStatus.StatusWaitlisted : Int)) :
    CreateBooking healthy db eventID userID now =
      ({ result := none, err := some Error.ErrEventFullyBooked }, db) := by
  have hw2 := window_open hw
  have hf : firstBy idBefore (db.activeFor userID eventID) = none := firstBy_eq_none.mpr ha
  have hc2 : ¬ ((db.count eventID BookingStatus.StatusConfirmed : Int) < event.MaxSeats) :=
    not_lt.mpr hc
  have hq2 : ¬ ((db.count eventID BookingStatus.StatusWaitlisted : Int) < event.WaitlistLimit) :=
    not_lt.mpr hq
  unfold CreateBooking Transaction eventRepository.FindByIDForUpdate
    bookingRepository.FindActiveByUserAndEvent bookingRepository.CountByStatus
  simp [healthy, h, hw2, hf, hc2, hq2]

/-! ## what a successful repository call tells -/

theorem FindByIDForUpdate_ok {drv : Driver} {db : DB} {id : Nat} {event : Event}
    (h : eventRepository.FindByIDForUpdate drv db id = Except.ok event) :
    db.eventRow id = some event ∧ drv Call.FindByIDForUpdate = none := by
  unfold eventRepository.FindByIDForUpdate at h
  cases hd : drv Call.FindByIDForUpdate with
  | some text => simp [hd] at h
  | none =>
    cases he : db.eventRow id with
    | none => simp [hd, he] at h
    | some ev => simp [hd, he] at h; simp [h]

theorem FindActive_notFound {drv : Driver} {db : DB} {userID : String} {eventID : Nat}
    (h : bookingRepository.FindActiveByUserAndEvent drv db userID eventID =
      Except.error Error.ErrRecordNotFound) :
    db.activeFor userID eventID = [] ∧ drv Call.FindActiveByUserAndEvent = none := by
  unfold bookingRepository.FindActiveByUserAndEvent at h
  cases hd : drv Call.FindActiveByUserAndEvent with
  | some text => simp [hd] at h
  | none =>
    cases hf : firstBy idBefore (db.activeFor userID eventID) with
    | none => exact ⟨firstBy_eq_none.mp hf, rfl⟩
    | some m => simp [hd, hf] at h

theorem CountByStatus_ok {drv : Driver} {db : DB} {eventID : Nat} {status : BookingStatus}
    {n : Nat} (h : bookingRepository.CountByStatus drv db eventID status = Except.ok n) :
    n = db.count eventID status ∧ drv (Call.CountByStatus status) = none := by
  unfold bookingRepository.CountByStatus at h
  cases hd : drv (Call.CountByStatus status) with
  | some text => simp [hd] at h
  | none => simp [hd] at h; simp [h]

/-- A successful insert of a booking built by the service: the row is `newRow`, its key is
fresh, and when it is active no active row of the same (event, user) was there. -/
theorem Create_inv {drv : Driver} {db : DB} {eventID : Nat} {userID : String}
    {status : BookingStatus} {order : Option Int} {now : Time} {row : Booking} {tx : DB}
    (h : bookingRepository.Create drv now db
        { ID := 0, EventID := eventID, UserID := userID, Status := status,
          WaitlistOrder := order, CreatedAt := 0, UpdatedAt := 0 } = Except.ok (row, tx)) :
    row = newRow db eventID userID status order now ∧ tx = db.inserted row ∧
      (∀ b ∈ db.bookings, b.ID ≠ db.bookings_id_seq + 1) ∧
      (status ≠ BookingStatus.StatusCancelled → ∀ b ∈ db.bookings,
        b.active = true → b.EventID = eventID → b.UserID ≠ userID) ∧
      drv Call.Create = none := by
  unfold bookingRepository.Create at h
  cases hd : drv Call.Create with
  | some text => simp [hd] at h
  | none =>
    simp only [hd, Booking.filled, if_true] at h
    cases hpk : db.hasKey (db.bookings_id_seq + 1) with
    | true => simp [hpk] at h
    | false =>
      cases hidx : db.hasActive eventID userID with
      | true =>
        by_cases hs : status = BookingStatus.StatusCancelled
        · subst hs
          simp only [hpk, hidx, Booking.active] at h
          simp only [Bool.false_eq_true, if_false, ne_eq, not_true_eq_false, decide_False,
            Bool.false_and, Except.ok.injEq, Prod.mk.injEq] at h
          refine ⟨?_, ?_, ?_, ?_, rfl⟩
          · rw [← h.1]; simp [newRow]
          · rw [← h.2, ← h.1]; simp [DB.inserted]
          · intro b hb hid
            have := List.any_eq_false.mp hpk b hb
            simp [hid] at this
          · intro hne; exact absurd rfl hne
        · simp [hpk, hidx, Booking.active, hs] at h
      | false =>
        simp only [hpk, hidx, Bool.and_false, Bool.false_eq_true, if_false, Except.ok.injEq,
          Prod.mk.injEq] at h
        refine ⟨?_, ?_, ?_, ?_, rfl⟩
        · rw [← h.1]; simp [newRow]
        · rw [← h.2, ← h.1]; simp [DB.inserted]
        · intro b hb hid
          have := List.any_eq_false.mp hpk b hb
          simp [hid] at this
        · intro _ b hb hact he hu
          have := List.any_eq_false.mp hidx b hb
          simp [hact, he, hu] at this

/-- Every call of `CreateBooking`, whatever the driver does: either it fails and the
database is what it was, or it inserts one row, confirmed when a seat was free and
waitlisted with the next order when only the waitlist had room. -/
theorem CreateBooking_inv (drv : Driver) (db : DB) (eventID : Nat) (userID : String)
    (now : Time) :
    ((CreateBooking drv db eventID userID now).1.err ≠ none ∧
      (CreateBooking drv db eventID userID now).2 = db ∧
      (drv Call.Commit = none → (CreateBooking drv db eventID userID now).1.result = none)) ∨
    ∃ event status order,
      db.eventRow eventID = some event ∧
      ¬ (now < event.BookingStartAt ∨ now > event.BookingEndAt) ∧
      db.activeFor userID eventID = [] ∧
      (∀ b ∈ db.bookings, b.ID ≠ db.bookings_id_seq + 1) ∧
      CreateBooking drv db eventID userID now =
        ({ result := some (newRow db eventID userID status order now), err := none },
          db.inserted (newRow db eventID userID status order now)) ∧
      ((status = BookingStatus.StatusConfirmed ∧ order = none ∧
          (db.count eventID BookingStatus.StatusConfirmed : Int) < event.MaxSeats) ∨
       (status = BookingStatus.StatusWaitlisted ∧
          order = some ((db.count eventID BookingStatus.StatusWaitlisted : Int) + 1) ∧
          event.MaxSeats ≤ (db.count eventID BookingStatus.StatusConfirmed : Int) ∧
          (db.count eventID BookingStatus.StatusWaitlisted : Int) < event.WaitlistLimit)) := by
  unfold CreateBooking Transaction
  beta_reduce
  cases hB : drv Call.Begin with
  | some text => left; simp
  | none =>
    cases hE : eventRepository.FindByIDForUpdate drv db eventID with
    | error err => left; simp [hE]
    | ok event =>
      obtain ⟨hev, -⟩ := FindByIDForUpdate_ok hE
      by_cases hw : now < event.BookingStartAt ∨ now > event.BookingEndAt
      · left; simp [hE, hw]
      · cases hA : bookingRepository.FindActiveByUserAndEvent drv db userID eventID with
        | ok found => left; simp [hE, hw, hA]
        | error err =>
          by_cases hne : err = Error.ErrRecordNotFound
          · subst hne
            obtain ⟨hact, -⟩ := FindActive_notFound hA
            cases hC : bookingRepository.CountByStatus drv db eventID
                BookingStatus.StatusConfirmed with
            | error err => left; simp [hE, hA, hC, hw]
            | ok confirmedCount =>
              obtain ⟨hcc, -⟩ := CountByStatus_ok hC
              subst hcc
              by_cases hseat : (db.count eventID BookingStatus.StatusConfirmed : Int) < event.MaxSeats
              · cases hK : bookingRepository.Create drv now db
                    { ID := 0, EventID := eventID, UserID := userID,
                      Status := BookingStatus.StatusConfirmed, WaitlistOrder := none,
                      CreatedAt := 0, UpdatedAt := 0 } with
                | error err => left; simp [hE, hA, hC, hw, hseat, hK]
                | ok pr =>
                  obtain ⟨row, tx⟩ := pr
                  obtain ⟨hrow, htx, hfresh, -, -⟩ := Create_inv hK
                  subst hrow; subst htx
                  cases hcommit : drv Call.Commit with
                  | some text => left; simp [hE, hA, hC, hw, hseat, hK, hcommit]
                  | none =>
                    right
                    refine ⟨event, BookingStatus.StatusConfirmed, none, hev, hw, hact, hfresh, ?_,
                      Or.inl ⟨rfl, rfl, hseat⟩⟩
                    simp [hE, hA, hC, hw, hseat, hK, hcommit]
              · cases hQ : bookingRepository.CountByStatus drv db eventID
                    BookingStatus.StatusWaitlisted with
                | error err => left; simp [hE, hA, hC, hw, hseat, hQ]
                | ok waitlistedCount =>
                  obtain ⟨hqc, -⟩ := CountByStatus_ok hQ
                  subst hqc
                  by_cases hroom :
                      (db.count eventID BookingStatus.StatusWaitlisted : Int) < event.WaitlistLimit
                  · cases hK : bookingRepository.Create drv now db
                        { ID := 0, EventID := eventID, UserID := userID,
                          Status := BookingStatus.StatusWaitlisted,
                          WaitlistOrder :=
                            some ((db.count eventID BookingStatus.StatusWaitlisted : Int) + 1),
                          CreatedAt := 0, UpdatedAt := 0 } with
                    | error err => left; simp [hE, hA, hC, hw, hseat, hQ, hroom, hK]
                    | ok pr =>
                      obtain ⟨row, tx⟩ := pr
                      obtain ⟨hrow, htx, hfresh, -, -⟩ := Create_inv hK
                      subst hrow; subst htx
                      cases hcommit : drv Call.Commit with
                      | some text => left; simp [hE, hA, hC, hw, hseat, hQ, hroom, hK, hcommit]
                      | none =>
                        right
                        refine ⟨event, BookingStatus.StatusWaitlisted, _, hev, hw, hact, hfresh, ?_,
                          Or.inr ⟨rfl, rfl, not_lt.mp hseat, hroom⟩⟩
                        simp [hE, hA, hC, hw, hseat, hQ, hroom, hK, hcommit]
                  · left; simp [hE, hA, hC, hw, hseat, hQ, hroom]
          · left; simp [hE, hA, hw, hne]

/-! ## what a failed repository call tells -/

theorem FindActive_err {drv : Driver} {db : DB} {userID : String} {eventID : Nat} {err : Error}
    (h : bookingRepository.FindActiveByUserAndEvent drv db userID eventID = Except.error err) :
    err = Error.ErrRecordNotFound ∨ ∃ text, err = Error.driver text := by
  unfold bookingRepository.FindActiveByUserAndEvent at h
  cases hd : drv Call.FindActiveByUserAndEvent with
  | some text => simp [hd] at h; exact Or.inr ⟨text, h.symm⟩
  | none =>
    cases hf : firstBy idBefore (db.activeFor userID eventID) with
    | none => simp [hd, hf] at h; exact Or.inl h.symm
    | some m => simp [hd, hf] at h

theorem FindActive_found {drv : Driver} {db : DB} {userID : String} {eventID : Nat}
    {found : Booking}
    (h : bookingRepository.FindActiveByUserAndEvent drv db userID eventID = Except.ok found) :
    db.activeFor userID eventID ≠ [] := by
  unfold bookingRepository.FindActiveByUserAndEvent at h
  cases hd : drv Call.FindActiveByUserAndEvent with
  | some text => simp [hd] at h
  | none =>
    cases hf : firstBy idBefore (db.activeFor userID eventID) with
    | none => simp [hd, hf] at h
    | some m => exact List.ne_nil_of_mem (firstBy_mem hf)

theorem CountByStatus_err {drv : Driver} {db : DB} {eventID : Nat} {status : BookingStatus}
    {err : Error} (h : bookingRepository.CountByStatus drv db eventID status = Except.error err) :
    ∃ text, err = Error.driver text := by
  unfold bookingRepository.CountByStatus at h
  cases hd : drv (Call.CountByStatus status) with
  | some text => simp [hd] at h; exact ⟨text, h.symm⟩
  | none => simp [hd] at h

theorem Create_err {drv : Driver} {db : DB} {now : Time} {booking : Booking} {err : Error}
    (h : bookingRepository.Create drv now db booking = Except.error err) :
    ∃ text, err = Error.driver text := by
  unfold bookingRepository.Create at h
  cases hd : drv Call.Create with
  | some text => simp [hd] at h; exact ⟨text, h.symm⟩
  | none =>
    simp only [hd] at h
    split_ifs at h <;> exact ⟨_, (Except.error.inj h).symm⟩

/-- The error of a failed `CreateBooking`, whatever the driver does, and what it tells. -/
theorem CreateBooking_err_inv (drv : Driver) (db : DB) (eventID : Nat) (userID : String)
    (now : Time) (err : Error)
    (h : (CreateBooking drv db eventID userID now).1.err = some err) :
    (err = Error.ErrEventNotFound ∧
      (db.eventRow eventID = none ∨ drv Call.FindByIDForUpdate ≠ none)) ∨
    (err = Error.ErrBookingClosed ∧ ∃ event, db.eventRow eventID = some event ∧
      (now < event.BookingStartAt ∨ now > event.BookingEndAt)) ∨
    (err = Error.ErrAlreadyBooked ∧ db.activeFor userID eventID ≠ []) ∨
    (err = Error.ErrEventFullyBooked ∧ ∃ event, db.eventRow eventID = some event ∧
      db.activeFor userID eventID = [] ∧
      event.MaxSeats ≤ (db.count eventID BookingStatus.StatusConfirmed : Int) ∧
      event.WaitlistLimit ≤ (db.count eventID BookingStatus.StatusWaitlisted : Int)) ∨
    (∃ text, err = Error.driver text) := by
  unfold CreateBooking Transaction at h
  beta_reduce at h
  cases hB : drv Call.Begin with
  | some text =>
    simp [hB] at h
    right; right; right; right
    exact ⟨text, h.symm⟩
  | none =>
    simp only [hB] at h
    cases hE : eventRepository.FindByIDForUpdate drv db eventID with
    | error e0 =>
      simp [hE] at h
      left
      refine ⟨h.symm, ?_⟩
      unfold eventRepository.FindByIDForUpdate at hE
      cases hd : drv Call.FindByIDForUpdate with
      | some text => right; simp
      | none =>
        left
        cases hr : db.eventRow eventID with
        | none => rfl
        | some ev => simp [hd, hr] at hE
    | ok event =>
      obtain ⟨hev, -⟩ := FindByIDForUpdate_ok hE
      by_cases hw : now < event.BookingStartAt ∨ now > event.BookingEndAt
      · simp [hE, hw] at h
        right; left
        exact ⟨h.symm, event, hev, hw⟩
      · cases hA : bookingRepository.FindActiveByUserAndEvent drv db userID eventID with
        | ok found =>
          simp [hE, hw, hA] at h
          right; right; left
          exact ⟨h.symm, FindActive_found hA⟩
        | error e1 =>
          by_cases hne : e1 = Error.ErrRecordNotFound
          · subst hne
            obtain ⟨hact, -⟩ := FindActive_notFound hA
            cases hC : bookingRepository.CountByStatus drv db eventID
                BookingStatus.StatusConfirmed with
            | error e2 =>
              simp [hE, hw, hA, hC] at h
              obtain ⟨text, ht⟩ := CountByStatus_err hC
              right; right; right; right
              exact ⟨text, by rw [← h, ht]⟩
            | ok confirmedCount =>
              obtain ⟨hcc, -⟩ := CountByStatus_ok hC
              subst hcc
              by_cases hseat : (db.count eventID BookingStatus.StatusConfirmed : Int) < event.MaxSeats
              · cases hK : bookingRepository.Create drv now db
                    { ID := 0, EventID := eventID, UserID := userID,
                      Status := BookingStatus.StatusConfirmed, WaitlistOrder := none,
                      CreatedAt := 0, UpdatedAt := 0 } with
                | error e3 =>
                  simp [hE, hw, hA, hC, hseat, hK] at h
                  obtain ⟨text, ht⟩ := Create_err hK
                  right; right; right; right
                  exact ⟨text, by rw [← h, ht]⟩
                | ok pr =>
                  obtain ⟨row, tx⟩ := pr
                  cases hcommit : drv Call.Commit with
                  | some text =>
                    simp [hE, hw, hA, hC, hseat, hK, hcommit] at h
                    right; right; right; right
                    exact ⟨text, h.symm⟩
                  | none => simp [hE, hw, hA, hC, hseat, hK, hcommit] at h
              · cases hQ : bookingRepository.CountByStatus drv db eventID
                    BookingStatus.StatusWaitlisted with
                | error e2 =>
                  simp [hE, hw, hA, hC, hseat, hQ] at h
                  obtain ⟨text, ht⟩ := CountByStatus_err hQ
                  right; right; right; right
                  exact ⟨text, by rw [← h, ht]⟩
                | ok waitlistedCount =>
                  obtain ⟨hqc, -⟩ := CountByStatus_ok hQ
                  subst hqc
                  by_cases hroom :
                      (db.count eventID BookingStatus.StatusWaitlisted : Int) < event.WaitlistLimit
                  · cases hK : bookingRepository.Create drv now db
                        { ID := 0, EventID := eventID, UserID := userID,
                          Status := BookingStatus.StatusWaitlisted,
                          WaitlistOrder :=
                            some ((db.count eventID BookingStatus.StatusWaitlisted : Int) + 1),
                          CreatedAt := 0, UpdatedAt := 0 } with
                    | error e3 =>
                      simp [hE, hw, hA, hC, hseat, hQ, hroom, hK] at h
                      obtain ⟨text, ht⟩ := Create_err hK
                      right; right; right; right
                      exact ⟨text, by rw [← h, ht]⟩
                    | ok pr =>
                      obtain ⟨row, tx⟩ := pr
                      cases hcommit : drv Call.Commit with
                      | some text =>
                        simp [hE, hw, hA, hC, hseat, hQ, hroom, hK, hcommit] at h
                        right; right; right; right
                        exact ⟨text, h.symm⟩
                      | none => simp [hE, hw, hA, hC, hseat, hQ, hroom, hK, hcommit] at h
                  · simp [hE, hw, hA, hC, hseat, hQ, hroom] at h
                    right; right; right; left
                    exact ⟨h.symm, event, hev, hact, not_lt.mp hseat, not_lt.mp hroom⟩
          · simp [hE, hw, hA, hne] at h
            rcases FindActive_err hA with h1 | ⟨text, ht⟩
            · exact absurd h1 hne
            · right; right; right; right
              exact ⟨text, by rw [← h, ht]⟩

theorem Create_err_indep {db : DB} {booking : Booking} {t1 t2 : Time} {err : Error}
    (h : bookingRepository.Create healthy t1 db booking = Except.error err) :
    bookingRepository.Create healthy t2 db booking = Except.error err := by
  unfold bookingRepository.Create at h ⊢
  simp only [healthy] at h ⊢
  generalize (if booking.ID = 0 then db.bookings_id_seq + 1 else db.bookings_id_seq) = seq at h ⊢
  have e1 : (booking.filled seq t2).ID = (booking.filled seq t1).ID := rfl
  have e2 : (booking.filled seq t2).active = (booking.filled seq t1).active := rfl
  have e3 : (booking.filled seq t2).EventID = (booking.filled seq t1).EventID := rfl
  have e4 : (booking.filled seq t2).UserID = (booking.filled seq t1).UserID := rfl
  rw [e1, e2, e3, e4]
  cases c1 : db.hasKey (booking.filled seq t1).ID with
  | true => simpa [c1] using h
  | false =>
    cases c2 : ((booking.filled seq t1).active &&
        db.hasActive (booking.filled seq t1).EventID (booking.filled seq t1).UserID) with
    | true => simpa [c1, c2] using h
    | false => simp [c1, c2] at h

/-- With a healthy driver, an existing event, an open window and no active booking of the
user, `CreateBooking` is the seat / waitlist / full decision around the insert. -/
theorem CreateBooking_free_eq (db : DB) (eventID : Nat) (userID : String) (now : Time)
    (event : Event) (h : db.eventRow eventID = some event)
    (hw : event.BookingStartAt ≤ now ∧ now ≤ event.BookingEndAt)
    (ha : db.activeFor userID eventID = []) :
    CreateBooking healthy db eventID userID now =
      if (db.count eventID BookingStatus.StatusConfirmed : Int) < event.MaxSeats then
        match bookingRepository.Create healthy now db
            { ID := 0, EventID := eventID, UserID := userID,
              Status := BookingStatus.StatusConfirmed, WaitlistOrder := none,
              CreatedAt := 0, UpdatedAt := 0 } with
        | Except.error err => ({ result := none, err := some err }, db)
        | Except.ok (row, tx) => ({ result := some row, err := none }, tx)
      else if (db.count eventID BookingStatus.StatusWaitlisted : Int) < event.WaitlistLimit then
        match bookingRepository.Create healthy now db
            { ID := 0, EventID := eventID, UserID := userID,
              Status := BookingStatus.StatusWaitlisted,
              WaitlistOrder := some ((db.count eventID BookingStatus.StatusWaitlisted : Int) + 1),
              CreatedAt := 0, UpdatedAt := 0 } with
        | Except.error err => ({ result := none, err := some err }, db)
        | Except.ok (row, tx) => ({ result := some row, err := none }, tx)
      else ({ result := none, err := some Error.ErrEventFullyBooked }, db) := by
  have hw2 := window_open hw
  have hf : firstBy idBefore (db.activeFor userID eventID) = none := firstBy_eq_none.mpr ha
  unfold CreateBooking Transaction eventRepository.FindByIDForUpdate
    bookingRepository.FindActiveByUserAndEvent bookingRepository.CountByStatus
  simp only [healthy, h, hw2, hf]
  by_cases hseat : (db.count eventID BookingStatus.StatusConfirmed : Int) < event.MaxSeats
  · simp only [hseat, if_true, healthy]
    cases hK : bookingRepository.Create healthy now db
        { ID := 0, EventID := eventID, UserID := userID,
          Status := BookingStatus.StatusConfirmed, WaitlistOrder := none,
          CreatedAt := 0, UpdatedAt := 0 } with
    | error err => simp [hK]
    | ok pr => obtain ⟨row, tx⟩ := pr; simp [hK]
  · by_cases hroom :
        (db.count eventID BookingStatus.StatusWaitlisted : Int) < event.WaitlistLimit
    · simp only [hseat, hroom, if_true, if_false, healthy]
      cases hK : bookingRepository.Create healthy now db
          { ID := 0, EventID := eventID, UserID := userID,
            Status := BookingStatus.StatusWaitlisted,
            WaitlistOrder := some ((db.count eventID BookingStatus.StatusWaitlisted : Int) + 1),
            CreatedAt := 0, UpdatedAt := 0 } with
      | error err => simp [hK]
      | ok pr => obtain ⟨row, tx⟩ := pr; simp [hK]
    · simp [hseat, hroom]

/-- A failed call fails the same way at every other instant of the window. -/
theorem CreateBooking_fail_indep (db : DB) (eventID : Nat) (userID : String) (t1 t2 : Time)
    (event : Event) (h : db.eventRow eventID = some event)
    (hw1 : event.BookingStartAt ≤ t1 ∧ t1 ≤ event.BookingEndAt)
    (hw2 : event.BookingStartAt ≤ t2 ∧ t2 ≤ event.BookingEndAt)
    (herr : (CreateBooking healthy db eventID userID t1).1.err ≠ none) :
    CreateBooking healthy db eventID userID t2 = CreateBooking healthy db eventID userID t1 := by
  by_cases ha : db.activeFor userID eventID = []
  · rw [CreateBooking_free_eq db eventID userID t1 event h hw1 ha] at herr ⊢
    rw [CreateBooking_free_eq db eventID userID t2 event h hw2 ha]
    by_cases hseat : (db.count eventID BookingStatus.StatusConfirmed : Int) < event.MaxSeats
    · simp only [hseat, if_true] at herr ⊢
      cases hK : bookingRepository.Create healthy t1 db
          { ID := 0, EventID := eventID, UserID := userID,
            Status := BookingStatus.StatusConfirmed, WaitlistOrder := none,
            CreatedAt := 0, UpdatedAt := 0 } with
      | error err => rw [Create_err_indep hK]
      | ok pr => obtain ⟨row, tx⟩ := pr; simp [hK] at herr
    · by_cases hroom :
          (db.count eventID BookingStatus.StatusWaitlisted : Int) < event.WaitlistLimit
      · simp only [hseat, hroom, if_true, if_false] at herr ⊢
        cases hK : bookingRepository.Create healthy t1 db
            { ID := 0, EventID := eventID, UserID := userID,
              Status := BookingStatus.StatusWaitlisted,
              WaitlistOrder :=
                some ((db.count eventID BookingStatus.StatusWaitlisted : Int) + 1),
              CreatedAt := 0, UpdatedAt := 0 } with
        | error err => rw [Create_err_indep hK]
        | ok pr => obtain ⟨row, tx⟩ := pr; simp [hK] at herr
      · simp [hseat, hroom]
  · rw [CreateBooking_already db eventID userID t1 event h hw1 ha,
      CreateBooking_already db eventID userID t2 event h hw2 ha]

/-- When a call has the same reply at every instant of the window and writes nothing,
repeating it gives that reply every time. -/
theorem createAll_stuck (db : DB) (eventID : Nat) (userID : String) (event : Event)
    (reply : Reply)
    (hstuck : ∀ t, event.BookingStartAt ≤ t ∧ t ≤ event.BookingEndAt →
      CreateBooking healthy db eventID userID t = (reply, db))
    (times : List Time)
    (hw : ∀ t ∈ times, event.BookingStartAt ≤ t ∧ t ≤ event.BookingEndAt) :
    createAll db eventID (times.map (fun t => (userID, t))) =
      (List.replicate times.length reply, db) := by
  induction times with
  | nil => simp [createAll]
  | cons t ts ih =>
    have h1 := hstuck t (hw t (List.mem_cons_self _ _))
    have h2 := ih (fun x hx => hw x (List.mem_cons_of_mem _ hx))
    simp only [List.map_cons, createAll, h1, h2, List.length_cons, List.replicate_succ]

theorem inserted_activeFor (db : DB) (eventID : Nat) (userID : String)
    (status : BookingStatus) (order : Option Int) (now : Time)
    (hs : status ≠ BookingStatus.StatusCancelled) :
    (db.inserted (newRow db eventID userID status order now)).activeFor userID eventID ≠ [] := by
  apply List.ne_nil_of_mem (a := newRow db eventID userID status order now)
  simp [DB.activeFor, DB.inserted, newRow, hs]

/-- Repeated calls by one user for one event inside the window: every call after the
first fails and returns no booking, with `ErrAlreadyBooked` when the first succeeded. -/
theorem createAll_sameUser (db : DB) (eventID : Nat) (userID : String) (event : Event)
    (hev : db.eventRow eventID = some event) (t0 : Time) (times : List Time)
    (hw0 : event.BookingStartAt ≤ t0 ∧ t0 ≤ event.BookingEndAt)
    (hw : ∀ t ∈ times, event.BookingStartAt ≤ t ∧ t ≤ event.BookingEndAt) :
    ∃ reply : Reply,
      (createAll db eventID ((t0 :: times).map (fun t => (userID, t)))).1 =
        (CreateBooking healthy db eventID userID t0).1 :: List.replicate times.length reply ∧
      reply.result = none ∧ reply.err ≠ none ∧
      ((CreateBooking healthy db eventID userID t0).1.err = none →
        reply = { result := none, err := some Error.ErrAlreadyBooked }) := by
  rcases CreateBooking_inv healthy db eventID userID t0 with ⟨herr, hdb, hres⟩ | hok
  · refine ⟨(CreateBooking healthy db eventID userID t0).1, ?_, hres rfl, herr,
      fun h => absurd h herr⟩
    have hstuck : ∀ t, event.BookingStartAt ≤ t ∧ t ≤ event.BookingEndAt →
        CreateBooking healthy db eventID userID t =
          ((CreateBooking healthy db eventID userID t0).1, db) := by
      intro t ht
      rw [CreateBooking_fail_indep db eventID userID t0 t event hev hw0 ht herr]
      exact Prod.ext rfl hdb
    have := createAll_stuck db eventID userID event _ hstuck times hw
    simp only [List.map_cons, createAll, hdb, this]
  · obtain ⟨ev, status, order, -, -, -, -, heq, hkind⟩ := hok
    have hs : status ≠ BookingStatus.StatusCancelled := by
      rcases hkind with ⟨h, -⟩ | ⟨h, -⟩ <;> rw [h] <;> simp
    refine ⟨{ result := none, err := some Error.ErrAlreadyBooked }, ?_, rfl, by simp,
      fun _ => rfl⟩
    have hev2 : (db.inserted (newRow db eventID userID status order t0)).eventRow eventID =
        some event := hev
    have hstuck : ∀ t, event.BookingStartAt ≤ t ∧ t ≤ event.BookingEndAt →
        CreateBooking healthy (db.inserted (newRow db eventID userID status order t0))
          eventID userID t =
          ({ result := none, err := some Error.ErrAlreadyBooked },
            db.inserted (newRow db eventID userID status order t0)) := by
      intro t ht
      exact CreateBooking_already _ eventID userID t event hev2 ht
        (inserted_activeFor db eventID userID status order t0 hs)
    have := createAll_stuck _ eventID userID event _ hstuck times hw
    simp only [List.map_cons, createAll, heq, this]

/-- The window rejection happens exactly outside the closed interval of the two bounds. -/
theorem CreateBooking_closed_iff (drv : Driver) (db : DB) (eventID : Nat) (userID : String)
    (now : Time) (event : Event) (hev : db.eventRow eventID = some event)
    (hbegin : drv Call.Begin = none) (hlock : drv Call.FindByIDForUpdate = none) :
    (CreateBooking drv db eventID userID now).1.err = some Error.ErrBookingClosed ↔
      (now < event.BookingStartAt ∨ now > event.BookingEndAt) := by
  constructor
  · intro h
    rcases CreateBooking_err_inv drv db eventID userID now _ h with
      h1 | h1 | h1 | h1 | h1
    · exact absurd h1.1 (by simp)
    · obtain ⟨-, ev, hev2, hw⟩ := h1
      rw [hev] at hev2
      cases hev2
      exact hw
    · exact absurd h1.1 (by simp)
    · exact absurd h1.1 (by simp)
    · obtain ⟨text, ht⟩ := h1
      exact absurd ht (by simp)
  · intro hw
    rw [CreateBooking_closed drv db eventID userID now event hev hbegin hlock hw]

/-! ## the promotion order -/

theorem waitlistBefore_irrefl (a : Booking) : waitlistBefore a a = false := by
  unfold waitlistBefore
  cases a.WaitlistOrder <;> simp

theorem waitlistBefore_asymm {a b : Booking} (h : waitlistBefore a b = true) :
    waitlistBefore b a = false := by
  unfold waitlistBefore at h ⊢
  cases ha : a.WaitlistOrder <;> cases hb : b.WaitlistOrder <;> simp [ha, hb] at h ⊢
  · omega
  · omega

theorem waitlistBefore_negtrans {a b c : Booking} (h : waitlistBefore a c = true) :
    waitlistBefore a b = true ∨ waitlistBefore b c = true := by
  unfold waitlistBefore at h ⊢
  cases ha : a.WaitlistOrder <;> cases hb : b.WaitlistOrder <;> cases hc : c.WaitlistOrder <;>
    simp [ha, hb, hc] at h ⊢
  · omega
  · omega

theorem waitlistBefore_total {a b : Booking} (hne : a.ID ≠ b.ID)
    (h : waitlistBefore a b = false) : waitlistBefore b a = true := by
  unfold waitlistBefore at h ⊢
  cases ha : a.WaitlistOrder <;> cases hb : b.WaitlistOrder <;> simp [ha, hb] at h ⊢
  · omega
  · omega

/-- The row picked by `ORDER BY waitlist_order ASC, id ASC LIMIT 1` has no row before it. -/
theorem firstBy_waitlist_min {l : List Booking} {m : Booking}
    (h : firstBy waitlistBefore l = some m) : ∀ x ∈ l, waitlistBefore x m = false := by
  induction l generalizing m with
  | nil => simp [firstBy] at h
  | cons b rest ih =>
    simp only [firstBy] at h
    cases hr : firstBy waitlistBefore rest with
    | none =>
      simp only [hr, Option.some.injEq] at h
      subst h
      have hnil := firstBy_eq_none.mp hr
      subst hnil
      intro x hx
      simp only [List.mem_singleton] at hx
      subst hx
      exact waitlistBefore_irrefl _
    | some m0 =>
      simp only [hr] at h
      by_cases hb : waitlistBefore m0 b = true
      · simp only [hb, if_true, Option.some.injEq] at h
        subst h
        intro x hx
        rcases List.mem_cons.mp hx with hx | hx
        · subst hx; exact waitlistBefore_asymm hb
        · exact ih hr x hx
      · simp only [hb, Bool.false_eq_true, if_false, Option.some.injEq] at h
        subst h
        intro x hx
        rcases List.mem_cons.mp hx with hx | hx
        · subst hx; exact waitlistBefore_irrefl _
        · cases hxb : waitlistBefore x b with
          | false => rfl
          | true =>
            rcases waitlistBefore_negtrans (b := m0) hxb with h1 | h1
            · rw [ih hr x hx] at h1; exact absurd h1 (by simp)
            · exact absurd h1 hb

/-! ## what the repository calls of a cancellation tell -/

theorem FindByID_ok {drv : Driver} {db : DB} {id : Nat} {booking : Booking}
    (h : bookingRepository.FindByID drv db id = Except.ok booking) :
    booking ∈ db.bookings ∧ booking.ID = id := by
  unfold bookingRepository.FindByID at h
  cases hd : drv Call.FindByID with
  | some text => simp [hd] at h
  | none =>
    cases hf : firstBy idBefore (db.bookings.filter (fun b => decide (b.ID = id))) with
    | none => simp [hd, hf] at h
    | some m =>
      simp only [hd, hf, Except.ok.injEq] at h
      subst h
      have := firstBy_mem hf
      simpa using this

theorem UpdateStatus_ok {drv : Driver} {now : Time} {tx tx1 : DB} {bookingID : Nat}
    {status : BookingStatus}
    (h : bookingRepository.UpdateStatus drv now tx bookingID status = Except.ok tx1) :
    tx1 = tx.setStatus bookingID status now ∧
      (status ≠ BookingStatus.StatusCancelled → tx.collides bookingID = false) := by
  unfold bookingRepository.UpdateStatus at h
  cases hd : drv (Call.UpdateStatus status) with
  | some text => simp [hd] at h
  | none =>
    simp only [hd] at h
    split_ifs at h with hc
    simp only [Except.ok.injEq] at h
    refine ⟨h.symm, fun hs => ?_⟩
    cases hcol : tx.collides bookingID with
    | false => rfl
    | true => exact absurd (by simp [hs, hcol]) hc

theorem FindFirstWaitlisted_ok {drv : Driver} {tx : DB} {eventID : Nat} {w : Booking}
    (h : bookingRepository.FindFirstWaitlisted drv tx eventID = Except.ok w) :
    firstBy waitlistBefore (tx.waitlistedOf eventID) = some w := by
  unfold bookingRepository.FindFirstWaitlisted at h
  cases hd : drv Call.FindFirstWaitlisted with
  | some text => simp [hd] at h
  | none =>
    cases hf : firstBy waitlistBefore (tx.waitlistedOf eventID) with
    | none => simp [hd, hf] at h
    | some m => simp only [hd, hf, Except.ok.injEq] at h; rw [h]

theorem FindFirstWaitlisted_notFound {drv : Driver} {tx : DB} {eventID : Nat}
    (h : bookingRepository.FindFirstWaitlisted drv tx eventID =
      Except.error Error.ErrRecordNotFound) :
    tx.waitlistedOf eventID = [] := by
  unfold bookingRepository.FindFirstWaitlisted at h
  cases hd : drv Call.FindFirstWaitlisted with
  | some text => simp [hd] at h
  | none =>
    cases hf : firstBy waitlistBefore (tx.waitlistedOf eventID) with
    | none => exact firstBy_eq_none.mp hf
    | some m => simp [hd, hf] at h

/-- Every call of `CancelBooking`, whatever the driver does: either it fails and the
database is what it was, or the booking it loaded was not cancelled, it is now, and when it
was confirmed the first waitlisted booking of its event (if any) is confirmed. -/
theorem CancelBooking_inv (drv : Driver) (db : DB) (bookingID : Nat) (now : Time) :
    ((CancelBooking drv db bookingID now).1.err ≠ none ∧
      (CancelBooking drv db bookingID now).2 = db) ∨
    ∃ booking, booking ∈ db.bookings ∧ booking.ID = bookingID ∧
      booking.Status ≠ BookingStatus.StatusCancelled ∧
      (CancelBooking drv db bookingID now).1 =
        { result := some { booking with Status := BookingStatus.StatusCancelled },
          err := none } ∧
      ((booking.Status ≠ BookingStatus.StatusConfirmed ∧
          (CancelBooking drv db bookingID now).2 =
            db.setStatus bookingID BookingStatus.StatusCancelled now) ∨
       (booking.Status = BookingStatus.StatusConfirmed ∧
          (db.setStatus bookingID BookingStatus.StatusCancelled now).waitlistedOf
            booking.EventID = [] ∧
          (CancelBooking drv db bookingID now).2 =
            db.setStatus bookingID BookingStatus.StatusCancelled now) ∨
       (booking.Status = BookingStatus.StatusConfirmed ∧ ∃ w,
          firstBy waitlistBefore
            ((db.setStatus bookingID BookingStatus.StatusCancelled now).waitlistedOf
              booking.EventID) = some w ∧
          (db.setStatus bookingID BookingStatus.StatusCancelled now).collides w.ID = false ∧
          (CancelBooking drv db bookingID now).2 =
            (db.setStatus bookingID BookingStatus.StatusCancelled now).setStatus w.ID
              BookingStatus.StatusConfirmed now)) := by
  unfold CancelBooking Transaction
  beta_reduce
  cases hB : drv Call.Begin with
  | some text => left; simp
  | none =>
    cases hF : bookingRepository.FindByID drv db bookingID with
    | error err => left; simp [hF]
    | ok booking =>
      obtain ⟨hmem, hid⟩ := FindByID_ok hF
      by_cases hcan : booking.Status = BookingStatus.StatusCancelled
      · left; simp [hF, hcan]
      · cases hE : eventRepository.FindByIDForUpdate drv db booking.EventID with
        | error err => left; simp [hF, hcan, hE]
        | ok event =>
          cases hU : bookingRepository.UpdateStatus drv now db bookingID
              BookingStatus.StatusCancelled with
          | error err => left; simp [hF, hcan, hE, hU]
          | ok tx1 =>
            obtain ⟨htx1, -⟩ := UpdateStatus_ok hU
            subst htx1
            by_cases hconf : booking.Status = BookingStatus.StatusConfirmed
            · cases hW : bookingRepository.FindFirstWaitlisted drv
                  (db.setStatus bookingID BookingStatus.StatusCancelled now) booking.EventID with
              | error err =>
                by_cases hnf : err = Error.ErrRecordNotFound
                · subst hnf
                  cases hcommit : drv Call.Commit with
                  | some text => left; simp [hF, hcan, hE, hU, hconf, hW, hcommit]
                  | none =>
                    right
                    refine ⟨booking, hmem, hid, hcan, ?_, Or.inr (Or.inl
                      ⟨hconf, FindFirstWaitlisted_notFound hW, ?_⟩)⟩
                    · simp [hF, hcan, hE, hU, hconf, hW, hcommit]
                    · simp [hF, hcan, hE, hU, hconf, hW, hcommit]
                · left; simp [hF, hcan, hE, hU, hconf, hW, hnf]
              | ok w =>
                cases hP : bookingRepository.UpdateStatus drv now
                    (db.setStatus bookingID BookingStatus.StatusCancelled now) w.ID
                    BookingStatus.StatusConfirmed with
                | error err => left; simp [hF, hcan, hE, hU, hconf, hW, hP]
                | ok tx2 =>
                  obtain ⟨htx2, hcol⟩ := UpdateStatus_ok hP
                  subst htx2
                  cases hcommit : drv Call.Commit with
                  | some text => left; simp [hF, hcan, hE, hU, hconf, hW, hP, hcommit]
                  | none =>
                    right
                    refine ⟨booking, hmem, hid, hcan, ?_, Or.inr (Or.inr
                      ⟨hconf, w, FindFirstWaitlisted_ok hW, hcol (by simp), ?_⟩)⟩
                    · simp [hF, hcan, hE, hU, hconf, hW, hP, hcommit]
                    · simp [hF, hcan, hE, hU, hconf, hW, hP, hcommit]
            · cases hcommit : drv Call.Commit with
              | some text => left; simp [hF, hcan, hE, hU, hconf, hcommit]
              | none =>
                right
                refine ⟨booking, hmem, hid, hcan, ?_, Or.inl ⟨hconf, ?_⟩⟩
                · simp [hF, hcan, hE, hU, hconf, hcommit]
                · simp [hF, hcan, hE, hU, hconf, hcommit]

/-! ## the effect of an insert and of a status update on the table -/

theorem inserted_count (db : DB) (row : Booking) (eventID : Nat) (status : BookingStatus) :
    (db.inserted row).count eventID status =
      db.count eventID status +
        (if row.EventID = eventID ∧ row.Status = status then 1 else 0) := by
  unfold DB.count DB.inserted
  simp only [List.countP_append, List.countP_cons, List.countP_nil, Bool.and_eq_true,
    decide_eq_true_eq, zero_add]

theorem inserted_seqAhead (db : DB) (row : Booking) (hseq : db.SeqAhead)
    (hid : row.ID = db.bookings_id_seq + 1) : (db.inserted row).SeqAhead := by
  intro b hb
  simp only [DB.inserted, List.mem_append, List.mem_singleton] at hb ⊢
  rcases hb with hb | hb
  · have := hseq b hb; omega
  · subst hb; omega

theorem inserted_primaryKey (db : DB) (row : Booking) (hpk : db.PrimaryKey)
    (hfresh : ∀ b ∈ db.bookings, b.ID ≠ row.ID) : (db.inserted row).PrimaryKey := by
  unfold DB.PrimaryKey DB.inserted
  simp only [List.pairwise_append, List.pairwise_cons, List.not_mem_nil, false_implies,
    implies_true, List.Pairwise.nil, and_self, List.mem_singleton, forall_eq, true_and]
  exact ⟨hpk, hfresh⟩

theorem inserted_activeUnique (db : DB) (row : Booking) (hau : db.ActiveUnique)
    (hfree : db.activeFor row.UserID row.EventID = []) : (db.inserted row).ActiveUnique := by
  unfold DB.ActiveUnique DB.inserted
  simp only [List.pairwise_append, List.pairwise_cons, List.not_mem_nil, false_implies,
    implies_true, List.Pairwise.nil, and_self, List.mem_singleton, forall_eq, true_and]
  refine ⟨hau, fun a ha hact _ he hu => ?_⟩
  have := activeFor_eq_nil.mp hfree a ha he hu
  simp [Booking.active, this] at hact

/-- In a table with a primary key, a row splits the table into the rows before and after
it, none of which has its id. -/
theorem primaryKey_split {rows : List Booking} (hpk : rows.Pairwise (fun a b => a.ID ≠ b.ID))
    {b : Booking} (hb : b ∈ rows) :
    ∃ pre post, rows = pre ++ b :: post ∧ (∀ x ∈ pre, x.ID ≠ b.ID) ∧
      (∀ x ∈ post, x.ID ≠ b.ID) := by
  obtain ⟨pre, post, rfl⟩ := List.append_of_mem hb
  refine ⟨pre, post, rfl, ?_, ?_⟩
  · intro x hx
    exact (List.pairwise_append.mp hpk).2.2 x hx b (List.mem_cons_self _ _)
  · intro x hx
    have := (List.pairwise_cons.mp (List.pairwise_append.mp hpk).2.1).1 x hx
    exact fun h => this h.symm

theorem map_update_none (rows : List Booking) (id : Nat) (g : Booking → Booking)
    (h : ∀ x ∈ rows, x.ID ≠ id) : rows.map (fun b => if b.ID = id then g b else b) = rows := by
  induction rows with
  | nil => rfl
  | cons x xs ih =>
    have hx := h x (List.mem_cons_self _ _)
    simp only [List.map_cons, if_neg hx]
    rw [ih (fun y hy => h y (List.mem_cons_of_mem _ hy))]

/-- In a table with a primary key, the update of a stored row rewrites that row only. -/
theorem setStatus_split (db : DB) (hpk : db.PrimaryKey) {b : Booking} (hb : b ∈ db.bookings)
    (status : BookingStatus) (now : Time) :
    ∃ pre post, db.bookings = pre ++ b :: post ∧
      (db.setStatus b.ID status now).bookings = pre ++ b.withStatus status now :: post ∧
      (∀ x ∈ pre, x.ID ≠ b.ID) ∧ (∀ x ∈ post, x.ID ≠ b.ID) := by
  obtain ⟨pre, post, hrows, hpre, hpost⟩ := primaryKey_split hpk hb
  refine ⟨pre, post, hrows, ?_, hpre, hpost⟩
  unfold DB.setStatus
  simp only [hrows, List.map_append, List.map_cons, if_true]
  rw [map_update_none pre b.ID _ hpre, map_update_none post b.ID _ hpost]

theorem setStatus_count (db : DB) (hpk : db.PrimaryKey) {b : Booking} (hb : b ∈ db.bookings)
    (status : BookingStatus) (now : Time) (eventID : Nat) (st : BookingStatus) :
    (db.setStatus b.ID status now).count eventID st +
        (if b.EventID = eventID ∧ b.Status = st then 1 else 0) =
      db.count eventID st + (if b.EventID = eventID ∧ status = st then 1 else 0) := by
  obtain ⟨pre, post, hrows, hnew, -, -⟩ := setStatus_split db hpk hb status now
  unfold DB.count
  rw [hrows, hnew]
  simp only [List.countP_append, List.countP_cons, Booking.withStatus, Bool.and_eq_true,
    decide_eq_true_eq]
  omega

theorem setStatus_events (db : DB) (id : Nat) (status : BookingStatus) (now : Time) :
    (db.setStatus id status now).events = db.events := rfl

theorem setStatus_seq (db : DB) (id : Nat) (status : BookingStatus) (now : Time) :
    (db.setStatus id status now).bookings_id_seq = db.bookings_id_seq := rfl

theorem setStatus_primaryKey (db : DB) (id : Nat) (status : BookingStatus) (now : Time)
    (hpk : db.PrimaryKey) : (db.setStatus id status now).PrimaryKey := by
  unfold DB.PrimaryKey DB.setStatus
  rw [List.pairwise_map]
  refine hpk.imp ?_
  intro a b hab
  by_cases ha : a.ID = id <;> by_cases hbb : b.ID = id <;>
    simp [ha, hbb, Booking.withStatus] <;> simp_all

theorem setStatus_seqAhead (db : DB) (id : Nat) (status : BookingStatus) (now : Time)
    (hseq : db.SeqAhead) : (db.setStatus id status now).SeqAhead := by
  intro b hb
  simp only [DB.setStatus, List.mem_map] at hb ⊢
  obtain ⟨a, ha, rfl⟩ := hb
  have := hseq a ha
  by_cases h : a.ID = id <;> simp [h, Booking.withStatus] <;> omega

/-- A row of the updated table comes from a row of the table with the same id, event, user
and waitlist order, and with the same status unless its id is the updated one. -/
theorem mem_setStatus {db : DB} {id : Nat} {status : BookingStatus} {now : Time} {y : Booking}
    (hy : y ∈ (db.setStatus id status now).bookings) :
    ∃ x ∈ db.bookings, x.ID = y.ID ∧ x.EventID = y.EventID ∧ x.UserID = y.UserID ∧
      ((x.ID ≠ id ∧ y = x) ∨ (x.ID = id ∧ y = x.withStatus status now)) := by
  simp only [DB.setStatus, List.mem_map] at hy
  obtain ⟨x, hx, rfl⟩ := hy
  refine ⟨x, hx, ?_⟩
  by_cases h : x.ID = id <;> simp [h, Booking.withStatus]

theorem primaryKey_unique {db : DB} (hpk : db.PrimaryKey) {a b : Booking}
    (ha : a ∈ db.bookings) (hb : b ∈ db.bookings) (hid : a.ID = b.ID) : a = b := by
  obtain ⟨pre, post, hrows, hpre, hpost⟩ := primaryKey_split hpk hb
  rw [hrows] at ha
  rcases List.mem_append.mp ha with h | h
  · exact absurd hid (hpre a h)
  · rcases List.mem_cons.mp h with h | h
    · exact h
    · exact absurd hid (hpost a h)

/-- Cancelling a row that is not waitlisted leaves the waitlist of every event as it was. -/
theorem waitlistedOf_cancel (db : DB) (hpk : db.PrimaryKey) {b : Booking}
    (hb : b ∈ db.bookings) (hs : b.Status ≠ BookingStatus.StatusWaitlisted) (now : Time)
    (eventID : Nat) :
    (db.setStatus b.ID BookingStatus.StatusCancelled now).waitlistedOf eventID =
      db.waitlistedOf eventID := by
  obtain ⟨pre, post, hrows, hnew, -, -⟩ :=
    setStatus_split db hpk hb BookingStatus.StatusCancelled now
  unfold DB.waitlistedOf
  rw [hrows, hnew]
  simp [List.filter_append, List.filter_cons, Booking.withStatus, hs]

theorem mem_waitlistedOf {db : DB} {eventID : Nat} {w : Booking} :
    w ∈ db.waitlistedOf eventID ↔
      w ∈ db.bookings ∧ w.EventID = eventID ∧ w.Status = BookingStatus.StatusWaitlisted := by
  simp [DB.waitlistedOf, List.mem_filter]

theorem setStatus_setStatus (db : DB) (b w : Booking) (now : Time) (hne : w.ID ≠ b.ID) :
    ((db.setStatus b.ID BookingStatus.StatusCancelled now).setStatus w.ID
      BookingStatus.StatusConfirmed now).bookings = promotedRows db.bookings b w now := by
  unfold DB.setStatus promotedRows
  simp only [List.map_map]
  apply List.map_congr_left
  intro x _
  by_cases h1 : x.ID = b.ID
  · have h2 : ¬ b.ID = w.ID := fun h => hne h.symm
    simp [h1, Booking.withStatus, h2]
  · simp [h1]

/-- A successful cancellation of a confirmed booking of an event with a waitlist. -/
theorem CancelBooking_promotes (drv : Driver) (db : DB) (b : Booking) (now : Time)
    (hpk : db.PrimaryKey) (hb : b ∈ db.bookings)
    (hconf : b.Status = BookingStatus.StatusConfirmed)
    (hwait : db.waitlistedOf b.EventID ≠ [])
    (hok : (CancelBooking drv db b.ID now).1.err = none) :
    ∃ w, firstBy waitlistBefore (db.waitlistedOf b.EventID) = some w ∧ w.ID ≠ b.ID ∧
      w ∈ (db.setStatus b.ID BookingStatus.StatusCancelled now).bookings ∧
      (CancelBooking drv db b.ID now).1 =
        { result := some { b with Status := BookingStatus.StatusCancelled }, err := none } ∧
      (CancelBooking drv db b.ID now).2 =
        (db.setStatus b.ID BookingStatus.StatusCancelled now).setStatus w.ID
          BookingStatus.StatusConfirmed now := by
  have hnw : b.Status ≠ BookingStatus.StatusWaitlisted := by rw [hconf]; simp
  rcases CancelBooking_inv drv db b.ID now with ⟨herr, -⟩ | ⟨b2, hb2, hid, -, hrep, hcases⟩
  · exact absurd hok herr
  · have hbb : b2 = b := primaryKey_unique hpk hb2 hb hid
    subst hbb
    rcases hcases with ⟨h, -⟩ | ⟨-, hnil, -⟩ | ⟨-, w, hw, -, hdb⟩
    · exact absurd hconf h
    · rw [waitlistedOf_cancel db hpk hb hnw] at hnil
      exact absurd hnil hwait
    · have hw2 := hw
      rw [waitlistedOf_cancel db hpk hb hnw] at hw2
      have hwmem := mem_waitlistedOf.mp (firstBy_mem hw2)
      have hwmem1 := (mem_waitlistedOf.mp (firstBy_mem hw)).1
      refine ⟨w, hw2, ?_, hwmem1, hrep, hdb⟩
      intro hidw
      have := primaryKey_unique hpk hwmem.1 hb hidw
      rw [this] at hwmem
      exact hnw hwmem.2.2

/-! ## a run of CreateBooking calls by distinct users -/

theorem inserted_activeFor_other (db : DB) (eventID : Nat) (userID other : String)
    (status : BookingStatus) (order : Option Int) (now : Time) (hne : other ≠ userID) :
    (db.inserted (newRow db eventID userID status order now)).activeFor other eventID =
      db.activeFor other eventID := by
  have : ¬ userID = other := fun h => hne h.symm
  simp [DB.activeFor, DB.inserted, List.filter_append, List.filter_cons, newRow, this]

theorem createAll_alloc (eventID : Nat) (event : Event) (C W : Nat)
    (hC : event.MaxSeats = C) (hW : event.WaitlistLimit = W) :
    ∀ (calls : List (String × Time)) (db : DB) (j : Nat),
      db.eventRow eventID = some event → db.SeqAhead →
      (calls.map Prod.fst).Nodup →
      (∀ c ∈ calls, db.activeFor c.1 eventID = []) →
      (∀ c ∈ calls, event.BookingStartAt ≤ c.2 ∧ c.2 ≤ event.BookingEndAt) →
      db.count eventID BookingStatus.StatusConfirmed = min j C →
      db.count eventID BookingStatus.StatusWaitlisted = min (j - C) W →
      (createAll db eventID calls).1.length = calls.length ∧
      (∀ i call r, calls[i]? = some call → (createAll db eventID calls).1[i]? = some r →
        (((j + i) < C → ∃ b : Booking, r = { result := some b, err := none } ∧
            b.Status = BookingStatus.StatusConfirmed ∧ b.WaitlistOrder = none ∧
            b.EventID = eventID ∧ b.UserID = call.1) ∧
          (C ≤ j + i → j + i < C + W → ∃ b : Booking, r = { result := some b, err := none } ∧
            b.Status = BookingStatus.StatusWaitlisted ∧
            b.WaitlistOrder = some (((((j + i) - C : Nat)) : Int) + 1) ∧
            b.EventID = eventID ∧ b.UserID = call.1) ∧
          (C + W ≤ j + i → r = { result := none, err := some Error.ErrEventFullyBooked }))) ∧
      (createAll db eventID calls).2.count eventID BookingStatus.StatusConfirmed =
        min (j + calls.length) C ∧
      (createAll db eventID calls).2.count eventID BookingStatus.StatusWaitlisted =
        min (j + calls.length - C) W := by
  intro calls
  induction calls with
  | nil =>
    intro db j _ _ _ _ _ hc hq
    simp [createAll, hc, hq]
  | cons call rest ih =>
    intro db j hev hseq hnd hfree hwin hc hq
    obtain ⟨u, t⟩ := call
    have hu := hfree (u, t) (List.mem_cons_self _ _)
    have hwt := hwin (u, t) (List.mem_cons_self _ _)
    simp only [List.map_cons, List.nodup_cons] at hnd
    have hwin2 : ∀ c ∈ rest, event.BookingStartAt ≤ c.2 ∧ c.2 ≤ event.BookingEndAt :=
      fun c hc => hwin c (List.mem_cons_of_mem _ hc)
    have hother : ∀ c ∈ rest, c.1 ≠ u := by
      intro c hc heq
      exact hnd.1 (heq ▸ List.mem_map_of_mem Prod.fst hc)
    -- the reply of the first call and the database after it
    have key : ∃ db1 : DB, CreateBooking healthy db eventID u t =
          ((CreateBooking healthy db eventID u t).1, db1) ∧
        (((j) < C → ∃ b : Booking, (CreateBooking healthy db eventID u t).1 = { result := some b, err := none } ∧
            b.Status = BookingStatus.StatusConfirmed ∧ b.WaitlistOrder = none ∧
            b.EventID = eventID ∧ b.UserID = (u, t).1) ∧
          (C ≤ j → j < C + W → ∃ b : Booking, (CreateBooking healthy db eventID u t).1 = { result := some b, err := none } ∧
            b.Status = BookingStatus.StatusWaitlisted ∧
            b.WaitlistOrder = some (((((j) - C : Nat)) : Int) + 1) ∧
            b.EventID = eventID ∧ b.UserID = (u, t).1) ∧
          (C + W ≤ j → (CreateBooking healthy db eventID u t).1 = { result := none, err := some Error.ErrEventFullyBooked })) ∧
        db1.eventRow eventID = some event ∧ db1.SeqAhead ∧
        (∀ c ∈ rest, db1.activeFor c.1 eventID = []) ∧
        db1.count eventID BookingStatus.StatusConfirmed = min (j + 1) C ∧
        db1.count eventID BookingStatus.StatusWaitlisted = min (j + 1 - C) W := by
      by_cases h1 : j < C
      · have hseat : (db.count eventID BookingStatus.StatusConfirmed : Int) < event.MaxSeats := by
          rw [hC, hc]; omega
        have heq := CreateBooking_seat db eventID u t event hev hwt hu hseat hseq
        refine ⟨db.inserted (newRow db eventID u BookingStatus.StatusConfirmed none t),
          by rw [heq], ?_, hev, inserted_seqAhead db _ hseq rfl, ?_, ?_, ?_⟩
        · rw [heq]
          refine ⟨fun _ => ⟨_, rfl, rfl, rfl, rfl, rfl⟩, fun h => absurd h1 (by omega),
            fun h => absurd h1 (by omega)⟩
        · intro c hcm
          rw [inserted_activeFor_other db eventID u c.1 _ _ t (hother c hcm)]
          exact hfree c (List.mem_cons_of_mem _ hcm)
        · rw [inserted_count, hc]; simp [newRow]; omega
        · rw [inserted_count, hq]; simp [newRow]; omega
      · by_cases h2 : j < C + W
        · have hseat : event.MaxSeats ≤ (db.count eventID BookingStatus.StatusConfirmed : Int) := by
            rw [hC, hc]; omega
          have hroom : (db.count eventID BookingStatus.StatusWaitlisted : Int) <
              event.WaitlistLimit := by
            rw [hW, hq]; omega
          have heq := CreateBooking_waitlist db eventID u t event hev hwt hu hseat hroom hseq
          refine ⟨db.inserted (newRow db eventID u BookingStatus.StatusWaitlisted
              (some ((db.count eventID BookingStatus.StatusWaitlisted : Int) + 1)) t),
            by rw [heq], ?_, hev, inserted_seqAhead db _ hseq rfl, ?_, ?_, ?_⟩
          · rw [heq]
            refine ⟨fun h => absurd h h1, fun _ _ => ⟨_, rfl, rfl, ?_, rfl, rfl⟩,
              fun h => absurd h2 (by omega)⟩
            simp only [newRow, hq, Option.some.injEq]
            omega
          · intro c hcm
            rw [inserted_activeFor_other db eventID u c.1 _ _ t (hother c hcm)]
            exact hfree c (List.mem_cons_of_mem _ hcm)
          · rw [inserted_count, hc]; simp [newRow]; omega
          · rw [inserted_count, hq]; simp [newRow]; omega
        · have hseat : event.MaxSeats ≤ (db.count eventID BookingStatus.StatusConfirmed : Int) := by
            rw [hC, hc]; omega
          have hroom : event.WaitlistLimit ≤
              (db.count eventID BookingStatus.StatusWaitlisted : Int) := by
            rw [hW, hq]; omega
          have heq := CreateBooking_full db eventID u t event hev hwt hu hseat hroom
          refine ⟨db, by rw [heq], ?_, hev, hseq,
            fun c hcm => hfree c (List.mem_cons_of_mem _ hcm), ?_, ?_⟩
          · rw [heq]
            exact ⟨fun h => absurd h h1, fun _ h => absurd h h2, fun _ => rfl⟩
          · rw [hc]; omega
          · rw [hq]; omega
    obtain ⟨db1, heq, halloc, hev1, hseq1, hfree1, hc1, hq1⟩ := key
    have hdb1 : (CreateBooking healthy db eventID u t).2 = db1 := by rw [heq]
    obtain ⟨ilen, iall, ic, iq⟩ := ih db1 (j + 1) hev1 hseq1 hnd.2 hfree1 hwin2 hc1 hq1
    simp only [createAll, hdb1, List.length_cons]
    refine ⟨by rw [ilen], ?_, ?_, ?_⟩
    · intro i call r hcall hr
      cases i with
      | zero =>
        simp only [List.getElem?_cons_zero, Option.some.injEq] at hcall hr
        subst hcall; subst hr
        exact halloc
      | succ i =>
        simp only [List.getElem?_cons_succ] at hcall hr
        have := iall i call r hcall hr
        rw [show j + (i + 1) = j + 1 + i by omega]
        exact this
    · rw [ic]; congr 1; omega
    · rw [iq]; congr 2; omega

/-! ## the schema invariants along a run -/

theorem setStatus_cancel_activeUnique (db : DB) (id : Nat) (now : Time)
    (hau : db.ActiveUnique) :
    (db.setStatus id BookingStatus.StatusCancelled now).ActiveUnique := by
  unfold DB.ActiveUnique DB.setStatus
  rw [List.pairwise_map]
  refine hau.imp ?_
  intro a b hab
  by_cases ha : a.ID = id
  · simp only [ha, if_true, Booking.withStatus, Booking.active]
    intro h1
    simp at h1
  · by_cases hbb : b.ID = id
    · simp only [ha, hbb, if_true, if_false, Booking.withStatus, Booking.active]
      intro _ h2
      simp at h2
    · simp only [ha, hbb, if_false]
      exact hab

theorem collides_false {db : DB} {id : Nat} (h : db.collides id = false) :
    ∀ x ∈ db.bookings, x.ID = id → ∀ c ∈ db.bookings, c.ID ≠ id → c.active = true →
      c.EventID = x.EventID → c.UserID ≠ x.UserID := by
  intro x hx hid c hc hcid hact he hu
  unfold DB.collides at h
  have h1 := List.any_eq_false.mp h x hx
  simp only [hid, decide_True, Bool.true_and, List.any_eq_true, not_exists, not_and] at h1
  have h2 := h1 c hc
  simp [hcid, hact, he, hu] at h2

theorem setStatus_promote_activeUnique (db : DB) (id : Nat) (status : BookingStatus)
    (now : Time) (hpk : db.PrimaryKey) (hau : db.ActiveUnique)
    (hcol : db.collides id = false) : (db.setStatus id status now).ActiveUnique := by
  have hc := collides_false hcol
  unfold DB.ActiveUnique DB.setStatus
  rw [List.pairwise_map]
  have hboth := List.Pairwise.and hpk hau
  refine List.Pairwise.imp_of_mem ?_ hboth
  intro a b hma hmb hab
  obtain ⟨hne, hR⟩ := hab
  by_cases ha : a.ID = id
  · have hbb : b.ID ≠ id := fun h => hne (ha.trans h.symm)
    simp only [ha, hbb, if_true, if_false, Booking.withStatus]
    intro _ hactb he hu
    exact hc a hma ha b hmb hbb hactb he.symm hu.symm
  · by_cases hbb : b.ID = id
    · simp only [ha, hbb, if_true, if_false, Booking.withStatus]
      intro hacta _ he hu
      exact hc b hmb hbb a hma ha hacta he hu
    · simp only [ha, hbb, if_false]
      exact hR

theorem newRow_fields (db : DB) (eventID : Nat) (userID : String) (status : BookingStatus)
    (order : Option Int) (now : Time) :
    (newRow db eventID userID status order now).ID = db.bookings_id_seq + 1 ∧
    (newRow db eventID userID status order now).EventID = eventID ∧
    (newRow db eventID userID status order now).UserID = userID ∧
    (newRow db eventID userID status order now).Status = status :=
  ⟨rfl, rfl, rfl, rfl⟩

/-- No call changes the event store. -/
theorem step_events (db : DB) (op : Op) : (step db op).events = db.events := by
  cases op with
  | create drv eventID userID now =>
    rcases CreateBooking_inv drv db eventID userID now with ⟨-, h, -⟩ |
      ⟨_, _, _, -, -, -, -, h, -⟩
    · simp only [step, h]
    · simp only [step, h, DB.inserted]
  | cancel drv bookingID now =>
    rcases CancelBooking_inv drv db bookingID now with ⟨-, h⟩ | ⟨_, -, -, -, -, hc⟩
    · simp only [step, h]
    · rcases hc with ⟨-, h⟩ | ⟨-, -, h⟩ | ⟨-, _, -, -, h⟩ <;>
        simp only [step, h, setStatus_events]

/-- Every call keeps the primary key of `bookings`. -/
theorem step_primaryKey (db : DB) (op : Op) (hpk : db.PrimaryKey) : (step db op).PrimaryKey := by
  cases op with
  | create drv eventID userID now =>
    rcases CreateBooking_inv drv db eventID userID now with ⟨-, h, -⟩ |
      ⟨_, _, _, -, -, -, hfresh, h, -⟩
    · simp only [step, h]; exact hpk
    · simp only [step, h]
      exact inserted_primaryKey db _ hpk hfresh
  | cancel drv bookingID now =>
    rcases CancelBooking_inv drv db bookingID now with ⟨-, h⟩ | ⟨_, -, -, -, -, hc⟩
    · simp only [step, h]; exact hpk
    · rcases hc with ⟨-, h⟩ | ⟨-, -, h⟩ | ⟨-, _, -, -, h⟩ <;> simp only [step, h]
      · exact setStatus_primaryKey _ _ _ _ hpk
      · exact setStatus_primaryKey _ _ _ _ hpk
      · exact setStatus_primaryKey _ _ _ _ (setStatus_primaryKey _ _ _ _ hpk)

/-- Every call keeps the partial unique index over the active rows. -/
theorem step_activeUnique (db : DB) (op : Op) (hpk : db.PrimaryKey) (hau : db.ActiveUnique) :
    (step db op).ActiveUnique := by
  cases op with
  | create drv eventID userID now =>
    rcases CreateBooking_inv drv db eventID userID now with ⟨-, h, -⟩ |
      ⟨_, _, _, -, -, hfree, -, h, -⟩
    · simp only [step, h]; exact hau
    · simp only [step, h]
      exact inserted_activeUnique db _ hau hfree
  | cancel drv bookingID now =>
    rcases CancelBooking_inv drv db bookingID now with ⟨-, h⟩ | ⟨_, -, -, -, -, hc⟩
    · simp only [step, h]; exact hau
    · rcases hc with ⟨-, h⟩ | ⟨-, -, h⟩ | ⟨-, _, -, hcol, h⟩ <;> simp only [step, h]
      · exact setStatus_cancel_activeUnique _ _ _ hau
      · exact setStatus_cancel_activeUnique _ _ _ hau
      · exact setStatus_promote_activeUnique _ _ _ _ (setStatus_primaryKey _ _ _ _ hpk)
          (setStatus_cancel_activeUnique _ _ _ hau) hcol

/-- Every call keeps the sequence ahead of the stored keys. -/
theorem step_seqAhead (db : DB) (op : Op) (hseq : db.SeqAhead) : (step db op).SeqAhead := by
  cases op with
  | create drv eventID userID now =>
    rcases CreateBooking_inv drv db eventID userID now with ⟨-, h, -⟩ |
      ⟨_, _, _, -, -, -, -, h, -⟩
    · simp only [step, h]; exact hseq
    · simp only [step, h]
      exact inserted_seqAhead db _ hseq rfl
  | cancel drv bookingID now =>
    rcases CancelBooking_inv drv db bookingID now with ⟨-, h⟩ | ⟨_, -, -, -, -, hc⟩
    · simp only [step, h]; exact hseq
    · rcases hc with ⟨-, h⟩ | ⟨-, -, h⟩ | ⟨-, _, -, -, h⟩ <;> simp only [step, h]
      · exact setStatus_seqAhead _ _ _ _ hseq
      · exact setStatus_seqAhead _ _ _ _ hseq
      · exact setStatus_seqAhead _ _ _ _ (setStatus_seqAhead _ _ _ _ hseq)

/-- The states reached by a run keep the sequence ahead of the stored keys. -/
theorem run_seqAhead (ops : List Op) : ∀ db : DB, db.SeqAhead → (run db ops).SeqAhead := by
  induction ops with
  | nil => intro db h; exact h
  | cons op rest ih =>
    intro db h
    have := ih (step db op) (step_seqAhead db op h)
    simpa only [run, List.foldl_cons] using this

theorem run_invariants (ops : List Op) :
    ∀ db : DB, db.PrimaryKey → db.ActiveUnique →
      (run db ops).PrimaryKey ∧ (run db ops).ActiveUnique ∧ (run db ops).events = db.events := by
  induction ops with
  | nil => intro db hpk hau; exact ⟨hpk, hau, rfl⟩
  | cons op rest ih =>
    intro db hpk hau
    have := ih (step db op) (step_primaryKey db op hpk) (step_activeUnique db op hpk hau)
    simp only [run, List.foldl_cons] at this ⊢
    exact ⟨this.1, this.2.1, this.2.2.trans (step_events db op)⟩

/-- Under the partial unique index a user has at most one active booking per event. -/
theorem activeUnique_length (db : DB) (hau : db.ActiveUnique) (userID : String)
    (eventID : Nat) : (db.activeFor userID eventID).length ≤ 1 := by
  have hp : (db.activeFor userID eventID).Pairwise (fun a b =>
      a.active = true → b.active = true → a.EventID = b.EventID → a.UserID ≠ b.UserID) :=
    List.Pairwise.sublist (List.filter_sublist _) hau
  have hall : ∀ x ∈ db.activeFor userID eventID,
      x.UserID = userID ∧ x.EventID = eventID ∧ x.active = true := by
    intro x hx
    simp only [DB.activeFor, List.mem_filter, Bool.and_eq_true, decide_eq_true_eq] at hx
    exact ⟨hx.2.1.1, hx.2.1.2, by simp [Booking.active, hx.2.2]⟩
  match hl : db.activeFor userID eventID with
  | [] => simp
  | [_] => simp
  | x :: y :: rest =>
    rw [hl] at hp hall
    have hx := hall x (by simp)
    have hy := hall y (by simp)
    have := (List.pairwise_cons.mp hp).1 y (by simp) hx.2.2 hy.2.2
      (hx.2.1.trans hy.2.1.symm)
    exact absurd (hx.1.trans hy.1.symm) this

/-- A cancellation never raises the confirmed count or the waitlisted count of an event. -/
theorem CancelBooking_count_le (drv : Driver) (db : DB) (bookingID : Nat) (now : Time)
    (hpk : db.PrimaryKey) (eventID : Nat) :
    (CancelBooking drv db bookingID now).2.count eventID BookingStatus.StatusConfirmed ≤
        db.count eventID BookingStatus.StatusConfirmed ∧
    (CancelBooking drv db bookingID now).2.count eventID BookingStatus.StatusWaitlisted ≤
        db.count eventID BookingStatus.StatusWaitlisted := by
  rcases CancelBooking_inv drv db bookingID now with ⟨-, h⟩ | ⟨b, hb, hid, -, -, hc⟩
  · rw [h]; exact ⟨le_refl _, le_refl _⟩
  · subst hid
    have hc1 := setStatus_count db hpk hb BookingStatus.StatusCancelled now eventID
      BookingStatus.StatusConfirmed
    have hq1 := setStatus_count db hpk hb BookingStatus.StatusCancelled now eventID
      BookingStatus.StatusWaitlisted
    simp only [reduceCtorEq, and_false, if_false, Nat.add_zero] at hc1 hq1
    rcases hc with ⟨-, h⟩ | ⟨-, -, h⟩ | ⟨hconf, w, hw, -, h⟩
    · rw [h]; constructor <;> omega
    · rw [h]; constructor <;> omega
    · rw [h]
      obtain ⟨hwmem, hwe, hws⟩ := mem_waitlistedOf.mp (firstBy_mem hw)
      have hpk1 := setStatus_primaryKey db b.ID BookingStatus.StatusCancelled now hpk
      have hc2 := setStatus_count _ hpk1 hwmem BookingStatus.StatusConfirmed now eventID
        BookingStatus.StatusConfirmed
      have hq2 := setStatus_count _ hpk1 hwmem BookingStatus.StatusConfirmed now eventID
        BookingStatus.StatusWaitlisted
      simp only [hconf, hwe, hws, reduceCtorEq, and_false, and_true, if_false,
        Nat.add_zero] at hc1 hq1 hc2 hq2
      by_cases he : b.EventID = eventID
      · simp only [he, if_true] at hc1 hq1 hc2 hq2
        constructor <;> omega
      · simp only [he, if_false] at hc1 hq1 hc2 hq2
        constructor <;> omega

/-- Every call keeps the confirmed and the waitlisted count of an event within its capacity
and waitlist limit (a negative bound holding the count at zero). -/
theorem step_capacity (db : DB) (op : Op) (eventID : Nat) (event : Event)
    (hev : db.eventRow eventID = some event) (hpk : db.PrimaryKey)
    (hc : (db.count eventID BookingStatus.StatusConfirmed : Int) ≤ max event.MaxSeats 0)
    (hq : (db.count eventID BookingStatus.StatusWaitlisted : Int) ≤
      max event.WaitlistLimit 0) :
    ((step db op).count eventID BookingStatus.StatusConfirmed : Int) ≤ max event.MaxSeats 0 ∧
    ((step db op).count eventID BookingStatus.StatusWaitlisted : Int) ≤
      max event.WaitlistLimit 0 := by
  cases op with
  | create drv e2 userID now =>
    rcases CreateBooking_inv drv db e2 userID now with ⟨-, h, -⟩ |
      ⟨ev2, status, order, hev2, -, -, -, h, hkind⟩
    · simp only [step, h]; exact ⟨hc, hq⟩
    · simp only [step, h, inserted_count, newRow]
      by_cases he : e2 = eventID
      · subst he
        rw [hev] at hev2
        cases hev2
        rcases hkind with ⟨hs, -, hlt⟩ | ⟨hs, -, -, hlt⟩
        · subst hs
          simp only [true_and, if_true, reduceCtorEq, if_false, Nat.add_zero]
          refine ⟨?_, hq⟩
          push_cast
          exact le_max_of_le_left (by omega)
        · subst hs
          simp only [true_and, if_true, reduceCtorEq, if_false, Nat.add_zero]
          refine ⟨hc, ?_⟩
          push_cast
          exact le_max_of_le_left (by omega)
      · simp only [he, false_and, if_false, Nat.add_zero]
        exact ⟨hc, hq⟩
  | cancel drv bookingID now =>
    have := CancelBooking_count_le drv db bookingID now hpk eventID
    simp only [step]
    constructor
    · exact le_trans (by exact_mod_cast this.1) hc
    · exact le_trans (by exact_mod_cast this.2) hq

theorem run_capacity (ops : List Op) (eventID : Nat) (event : Event) :
    ∀ db : DB, db.eventRow eventID = some event → db.PrimaryKey →
      (db.count eventID BookingStatus.StatusConfirmed : Int) ≤ max event.MaxSeats 0 →
      (db.count eventID BookingStatus.StatusWaitlisted : Int) ≤ max event.WaitlistLimit 0 →
      ((run db ops).count eventID BookingStatus.StatusConfirmed : Int) ≤
        max event.MaxSeats 0 ∧
      ((run db ops).count eventID BookingStatus.StatusWaitlisted : Int) ≤
        max event.WaitlistLimit 0 := by
  induction ops with
  | nil => intro db _ _ hc hq; exact ⟨hc, hq⟩
  | cons op rest ih =>
    intro db hev hpk hc hq
    have hstep := step_capacity db op eventID event hev hpk hc hq
    have hev1 : (step db op).eventRow eventID = some event := by
      unfold DB.eventRow
      rw [step_events]
      exact hev
    have := ih (step db op) hev1 (step_primaryKey db op hpk) hstep.1 hstep.2
    simpa only [run, List.foldl_cons] using this

/-! ## one call of CancelBooking -/

theorem filter_id_eq (db : DB) (hpk : db.PrimaryKey) {b : Booking} (hb : b ∈ db.bookings) :
    db.bookings.filter (fun x => decide (x.ID = b.ID)) = [b] := by
  obtain ⟨pre, post, hrows, hpre, hpost⟩ := primaryKey_split hpk hb
  have h1 : pre.filter (fun x => decide (x.ID = b.ID)) = [] := by
    rw [List.filter_eq_nil_iff]
    intro x hx
    simpa using hpre x hx
  have h2 : post.filter (fun x => decide (x.ID = b.ID)) = [] := by
    rw [List.filter_eq_nil_iff]
    intro x hx
    simpa using hpost x hx
  rw [hrows, List.filter_append, List.filter_cons, h1, h2]
  simp

/-- With a primary key, the load by id returns the stored row. -/
theorem FindByID_found (drv : Driver) (db : DB) (hpk : db.PrimaryKey) {b : Booking}
    (hb : b ∈ db.bookings) (hd : drv Call.FindByID = none) :
    bookingRepository.FindByID drv db b.ID = Except.ok b := by
  unfold bookingRepository.FindByID
  rw [hd, filter_id_eq db hpk hb]
  simp [firstBy]

/-- The load by id of an id with no row, or a load that the driver fails, is an error. -/
theorem FindByID_absent (drv : Driver) (db : DB) (id : Nat)
    (hno : ∀ b ∈ db.bookings, b.ID ≠ id) :
    ∃ err, bookingRepository.FindByID drv db id = Except.error err := by
  unfold bookingRepository.FindByID
  cases drv Call.FindByID with
  | some text => exact ⟨_, rfl⟩
  | none =>
    have : db.bookings.filter (fun b => decide (b.ID = id)) = [] := by
      rw [List.filter_eq_nil_iff]
      intro x hx
      simpa using hno x hx
    rw [this]
    exact ⟨_, rfl⟩

/-- No row with the id: `ErrBookingNotFound`, nothing written. -/
theorem CancelBooking_absent (drv : Driver) (db : DB) (id : Nat) (now : Time)
    (hbegin : drv Call.Begin = none) (hno : ∀ b ∈ db.bookings, b.ID ≠ id) :
    CancelBooking drv db id now =
      ({ result := none, err := some Error.ErrBookingNotFound }, db) := by
  obtain ⟨err, herr⟩ := FindByID_absent drv db id hno
  unfold CancelBooking Transaction
  simp [hbegin, herr]

/-- The booking is cancelled already: the error made on the spot, nothing written. -/
theorem CancelBooking_cancelled (drv : Driver) (db : DB) (b : Booking) (now : Time)
    (hpk : db.PrimaryKey) (hb : b ∈ db.bookings)
    (hs : b.Status = BookingStatus.StatusCancelled)
    (hbegin : drv Call.Begin = none) (hload : drv Call.FindByID = none) :
    CancelBooking drv db b.ID now =
      ({ result := none, err := some (Error.New "booking is already cancelled") }, db) := by
  unfold CancelBooking Transaction
  simp [hbegin, FindByID_found drv db hpk hb hload, hs]

/-- With the partial unique index, an active row collides with no other row. -/
theorem collides_of_activeUnique (db : DB) (hpk : db.PrimaryKey) (hau : db.ActiveUnique)
    {w : Booking} (hw : w ∈ db.bookings) (hact : w.active = true) :
    db.collides w.ID = false := by
  have hsym : Symmetric (fun a b : Booking =>
      a.active = true → b.active = true → a.EventID = b.EventID → a.UserID ≠ b.UserID) := by
    intro a b h hb ha he hu
    exact h ha hb he.symm hu.symm
  have hall := List.Pairwise.forall hsym hau
  unfold DB.collides
  rw [List.any_eq_false]
  intro x hx
  simp only [Bool.and_eq_true, decide_eq_true_eq, List.any_eq_true, not_and, not_exists]
  intro hid c hc hcid
  have hxw : x = w := primaryKey_unique hpk hx hw hid
  subst hxw
  have hne : c ≠ x := fun h => hcid.1.1 (by rw [h])
  exact hall hc hx hne hcid.1.2 hact hcid.2

/-- A cancellation on the healthy driver, of a stored booking that is not cancelled and
whose event row exists. -/
theorem CancelBooking_healthy (db : DB) (b : Booking) (now : Time) (event : Event)
    (hpk : db.PrimaryKey) (hb : b ∈ db.bookings)
    (hs : b.Status ≠ BookingStatus.StatusCancelled)
    (hev : db.eventRow b.EventID = some event) :
    CancelBooking healthy db b.ID now =
      if b.Status = BookingStatus.StatusConfirmed then
        match firstBy waitlistBefore
            ((db.setStatus b.ID BookingStatus.StatusCancelled now).waitlistedOf b.EventID) with
        | none =>
          ({ result := some { b with Status := BookingStatus.StatusCancelled }, err := none },
            db.setStatus b.ID BookingStatus.StatusCancelled now)
        | some w =>
          if (db.setStatus b.ID BookingStatus.StatusCancelled now).collides w.ID = true then
            ({ result := some { b with Status := BookingStatus.StatusCancelled },
               err := some (Error.driver
                 "duplicate key value violates unique constraint idx_booking_active") }, db)
          else
            ({ result := some { b with Status := BookingStatus.StatusCancelled }, err := none },
              (db.setStatus b.ID BookingStatus.StatusCancelled now).setStatus w.ID
                BookingStatus.StatusConfirmed now)
      else
        ({ result := some { b with Status := BookingStatus.StatusCancelled }, err := none },
          db.setStatus b.ID BookingStatus.StatusCancelled now) := by
  have hload := FindByID_found healthy db hpk hb rfl
  have hev2 : (db.setStatus b.ID BookingStatus.StatusCancelled now).eventRow b.EventID =
      some event := hev
  unfold CancelBooking Transaction eventRepository.FindByIDForUpdate
    bookingRepository.UpdateStatus bookingRepository.FindFirstWaitlisted
  simp only [hload]
  by_cases hc : b.Status = BookingStatus.StatusConfirmed
  · cases hf : firstBy waitlistBefore
        ((db.setStatus b.ID BookingStatus.StatusCancelled now).waitlistedOf b.EventID) with
    | none => simp [healthy, hs, hev, hc, hf]
    | some w =>
      by_cases hcol : (db.setStatus b.ID BookingStatus.StatusCancelled now).collides w.ID = true
      · simp [healthy, hs, hev, hc, hf, hcol]
      · simp [healthy, hs, hev, hc, hf, hcol]
  · simp [healthy, hs, hev, hc]

/-- A waitlisted row of the table after the cancellation of `b` is not the row of `b`. -/
theorem waitlisted_ne_cancelled {db : DB} {b w : Booking} {now : Time} {eventID : Nat}
    (hw : w ∈ (db.setStatus b.ID BookingStatus.StatusCancelled now).waitlistedOf eventID) :
    w.ID ≠ b.ID := by
  obtain ⟨hmem, -, hst⟩ := mem_waitlistedOf.mp hw
  obtain ⟨x, -, hid, -, -, hx⟩ := mem_setStatus hmem
  rcases hx with ⟨hne, -⟩ | ⟨-, heq⟩
  · rw [← hid]; exact hne
  · rw [heq] at hst
    simp [Booking.withStatus] at hst

/-- On the healthy driver, with the schema invariants, the cancellation of a stored booking
that is not cancelled and whose event row exists succeeds. -/
theorem CancelBooking_healthy_ok (db : DB) (b : Booking) (now : Time) (event : Event)
    (hpk : db.PrimaryKey) (hau : db.ActiveUnique) (hb : b ∈ db.bookings)
    (hs : b.Status ≠ BookingStatus.StatusCancelled)
    (hev : db.eventRow b.EventID = some event) :
    (CancelBooking healthy db b.ID now).1 =
      { result := some { b with Status := BookingStatus.StatusCancelled }, err := none } ∧
    ((CancelBooking healthy db b.ID now).2 =
        db.setStatus b.ID BookingStatus.StatusCancelled now ∨
      ∃ w, w.ID ≠ b.ID ∧ b.Status = BookingStatus.StatusConfirmed ∧
        firstBy waitlistBefore
          ((db.setStatus b.ID BookingStatus.StatusCancelled now).waitlistedOf b.EventID) =
            some w ∧
        (CancelBooking healthy db b.ID now).2 =
          (db.setStatus b.ID BookingStatus.StatusCancelled now).setStatus w.ID
            BookingStatus.StatusConfirmed now) := by
  rw [CancelBooking_healthy db b now event hpk hb hs hev]
  by_cases hc : b.Status = BookingStatus.StatusConfirmed
  · cases hf : firstBy waitlistBefore
        ((db.setStatus b.ID BookingStatus.StatusCancelled now).waitlistedOf b.EventID) with
    | none => simp [hc]
    | some w =>
      have hwl := firstBy_mem hf
      obtain ⟨hmem, -, hst⟩ := mem_waitlistedOf.mp hwl
      have hcol := collides_of_activeUnique _
        (setStatus_primaryKey db b.ID BookingStatus.StatusCancelled now hpk)
        (setStatus_cancel_activeUnique db b.ID now hau) hmem
        (by simp [Booking.active, hst])
      simp only [hc, if_true, hcol, Bool.false_eq_true, if_false, true_and]
      right
      exact ⟨w, waitlisted_ne_cancelled hwl, rfl, rfl⟩
  · simp [hc]

/-- After the cancellation of `b`, with or without a promotion, the table holds `b`
cancelled and no other row with its id. -/
theorem stored_after_cancel (db : DB) (hpk : db.PrimaryKey) {b : Booking}
    (hb : b ∈ db.bookings) (now : Time) (tx : DB)
    (htx : tx = db.setStatus b.ID BookingStatus.StatusCancelled now ∨
      ∃ w : Booking, w.ID ≠ b.ID ∧
        tx = (db.setStatus b.ID BookingStatus.StatusCancelled now).setStatus w.ID
          BookingStatus.StatusConfirmed now) :
    b.withStatus BookingStatus.StatusCancelled now ∈ tx.bookings ∧
    ∀ r ∈ tx.bookings, r.ID = b.ID → r = b.withStatus BookingStatus.StatusCancelled now := by
  obtain ⟨pre, post, -, hnew, hpre, hpost⟩ :=
    setStatus_split db hpk hb BookingStatus.StatusCancelled now
  have h1 : b.withStatus BookingStatus.StatusCancelled now ∈
      (db.setStatus b.ID BookingStatus.StatusCancelled now).bookings := by
    rw [hnew]; simp
  have h2 : ∀ r ∈ (db.setStatus b.ID BookingStatus.StatusCancelled now).bookings,
      r.ID = b.ID → r = b.withStatus BookingStatus.StatusCancelled now := by
    intro r hr hid
    rw [hnew] at hr
    rcases List.mem_append.mp hr with h | h
    · exact absurd hid (hpre r h)
    · rcases List.mem_cons.mp h with h | h
      · exact h
      · exact absurd hid (hpost r h)
  rcases htx with h | ⟨w, hne, h⟩
  · rw [h]; exact ⟨h1, h2⟩
  · rw [h]
    constructor
    · simp only [DB.setStatus, List.mem_map] at h1 ⊢
      obtain ⟨x, hx, hxe⟩ := h1
      refine ⟨_, ⟨x, hx, hxe⟩, ?_⟩
      have : ¬ (b.withStatus BookingStatus.StatusCancelled now).ID = w.ID :=
        fun h => hne h.symm
      simp [this]
    · intro r hr hid
      obtain ⟨x, hx, hxid, -, -, hcase⟩ := mem_setStatus hr
      rcases hcase with ⟨-, heq⟩ | ⟨hxw, -⟩
      · rw [heq]; exact h2 x hx (hxid.trans hid)
      · exact absurd (hxw.symm.trans (hxid.trans hid)) hne

/-! ## the life of a booking row -/

theorem run_primaryKey (ops : List Op) : ∀ db : DB, db.PrimaryKey → (run db ops).PrimaryKey := by
  induction ops with
  | nil => intro db h; exact h
  | cons op rest ih =>
    intro db h
    have := ih (step db op) (step_primaryKey db op h)
    simpa only [run, List.foldl_cons] using this

theorem setStatus_row (db : DB) (id : Nat) (status : BookingStatus) (now : Time)
    {r : Booking} (hr : r ∈ db.bookings) :
    (if r.ID = id then r.withStatus status now else r) ∈
      (db.setStatus id status now).bookings := by
  simp only [DB.setStatus, List.mem_map]
  exact ⟨r, hr, rfl⟩

/-- One call and one stored row: the row is still there under its id, a cancelled row stays
cancelled, and its status either stays or goes confirmed to cancelled, waitlisted to
cancelled, or waitlisted to confirmed while the call cancels a confirmed booking of the
same event. -/
theorem step_lifecycle (db : DB) (hpk : db.PrimaryKey) (op : Op) (r : Booking)
    (hr : r ∈ db.bookings) :
    ∃ r2 ∈ (step db op).bookings, r2.ID = r.ID ∧ r2.EventID = r.EventID ∧
      r2.UserID = r.UserID ∧
      (r2.Status = r.Status ∨
       (r.Status = BookingStatus.StatusConfirmed ∧ r2.Status = BookingStatus.StatusCancelled) ∨
       (r.Status = BookingStatus.StatusWaitlisted ∧ r2.Status = BookingStatus.StatusCancelled) ∨
       (r.Status = BookingStatus.StatusWaitlisted ∧ r2.Status = BookingStatus.StatusConfirmed ∧
         ∃ drv bookingID now, op = Op.cancel drv bookingID now ∧
           ∃ b ∈ db.bookings, b.ID = bookingID ∧ b.Status = BookingStatus.StatusConfirmed ∧
             b.EventID = r.EventID ∧
             b.withStatus BookingStatus.StatusCancelled now ∈ (step db op).bookings)) := by
  cases op with
  | create drv eventID userID now =>
    rcases CreateBooking_inv drv db eventID userID now with ⟨-, h, -⟩ |
      ⟨_, _, _, -, -, -, -, h, -⟩
    · exact ⟨r, by simp only [step, h]; exact hr, rfl, rfl, rfl, Or.inl rfl⟩
    · refine ⟨r, ?_, rfl, rfl, rfl, Or.inl rfl⟩
      simp only [step, h, DB.inserted]
      exact List.mem_append_left _ hr
  | cancel drv bookingID now =>
    rcases CancelBooking_inv drv db bookingID now with ⟨-, h⟩ | ⟨b, hb, hid, hnc, -, hc⟩
    · exact ⟨r, by simp only [step, h]; exact hr, rfl, rfl, rfl, Or.inl rfl⟩
    · subst hid
      -- the row after the cancelling update
      have hrow1 := setStatus_row db b.ID BookingStatus.StatusCancelled now hr
      have hkind1 : ∀ r1 : Booking,
          r1 = (if r.ID = b.ID then r.withStatus BookingStatus.StatusCancelled now else r) →
          r1.ID = r.ID ∧ r1.EventID = r.EventID ∧ r1.UserID = r.UserID ∧
          (r1.Status = r.Status ∨
            (r.Status = BookingStatus.StatusConfirmed ∧
              r1.Status = BookingStatus.StatusCancelled) ∨
            (r.Status = BookingStatus.StatusWaitlisted ∧
              r1.Status = BookingStatus.StatusCancelled)) := by
        intro r1 h1
        by_cases hrb : r.ID = b.ID
        · have hrb2 : r = b := primaryKey_unique hpk hr hb hrb
          subst hrb2
          simp only [if_true] at h1
          subst h1
          refine ⟨rfl, rfl, rfl, ?_⟩
          cases hst : r.Status with
          | StatusConfirmed => right; left; exact ⟨rfl, rfl⟩
          | StatusWaitlisted => right; right; exact ⟨rfl, rfl⟩
          | StatusCancelled => exact absurd hst hnc
        · simp only [hrb, if_false] at h1
          subst h1
          exact ⟨rfl, rfl, rfl, Or.inl rfl⟩
      rcases hc with ⟨-, h⟩ | ⟨-, -, h⟩ | ⟨hconf, w, hw, -, h⟩
      · obtain ⟨h1, h2, h3, h4⟩ := hkind1 _ rfl
        refine ⟨_, by simp only [step, h]; exact hrow1, h1, h2, h3, ?_⟩
        rcases h4 with h4 | h4 | h4
        · exact Or.inl h4
        · exact Or.inr (Or.inl h4)
        · exact Or.inr (Or.inr (Or.inl h4))
      · obtain ⟨h1, h2, h3, h4⟩ := hkind1 _ rfl
        refine ⟨_, by simp only [step, h]; exact hrow1, h1, h2, h3, ?_⟩
        rcases h4 with h4 | h4 | h4
        · exact Or.inl h4
        · exact Or.inr (Or.inl h4)
        · exact Or.inr (Or.inr (Or.inl h4))
      · have hwl := firstBy_mem hw
        obtain ⟨hwmem, hwe, hws⟩ := mem_waitlistedOf.mp hwl
        have hwne : w.ID ≠ b.ID := waitlisted_ne_cancelled hwl
        have hpk1 := setStatus_primaryKey db b.ID BookingStatus.StatusCancelled now hpk
        have hrow2 := setStatus_row (db.setStatus b.ID BookingStatus.StatusCancelled now) w.ID
          BookingStatus.StatusConfirmed now hrow1
        have hbst := (stored_after_cancel db hpk hb now (CancelBooking drv db b.ID now).2
          (Or.inr ⟨w, hwne, h⟩)).1
        obtain ⟨h1, h2, h3, h4⟩ := hkind1 _ rfl
        by_cases hrw : (if r.ID = b.ID then r.withStatus BookingStatus.StatusCancelled now
            else r).ID = w.ID
        · -- the row is the promoted one
          have heq := primaryKey_unique hpk1 hrow1 hwmem hrw
          have hrne : r.ID ≠ b.ID := by rw [← h1, hrw]; exact hwne
          have hrw2 : r = w := by simpa only [hrne, if_false] using heq
          subst hrw2
          simp only [hrw, if_true] at hrow2
          refine ⟨_, by simp only [step, h]; exact hrow2, ?_, ?_, ?_, ?_⟩
          · simp [Booking.withStatus, hrne]
          · simp [Booking.withStatus, hrne]
          · simp [Booking.withStatus, hrne]
          · right; right; right
            refine ⟨hws, by simp [Booking.withStatus], drv, b.ID, now, rfl, b, hb, rfl, hconf,
              hwe.symm, ?_⟩
            simp only [step]
            exact hbst
        · simp only [hrw, if_false] at hrow2
          refine ⟨_, by simp only [step, h]; exact hrow2, h1, h2, h3, ?_⟩
          rcases h4 with h4 | h4 | h4
          · exact Or.inl h4
          · exact Or.inr (Or.inl h4)
          · exact Or.inr (Or.inr (Or.inl h4))

/-- Along a run a stored row stays stored under its id, and stays cancelled once it is. -/
theorem run_keeps (ops : List Op) :
    ∀ db : DB, db.PrimaryKey → ∀ r ∈ db.bookings,
      ∃ r2 ∈ (run db ops).bookings, r2.ID = r.ID ∧
        (r.Status = BookingStatus.StatusCancelled →
          r2.Status = BookingStatus.StatusCancelled) := by
  induction ops with
  | nil => intro db _ r hr; exact ⟨r, hr, rfl, id⟩
  | cons op rest ih =>
    intro db hpk r hr
    obtain ⟨r1, hr1, hid1, -, -, hkind⟩ := step_lifecycle db hpk op r hr
    obtain ⟨r2, hr2, hid2, hc2⟩ := ih (step db op) (step_primaryKey db op hpk) r1 hr1
    refine ⟨r2, by simpa only [run, List.foldl_cons] using hr2, hid2.trans hid1, ?_⟩
    intro hc
    apply hc2
    rcases hkind with h | ⟨h, -⟩ | ⟨h, -⟩ | ⟨h, -⟩
    · rw [h]; exact hc
    · rw [hc] at h; exact absurd h (by simp)
    · rw [hc] at h; exact absurd h (by simp)
    · rw [hc] at h; exact absurd h (by simp)

/-! ## storage failures and error identity -/

/-- A failed locking read in `CreateBooking` is reported as `ErrEventNotFound`, whatever
the failure and whether or not the event row exists. -/
theorem CreateBooking_lock_fault (drv : Driver) (db : DB) (eventID : Nat) (userID : String)
    (now : Time) (text : String) (hbegin : drv Call.Begin = none)
    (hlock : drv Call.FindByIDForUpdate = some text) :
    CreateBooking drv db eventID userID now =
      ({ result := none, err := some Error.ErrEventNotFound }, db) := by
  unfold CreateBooking Transaction eventRepository.FindByIDForUpdate
  simp [hbegin, hlock]

/-- A failed load of the booking in `CancelBooking` is reported as `ErrBookingNotFound`,
whatever the failure and whether or not the booking row exists. -/
theorem CancelBooking_load_fault (drv : Driver) (db : DB) (bookingID : Nat) (now : Time)
    (text : String) (hbegin : drv Call.Begin = none) (hload : drv Call.FindByID = some text) :
    CancelBooking drv db bookingID now =
      ({ result := none, err := some Error.ErrBookingNotFound }, db) := by
  unfold CancelBooking Transaction bookingRepository.FindByID
  simp [hbegin, hload]

/-- Matching `gorm.ErrRecordNotFound` is equality with that value. -/
theorem errorsIs_recordNotFound (err : Error) :
    errorsIs err Error.ErrRecordNotFound = decide (err = Error.ErrRecordNotFound) := by
  cases err <;> simp [errorsIs, Error.packageLevel]

/-- The five exported sentinels match themselves and nothing else. -/
theorem exportedErrors_distinct :
    ∀ a ∈ exportedErrors, ∀ b ∈ exportedErrors, (errorsIs a b = true ↔ a = b) := by
  decide

/-- No exported sentinel matches a driver failure. -/
theorem exportedErrors_not_driver (text : String) :
    ∀ a ∈ exportedErrors, errorsIs (Error.driver text) a = false ∧
      errorsIs a (Error.driver text) = false := by
  intro a ha
  simp only [exportedErrors, List.mem_cons, List.mem_singleton, List.not_mem_nil,
    or_false] at ha
  rcases ha with h | h | h | h | h <;> subst h <;> simp [errorsIs, Error.packageLevel]

/-! ## the waitlist orders along a run -/

theorem setStatus_ordersPositive (db : DB) (id : Nat) (status : BookingStatus) (now : Time)
    (h : db.OrdersPositive) : (db.setStatus id status now).OrdersPositive := by
  intro y hy k hk
  simp only [DB.setStatus, List.mem_map] at hy
  obtain ⟨x, hx, rfl⟩ := hy
  apply h x hx k
  by_cases hid : x.ID = id
  · simpa [hid, Booking.withStatus] using hk
  · simpa [hid] using hk

/-- Every call keeps the stored waitlist orders positive. -/
theorem step_ordersPositive (db : DB) (op : Op) (h : db.OrdersPositive) :
    (step db op).OrdersPositive := by
  cases op with
  | create drv eventID userID now =>
    rcases CreateBooking_inv drv db eventID userID now with ⟨-, hdb, -⟩ |
      ⟨_, status, order, -, -, -, -, hdb, hkind⟩
    · simp only [step, hdb]; exact h
    · simp only [step, hdb]
      intro y hy k hk
      simp only [DB.inserted, List.mem_append, List.mem_singleton] at hy
      rcases hy with hy | hy
      · exact h y hy k hk
      · subst hy
        simp only [newRow] at hk
        rcases hkind with ⟨-, ho, -⟩ | ⟨-, ho, -⟩
        · rw [ho] at hk; exact absurd hk (by simp)
        · rw [ho] at hk
          simp only [Option.some.injEq] at hk
          omega
  | cancel drv bookingID now =>
    rcases CancelBooking_inv drv db bookingID now with ⟨-, hdb⟩ | ⟨_, -, -, -, -, hc⟩
    · simp only [step, hdb]; exact h
    · rcases hc with ⟨-, hdb⟩ | ⟨-, -, hdb⟩ | ⟨-, _, -, -, hdb⟩ <;> simp only [step, hdb]
      · exact setStatus_ordersPositive _ _ _ _ h
      · exact setStatus_ordersPositive _ _ _ _ h
      · exact setStatus_ordersPositive _ _ _ _ (setStatus_ordersPositive _ _ _ _ h)

/-- In every state reached from an empty booking store the stored waitlist orders are
positive. -/
theorem run_ordersPositive (events : List Event) (seq : Nat) (ops : List Op) :
    (run { events := events, bookings := [], bookings_id_seq := seq } ops).OrdersPositive := by
  have key : ∀ (l : List Op) (db : DB), db.OrdersPositive → (run db l).OrdersPositive := by
    intro l
    induction l with
    | nil => intro db h; exact h
    | cons op rest ih =>
      intro db h
      have := ih (step db op) (step_ordersPositive db op h)
      simpa only [run, List.foldl_cons] using this
  apply key
  intro b hb
  simp at hb

/-! ## no idle seat while someone waits -/

theorem count_waitlisted_eq_length (db : DB) (eventID : Nat) :
    db.count eventID BookingStatus.StatusWaitlisted = (db.waitlistedOf eventID).length := by
  unfold DB.count DB.waitlistedOf
  rw [List.countP_eq_length_filter]

/-- Every call keeps the confirmed count of an event within its capacity, and at the
capacity while some booking of the event is waitlisted. -/
theorem step_noIdleSeat (db : DB) (op : Op) (eventID : Nat) (event : Event)
    (hev : db.eventRow eventID = some event) (hpk : db.PrimaryKey)
    (hc : (db.count eventID BookingStatus.StatusConfirmed : Int) ≤ event.MaxSeats)
    (hw : 0 < db.count eventID BookingStatus.StatusWaitlisted →
      (db.count eventID BookingStatus.StatusConfirmed : Int) = event.MaxSeats) :
    ((step db op).count eventID BookingStatus.StatusConfirmed : Int) ≤ event.MaxSeats ∧
    (0 < (step db op).count eventID BookingStatus.StatusWaitlisted →
      ((step db op).count eventID BookingStatus.StatusConfirmed : Int) = event.MaxSeats) := by
  cases op with
  | create drv e2 userID now =>
    rcases CreateBooking_inv drv db e2 userID now with ⟨-, h, -⟩ |
      ⟨ev2, status, order, hev2, -, -, -, h, hkind⟩
    · simp only [step, h]; exact ⟨hc, hw⟩
    · simp only [step, h, inserted_count, newRow]
      by_cases he : e2 = eventID
      · subst he
        rw [hev] at hev2
        cases hev2
        rcases hkind with ⟨hs, -, hlt⟩ | ⟨hs, -, hge, -⟩
        · subst hs
          simp only [true_and, if_true, reduceCtorEq, if_false, Nat.add_zero]
          constructor
          · push_cast; omega
          · intro hpos
            have := hw hpos
            omega
        · subst hs
          simp only [true_and, if_true, reduceCtorEq, if_false, Nat.add_zero]
          exact ⟨hc, fun _ => le_antisymm hc hge⟩
      · simp only [he, false_and, if_false, Nat.add_zero]
        exact ⟨hc, hw⟩
  | cancel drv bookingID now =>
    simp only [step]
    rcases CancelBooking_inv drv db bookingID now with ⟨-, h⟩ | ⟨b, hb, hid, hnc, -, hcase⟩
    · rw [h]; exact ⟨hc, hw⟩
    · subst hid
      have hc1 := setStatus_count db hpk hb BookingStatus.StatusCancelled now eventID
        BookingStatus.StatusConfirmed
      have hq1 := setStatus_count db hpk hb BookingStatus.StatusCancelled now eventID
        BookingStatus.StatusWaitlisted
      simp only [reduceCtorEq, and_false, if_false, Nat.add_zero] at hc1 hq1
      rcases hcase with ⟨hnconf, h⟩ | ⟨hconf, hnil, h⟩ | ⟨hconf, w, hfw, -, h⟩
      · rw [h]
        simp only [hnconf, and_false, if_false, Nat.add_zero] at hc1
        rw [hc1]
        refine ⟨hc, fun hpos => hw ?_⟩
        omega
      · rw [h]
        simp only [hconf, reduceCtorEq, and_false, and_true, if_false, Nat.add_zero] at hc1 hq1
        by_cases he : b.EventID = eventID
        · simp only [he, if_true] at hc1
          have hz := count_waitlisted_eq_length
            (db.setStatus b.ID BookingStatus.StatusCancelled now) eventID
          rw [← he, hnil] at hz
          rw [he] at hz
          simp only [List.length_nil] at hz
          constructor
          · omega
          · intro hpos; omega
        · simp only [he, if_false, Nat.add_zero] at hc1
          rw [hc1, hq1]
          exact ⟨hc, hw⟩
      · rw [h]
        obtain ⟨hwmem, hwe, hws⟩ := mem_waitlistedOf.mp (firstBy_mem hfw)
        have hpk1 := setStatus_primaryKey db b.ID BookingStatus.StatusCancelled now hpk
        have hc2 := setStatus_count _ hpk1 hwmem BookingStatus.StatusConfirmed now eventID
          BookingStatus.StatusConfirmed
        have hq2 := setStatus_count _ hpk1 hwmem BookingStatus.StatusConfirmed now eventID
          BookingStatus.StatusWaitlisted
        simp only [hconf, hwe, hws, reduceCtorEq, and_false, and_true, if_false,
          Nat.add_zero] at hc1 hq1 hc2 hq2
        by_cases he : b.EventID = eventID
        · simp only [he, if_true] at hc1 hq1 hc2 hq2
          constructor
          · omega
          · intro hpos
            have := hw (by omega)
            omega
        · simp only [he, if_false] at hc1 hq1 hc2 hq2
          constructor
          · omega
          · intro hpos
            have := hw (by omega)
            omega

theorem run_noIdleSeat (ops : List Op) (eventID : Nat) (event : Event) :
    ∀ db : DB, db.eventRow eventID = some event → db.PrimaryKey →
      (db.count eventID BookingStatus.StatusConfirmed : Int) ≤ event.MaxSeats →
      (0 < db.count eventID BookingStatus.StatusWaitlisted →
        (db.count eventID BookingStatus.StatusConfirmed : Int) = event.MaxSeats) →
      (((run db ops).count eventID BookingStatus.StatusConfirmed : Int) ≤ event.MaxSeats ∧
      (0 < (run db ops).count eventID BookingStatus.StatusWaitlisted →
        ((run db ops).count eventID BookingStatus.StatusConfirmed : Int) = event.MaxSeats)) := by
  induction ops with
  | nil => intro db _ _ hc hw; exact ⟨hc, hw⟩
  | cons op rest ih =>
    intro db hev hpk hc hw
    have hstep := step_noIdleSeat db op eventID event hev hpk hc hw
    have hev1 : (step db op).eventRow eventID = some event := by
      unfold DB.eventRow
      rw [step_events]
      exact hev
    have := ih (step db op) hev1 (step_primaryKey db op hpk) hstep.1 hstep.2
    simpa only [run, List.foldl_cons] using this

/-! ## the handlers -/

/-- The event handler answers 400 and leaves the service alone when the name is empty, the
capacity is not positive, or the window does not end after its start. -/
theorem CreateEvent_rejects {σ : Type} (svc : σ → Event → Option Error × σ) (s : σ)
    (req : dto.CreateEventRequest)
    (h : req.Name = "" ∨ req.MaxSeats ≤ 0 ∨ req.BookingEndAt ≤ req.BookingStartAt) :
    EventHandler.CreateEvent svc s (some req) = (400, s) := by
  unfold EventHandler.CreateEvent
  rcases h with h | h | h
  · simp [h]
  · simp [h]
  · have : ¬ (req.BookingEndAt > req.BookingStartAt) := not_lt.mpr h
    simp [this]

/-- Every event that the event handler passes to the service has a name, a positive
capacity and a window that ends after its start. -/
theorem CreateEvent_passes (given : List Event) (bound : Option dto.CreateEventRequest) :
    ∀ event ∈ (EventHandler.CreateEvent mockEventService given bound).2, event ∉ given →
      event.Name ≠ "" ∧ 1 ≤ event.MaxSeats ∧ event.BookingStartAt < event.BookingEndAt := by
  intro event hmem hnew
  unfold EventHandler.CreateEvent at hmem
  cases bound with
  | none => exact absurd hmem hnew
  | some req =>
    simp only at hmem
    by_cases h1 : req.Name = "" ∨ req.MaxSeats ≤ 0
    · rw [if_pos h1] at hmem; exact absurd hmem hnew
    · rw [if_neg h1] at hmem
      by_cases h2 : ¬ (req.BookingEndAt > req.BookingStartAt)
      · rw [if_pos h2] at hmem; exact absurd hmem hnew
      · rw [if_neg h2] at hmem
        simp only [mockEventService, List.mem_append, List.mem_singleton] at hmem
        rcases hmem with hmem | hmem
        · exact absurd hmem hnew
        · subst hmem
          push_neg at h1 h2
          refine ⟨h1.1, ?_, h2⟩
          show 1 ≤ req.MaxSeats
          have := h1.2
          omega

/-! ## the upsert of the replication consumer -/

theorem filled_ID (e : Event) (nextval : Nat) (now : Time) (h : e.ID ≠ 0) :
    (e.filled nextval now).ID = e.ID := by
  simp [Event.filled, h]

theorem assigned_filled (row e : Event) (nextval : Nat) (now : Time) (h : e.UpdatedAt ≠ 0) :
    row.assigned (e.filled nextval now) = row.assigned e := by
  simp [Event.assigned, Event.filled, h]

theorem assigned_ID (row x : Event) : (row.assigned x).ID = row.ID := rfl

theorem assigned_assigned (row x y : Event) : (row.assigned x).assigned y = row.assigned y := rfl

theorem map_assign_filter_ne (l : List Event) (id : Nat) (x : Event) :
    (l.map (fun e => if e.ID = id then e.assigned x else e)).filter
        (fun e => decide (e.ID ≠ id)) =
      l.filter (fun e => decide (e.ID ≠ id)) := by
  induction l with
  | nil => rfl
  | cons a rest ih =>
    by_cases h : a.ID = id
    · simpa [List.filter_cons, h, assigned_ID] using ih
    · simpa [List.filter_cons, h] using ih

theorem map_assign_filter_eq (l : List Event) (id : Nat) (x : Event) :
    (l.map (fun e => if e.ID = id then e.assigned x else e)).filter
        (fun e => decide (e.ID = id)) =
      (l.filter (fun e => decide (e.ID = id))).map (fun e => e.assigned x) := by
  induction l with
  | nil => rfl
  | cons a rest ih =>
    by_cases h : a.ID = id
    · simp [List.filter_cons, h, assigned_ID, ih]
    · simp [List.filter_cons, h, ih]

theorem hasEvent_false {db : DB} {id : Nat} (h : db.hasEvent id = false) :
    ∀ e ∈ db.events, e.ID ≠ id := by
  unfold DB.hasEvent at h
  rw [List.any_eq_false] at h
  intro e he
  simpa using h e he

theorem hasEvent_true_of_mem {db : DB} {e : Event} (he : e ∈ db.events) :
    db.hasEvent e.ID = true := by
  unfold DB.hasEvent
  rw [List.any_eq_true]
  exact ⟨e, he, by simp⟩

theorem eventsKey_filter {l : List Event} (hpk : l.Pairwise (fun a b => a.ID ≠ b.ID))
    {id : Nat} (h : l.any (fun e => decide (e.ID = id)) = true) :
    ∃ r, r.ID = id ∧ l.filter (fun e => decide (e.ID = id)) = [r] := by
  induction l with
  | nil => simp at h
  | cons a rest ih =>
    rw [List.pairwise_cons] at hpk
    by_cases ha : a.ID = id
    · refine ⟨a, ha, ?_⟩
      have : rest.filter (fun e => decide (e.ID = id)) = [] := by
        rw [List.filter_eq_nil_iff]
        intro e he
        have := hpk.1 e he
        simp only [decide_eq_true_eq]
        intro h2
        exact this (ha.trans h2.symm)
      simp [List.filter_cons, ha, this]
    · have h2 : rest.any (fun e => decide (e.ID = id)) = true := by
        simpa [ha] using h
      obtain ⟨r, hr, hf⟩ := ih hpk.2 h2
      exact ⟨r, hr, by simp [List.filter_cons, ha, hf]⟩

/-- The successful upsert of an event with a key, in the two cases of `ON CONFLICT`. -/
theorem upsert_ok (now : Time) (nextval : Nat) (db : DB) (e : Event) (hkey : e.ID ≠ 0) :
    (db.hasEvent e.ID = false ∧
      EventConsumer.upsert none now nextval db e =
        Except.ok { db with events := db.events ++ [e.filled nextval now] }) ∨
    (db.hasEvent e.ID = true ∧
      EventConsumer.upsert none now nextval db e =
        Except.ok { db with events := db.events.map (fun r =>
          if r.ID = e.ID then r.assigned (e.filled nextval now) else r) }) := by
  unfold EventConsumer.upsert
  simp only [filled_ID e nextval now hkey]
  cases h : db.hasEvent e.ID
  · left; simp
  · right; simp


theorem filled_assigned_self (e : Event) (nextval : Nat) (now : Time) (h : e.UpdatedAt ≠ 0) :
    (e.filled nextval now).assigned e = e.filled nextval now := by
  simp [Event.assigned, Event.filled, h]

theorem map_assign_absent (l : List Event) (id : Nat) (x : Event)
    (h : ∀ e ∈ l, e.ID ≠ id) :
    l.map (fun e => if e.ID = id then e.assigned x else e) = l := by
  induction l with
  | nil => rfl
  | cons a rest ih =>
    have ha := h a (List.mem_cons_self _ _)
    simp only [List.map_cons, if_neg ha]
    rw [ih (fun e he => h e (List.mem_cons_of_mem _ he))]

theorem filter_absent (l : List Event) (id : Nat) (h : ∀ e ∈ l, e.ID ≠ id) :
    l.filter (fun e => decide (e.ID = id)) = [] := by
  rw [List.filter_eq_nil_iff]
  intro e he
  simpa using h e he

/-! ## CancelBooking in two steps -/

/-- A call of `CancelBooking` is its two steps, run on the same database. -/
theorem CancelBooking_two_steps (drv : Driver) (db : DB) (bookingID : Nat) (now : Time) :
    CancelBooking drv db bookingID now =
      CancelBooking.locked drv db bookingID now (CancelBooking.load drv db bookingID) := by
  unfold CancelBooking Transaction CancelBooking.load
  beta_reduce
  cases hB : drv Call.Begin with
  | some text => simp [CancelBooking.locked]
  | none =>
    cases hF : bookingRepository.FindByID drv db bookingID with
    | error e => simp [CancelBooking.locked]
    | ok booking =>
      by_cases hcan : booking.Status = BookingStatus.StatusCancelled
      · simp [CancelBooking.locked, hcan]
      · simp only [hcan, if_false, CancelBooking.locked]
        cases hE : eventRepository.FindByIDForUpdate drv db booking.EventID with
        | error e => simp
        | ok ev =>
          cases hU : bookingRepository.UpdateStatus drv now db bookingID
              BookingStatus.StatusCancelled with
          | error e => simp
          | ok tx1 =>
            cases hC : drv Call.Commit with
            | some text =>
              by_cases hconf : booking.Status = BookingStatus.StatusConfirmed
              · cases hW : bookingRepository.FindFirstWaitlisted drv tx1 booking.EventID with
                | error e =>
                  by_cases hnf : e = Error.ErrRecordNotFound
                  · simp [hconf, hW, hnf, hC]
                  · simp [hconf, hW, hnf, hC]
                | ok w =>
                  cases hP : bookingRepository.UpdateStatus drv now tx1 w.ID
                      BookingStatus.StatusConfirmed with
                  | error e => simp [hconf, hW, hP, hC]
                  | ok tx2 => simp [hconf, hW, hP, hC]
              · simp [hconf, hC]
            | none =>
              by_cases hconf : booking.Status = BookingStatus.StatusConfirmed
              · cases hW : bookingRepository.FindFirstWaitlisted drv tx1 booking.EventID with
                | error e =>
                  by_cases hnf : e = Error.ErrRecordNotFound
                  · simp [hconf, hW, hnf, hC]
                  · simp [hconf, hW, hnf, hC]
                | ok w =>
                  cases hP : bookingRepository.UpdateStatus drv now tx1 w.ID
                      BookingStatus.StatusConfirmed with
                  | error e => simp [hconf, hW, hP, hC]
                  | ok tx2 => simp [hconf, hW, hP, hC]
              · simp [hconf, hC]

/-! ## CreateBooking calls that run at the same time -/

/-- A call of `CreateBooking` is its reads followed by the insert and the commit. -/
theorem CreateBooking_reads_write (db : DB) (eventID : Nat) (userID : String) (now : Time) :
    CreateBooking healthy db eventID userID now =
      match CreateBooking.reads healthy db eventID userID now with
      | Except.error err => ({ result := none, err := some err }, db)
      | Except.ok booking =>
        match bookingRepository.Create healthy now db booking with
        | Except.error err => ({ result := none, err := some err }, db)
        | Except.ok (row, tx) => ({ result := some row, err := none }, tx) := by
  have hB : healthy Call.Begin = none := rfl
  have hCm : healthy Call.Commit = none := rfl
  unfold CreateBooking Transaction CreateBooking.reads
  beta_reduce
  simp only [hB, hCm]
  cases hE : eventRepository.FindByIDForUpdate healthy db eventID with
  | error e => simp
  | ok event =>
    simp only
    by_cases hw : now < event.BookingStartAt ∨ now > event.BookingEndAt
    · simp [hw]
    · simp only [hw, if_false]
      cases hA : bookingRepository.FindActiveByUserAndEvent healthy db userID eventID with
      | ok b => simp
      | error e =>
        simp only
        by_cases hne : e ≠ Error.ErrRecordNotFound
        · simp [hne]
        · simp only [hne, if_false]
          cases hc : bookingRepository.CountByStatus healthy db eventID
              BookingStatus.StatusConfirmed with
          | error e2 => simp
          | ok n =>
            simp only
            by_cases hlt : (n : Int) < event.MaxSeats
            · simp only [hlt, if_true]
              cases hK : bookingRepository.Create healthy now db
                  { ID := 0, EventID := eventID, UserID := userID,
                    Status := BookingStatus.StatusConfirmed, WaitlistOrder := none,
                    CreatedAt := 0, UpdatedAt := 0 } with
              | error e3 => simp
              | ok p => obtain ⟨row, tx⟩ := p; simp
            · simp only [hlt, if_false]
              cases hq : bookingRepository.CountByStatus healthy db eventID
                  BookingStatus.StatusWaitlisted with
              | error e2 => simp
              | ok m =>
                simp only
                by_cases hlt2 : (m : Int) < event.WaitlistLimit
                · simp only [hlt2, if_true]
                  cases hK : bookingRepository.Create healthy now db
                      { ID := 0, EventID := eventID, UserID := userID,
                        Status := BookingStatus.StatusWaitlisted,
                        WaitlistOrder := some ((m : Int) + 1),
                        CreatedAt := 0, UpdatedAt := 0 } with
                  | error e3 => simp
                  | ok p => obtain ⟨row, tx⟩ := p; simp
                · simp [hlt2]

/-- Calls that run one by one, each to its end before the next reads, give the replies and
the database of `createAll`. -/
theorem oneByOne_serial (eventID : Nat) : ∀ (n : Nat) (w : World),
    w.pending = [] → w.waiting.length = n →
    (w.play eventID (oneByOne n)).allSettled = true ∧
    (w.play eventID (oneByOne n)).db = (createAll w.db eventID w.waiting).2 ∧
    (w.play eventID (oneByOne n)).settled.map Prod.snd =
      w.settled.map Prod.snd ++ (createAll w.db eventID w.waiting).1 := by
  intro n
  induction n with
  | zero =>
    intro w hp hn
    have hw := List.length_eq_zero.mp hn
    simp [oneByOne, World.play, World.allSettled, hp, hw, createAll]
  | succ k ih =>
    intro w hp hn
    obtain ⟨db, waiting, pending, settled⟩ := w
    simp only at hp hn
    subst hp
    cases waiting with
    | nil => simp at hn
    | cons call rest =>
      obtain ⟨u, t⟩ := call
      have hlen : rest.length = k := by simpa using hn
      have key : World.move eventID (World.move eventID
          { db := db, waiting := (u, t) :: rest, pending := [], settled := settled }
          (Move.reads 0)) (Move.insert 0) =
          { db := (CreateBooking healthy db eventID u t).2, waiting := rest, pending := [],
            settled := settled ++ [((u, t), (CreateBooking healthy db eventID u t).1)] } := by
        rw [CreateBooking_reads_write]
        cases hr : CreateBooking.reads healthy db eventID u t with
        | error err => simp [World.move, hr]
        | ok booking =>
          cases hK : bookingRepository.Create healthy t db booking with
          | error err => simp [World.move, hr, hK]
          | ok p => obtain ⟨row, tx⟩ := p; simp [World.move, hr, hK]
      simp only [oneByOne, World.play, List.foldl_cons]
      rw [key]
      have := ih ⟨(CreateBooking healthy db eventID u t).2, rest, [],
        settled ++ [((u, t), (CreateBooking healthy db eventID u t).1)]⟩ rfl hlen
      simp only [World.play] at this
      refine ⟨this.1, ?_, ?_⟩
      · rw [this.2.1]; simp only [createAll]
      · rw [this.2.2]; simp only [createAll, List.map_append, List.map_cons, List.map_nil,
          List.append_assoc, List.singleton_append]

/-! ## the integration tests of the repository, replayed one call after another -/

set_option maxRecDepth 1000000 in
/-- `TestConcurrentBooking`: 60 users, 50 seats, 5 waitlist places. -/
theorem TestConcurrentBooking_replayed :
    ((createAll dbEmpty50 1 calls60).1.filter (fun r =>
      decide ((r.result.map (fun b => b.Status)) = some BookingStatus.StatusConfirmed))).length
        = 50 ∧
    ((createAll dbEmpty50 1 calls60).1.filter (fun r =>
      decide ((r.result.map (fun b => b.Status)) = some BookingStatus.StatusWaitlisted))).length
        = 5 ∧
    ((createAll dbEmpty50 1 calls60).1.filter (fun r =>
      decide (r.err = some Error.ErrEventFullyBooked))).length = 5 ∧
    (createAll dbEmpty50 1 calls60).2.count 1 BookingStatus.StatusConfirmed = 50 ∧
    (createAll dbEmpty50 1 calls60).2.count 1 BookingStatus.StatusWaitlisted = 5 ∧
    ((createAll dbEmpty50 1 calls60).2.waitlistedOf 1).map (fun b => b.WaitlistOrder) =
      [some 1, some 2, some 3, some 4, some 5] := by
  decide

/-- `TestDoubleBookingPrevention`: the second attempt of the same user is rejected. -/
theorem TestDoubleBookingPrevention_replayed :
    ((CreateBooking healthy dbEmpty50 1 "user-duplicate" 150).1.result.map
      (fun b => b.Status)) = some BookingStatus.StatusConfirmed ∧
    (CreateBooking healthy (CreateBooking healthy dbEmpty50 1 "user-duplicate" 150).2 1
      "user-duplicate" 151).1 = { result := none, err := some Error.ErrAlreadyBooked } := by
  decide

set_option maxRecDepth 1000000 in
/-- `TestCancelAndWaitlistPromotion`: cancelling the first confirmed booking promotes the
first waitlisted one, the second keeps waiting, and 50 bookings are confirmed. -/
theorem TestCancelAndWaitlistPromotion_replayed :
    dbPromotionTest.count 1 BookingStatus.StatusConfirmed = 50 ∧
    dbPromotionTest.count 1 BookingStatus.StatusWaitlisted = 3 ∧
    (CancelBooking healthy dbPromotionTest 1 160).1.err = none ∧
    ((CancelBooking healthy dbPromotionTest 1 160).1.result.map (fun b => b.Status)) =
      some BookingStatus.StatusCancelled ∧
    ((bookingRepository.FindByID healthy (CancelBooking healthy dbPromotionTest 1 160).2
      51).toOption.map (fun b => (b.UserID, b.Status))) =
        some ("user-050", BookingStatus.StatusConfirmed) ∧
    ((bookingRepository.FindByID healthy (CancelBooking healthy dbPromotionTest 1 160).2
      52).toOption.map (fun b => (b.UserID, b.Status))) =
        some ("user-051", BookingStatus.StatusWaitlisted) ∧
    (CancelBooking healthy dbPromotionTest 1 160).2.count 1 BookingStatus.StatusConfirmed =
      50 := by
  decide

/-- `TestBookingWindowValidation`: a past and a future event both reject the booking. -/
theorem TestBookingWindowValidation_replayed :
    (CreateBooking healthy dbWindowTest 1 "user-late" 1000).1.err =
      some Error.ErrBookingClosed ∧
    (CreateBooking healthy dbWindowTest 2 "user-early" 1000).1.err =
      some Error.ErrBookingClosed := by
  decide

/-- `TestBookingEventNotFound`. -/
theorem TestBookingEventNotFound_replayed :
    (CreateBooking healthy dbEmpty50 99999 "user-1" 150).1.err =
      some Error.ErrEventNotFound := by
  decide

/-! ## the claims -/

/-- C1: for an event with C seats and W waitlist places that has no bookings yet, and N
CreateBooking calls by pairwise distinct users made one after another inside the booking
window: the calls number 0 to min(N, C) - 1 return a confirmed booking, the next
min(N - C, W) calls return a waitlisted booking with waitlist orders 1, 2, ... in call
order, every remaining call fails with ErrEventFullyBooked, and afterwards the event has
min(N, C) confirmed and min(N - C, W) waitlisted bookings, min(N, C + W) in all. -/
theorem C1_sequential_allocation (db : DB) (eventID : Nat) (event : Event) (C W : Nat)
    (calls : List (String × Time))
    (hev : db.eventRow eventID = some event)
    (hC : event.MaxSeats = C) (hW : event.WaitlistLimit = W)
    (hnone : ∀ b ∈ db.bookings, b.EventID ≠ eventID)
    (hseq : db.SeqAhead)
    (hdistinct : (calls.map Prod.fst).Nodup)
    (hwin : ∀ c ∈ calls, event.BookingStartAt ≤ c.2 ∧ c.2 ≤ event.BookingEndAt) :
    (createAll db eventID calls).1.length = calls.length ∧
    (∀ i call r, calls[i]? = some call → (createAll db eventID calls).1[i]? = some r →
      (i < C → ∃ b : Booking, r = { result := some b, err := none } ∧
        b.Status = BookingStatus.StatusConfirmed ∧ b.WaitlistOrder = none ∧
        b.EventID = eventID ∧ b.UserID = call.1) ∧
      (C ≤ i → i < C + W → ∃ b : Booking, r = { result := some b, err := none } ∧
        b.Status = BookingStatus.StatusWaitlisted ∧
        b.WaitlistOrder = some (((i - C : Nat) : Int) + 1) ∧
        b.EventID = eventID ∧ b.UserID = call.1) ∧
      (C + W ≤ i → r = { result := none, err := some Error.ErrEventFullyBooked })) ∧
    (createAll db eventID calls).2.count eventID BookingStatus.StatusConfirmed =
      min calls.length C ∧
    (createAll db eventID calls).2.count eventID BookingStatus.StatusWaitlisted =
      min (calls.length - C) W ∧
    (createAll db eventID calls).2.count eventID BookingStatus.StatusConfirmed +
      (createAll db eventID calls).2.count eventID BookingStatus.StatusWaitlisted =
      min calls.length (C + W) := by
  have hzero : ∀ st, db.count eventID st = 0 := by
    intro st
    unfold DB.count
    rw [List.countP_eq_zero]
    intro b hb
    simp [hnone b hb]
  have hfree : ∀ c ∈ calls, db.activeFor c.1 eventID = [] := by
    intro c _
    apply activeFor_eq_nil.mpr
    intro b hb he
    exact absurd he (hnone b hb)
  obtain ⟨hlen, hall, hc, hq⟩ := createAll_alloc eventID event C W hC hW calls db 0 hev hseq
    hdistinct hfree hwin (by rw [hzero]; simp) (by rw [hzero]; simp)
  refine ⟨hlen, ?_, ?_, ?_, ?_⟩
  · intro i call r hcall hr
    have := hall i call r hcall hr
    rw [Nat.zero_add] at this
    exact this
  · rw [hc, Nat.zero_add]
  · rw [hq, Nat.zero_add]
  · rw [hc, hq]; omega

set_option maxRecDepth 100000 in
theorem C1_sequential_allocation_witness :
    (createAll dbEmpty50 1 calls60).1.length = calls60.length ∧
    (∀ i call r, calls60[i]? = some call → (createAll dbEmpty50 1 calls60).1[i]? = some r →
      (i < 50 → ∃ b : Booking, r = { result := some b, err := none } ∧
        b.Status = BookingStatus.StatusConfirmed ∧ b.WaitlistOrder = none ∧
        b.EventID = 1 ∧ b.UserID = call.1) ∧
      (50 ≤ i → i < 50 + 5 → ∃ b : Booking, r = { result := some b, err := none } ∧
        b.Status = BookingStatus.StatusWaitlisted ∧
        b.WaitlistOrder = some (((i - 50 : Nat) : Int) + 1) ∧
        b.EventID = 1 ∧ b.UserID = call.1) ∧
      (50 + 5 ≤ i → r = { result := none, err := some Error.ErrEventFullyBooked })) ∧
    (createAll dbEmpty50 1 calls60).2.count 1 BookingStatus.StatusConfirmed =
      min calls60.length 50 ∧
    (createAll dbEmpty50 1 calls60).2.count 1 BookingStatus.StatusWaitlisted =
      min (calls60.length - 50) 5 ∧
    (createAll dbEmpty50 1 calls60).2.count 1 BookingStatus.StatusConfirmed +
      (createAll dbEmpty50 1 calls60).2.count 1 BookingStatus.StatusWaitlisted =
      min calls60.length (50 + 5) :=
  C1_sequential_allocation dbEmpty50 1 workshop50 50 5 calls60 (by decide) (by decide)
    (by decide) (by decide) (by decide) (by decide) (by decide)

/-- C2: for an event E whose MaxSeats and WaitlistLimit are not negative, as the data model
has them, in every state reached from a state with no bookings for E by any finite sequence
of CreateBooking and CancelBooking calls (each run to completion, successful or not,
whatever the driver does), the number of confirmed bookings of E is at most E.MaxSeats and
the number of waitlisted bookings of E is at most E.WaitlistLimit (second part). Whatever
the sign of the two bounds, the counts are at most max(E.MaxSeats, 0) and
max(E.WaitlistLimit, 0) (first part). -/
theorem C2_capacity_invariant (db : DB) (eventID : Nat) (event : Event) (ops : List Op)
    (hev : db.eventRow eventID = some event) (hpk : db.PrimaryKey)
    (hnone : ∀ b ∈ db.bookings, b.EventID ≠ eventID) :
    (((run db ops).count eventID BookingStatus.StatusConfirmed : Int) ≤
        max event.MaxSeats 0 ∧
      ((run db ops).count eventID BookingStatus.StatusWaitlisted : Int) ≤
        max event.WaitlistLimit 0) ∧
    (0 ≤ event.MaxSeats → 0 ≤ event.WaitlistLimit →
      ((run db ops).count eventID BookingStatus.StatusConfirmed : Int) ≤ event.MaxSeats ∧
      ((run db ops).count eventID BookingStatus.StatusWaitlisted : Int) ≤
        event.WaitlistLimit) := by
  have hzero : ∀ st, db.count eventID st = 0 := by
    intro st
    unfold DB.count
    rw [List.countP_eq_zero]
    intro b hb
    simp [hnone b hb]
  have h := run_capacity ops eventID event db hev hpk
    (by rw [hzero]; exact le_max_right _ _) (by rw [hzero]; exact le_max_right _ _)
  refine ⟨h, fun h1 h2 => ?_⟩
  rw [max_eq_left h1, max_eq_left h2] at h
  exact h


theorem C2_capacity_invariant_witness :
    (((run dbEmpty sampleOps).count 1 BookingStatus.StatusConfirmed : Int) ≤
        max workshop.MaxSeats 0 ∧
      ((run dbEmpty sampleOps).count 1 BookingStatus.StatusWaitlisted : Int) ≤
        max workshop.WaitlistLimit 0) ∧
    (0 ≤ workshop.MaxSeats → 0 ≤ workshop.WaitlistLimit →
      ((run dbEmpty sampleOps).count 1 BookingStatus.StatusConfirmed : Int) ≤
        workshop.MaxSeats ∧
      ((run dbEmpty sampleOps).count 1 BookingStatus.StatusWaitlisted : Int) ≤
        workshop.WaitlistLimit) :=
  C2_capacity_invariant dbEmpty 1 workshop sampleOps (by decide) (by decide) (by decide)

/-- C3: in every state reached from an empty booking store by any finite sequence of
CreateBooking and CancelBooking calls (whatever the driver does during each), every
(event, user) pair has at most one booking whose status is not cancelled. -/
theorem C3_no_double_booking (events : List Event) (seq : Nat) (ops : List Op)
    (eventID : Nat) (userID : String) :
    ((run { events := events, bookings := [], bookings_id_seq := seq } ops).bookings.filter
      (fun b => decide (b.EventID = eventID ∧ b.UserID = userID ∧
        b.Status ≠ BookingStatus.StatusCancelled))).length ≤ 1 := by
  have hinv := run_invariants ops { events := events, bookings := [], bookings_id_seq := seq }
    List.Pairwise.nil List.Pairwise.nil
  have := activeUnique_length _ hinv.2.1 userID eventID
  unfold DB.activeFor at this
  have heq : ∀ l : List Booking,
      l.filter (fun b => decide (b.EventID = eventID ∧ b.UserID = userID ∧
        b.Status ≠ BookingStatus.StatusCancelled)) =
      l.filter (fun b => decide (b.UserID = userID) && decide (b.EventID = eventID) &&
        decide (b.Status ≠ BookingStatus.StatusCancelled)) := by
    intro l
    apply List.filter_congr
    intro b _
    by_cases h1 : b.EventID = eventID <;> by_cases h2 : b.UserID = userID <;> simp [h1, h2]
  rw [heq]
  exact this

/-- C4: when the event exists, the instant is inside the booking window, the user has no
active booking for the event and fewer bookings are confirmed than the event has seats,
CreateBooking succeeds, returns a confirmed booking of that event and user without a
waitlist order, and inserts exactly that booking. -/
theorem C4_create_confirmed (db : DB) (eventID : Nat) (userID : String) (now : Time)
    (event : Event) (hev : db.eventRow eventID = some event)
    (hwin : event.BookingStartAt ≤ now ∧ now ≤ event.BookingEndAt)
    (hfree : ∀ b ∈ db.bookings, b.EventID = eventID → b.UserID = userID →
      b.Status = BookingStatus.StatusCancelled)
    (hseat : (db.count eventID BookingStatus.StatusConfirmed : Int) < event.MaxSeats)
    (hseq : db.SeqAhead) :
    ∃ booking : Booking,
      (CreateBooking healthy db eventID userID now).1 = { result := some booking, err := none } ∧
      booking.Status = BookingStatus.StatusConfirmed ∧ booking.EventID = eventID ∧
      booking.UserID = userID ∧ booking.WaitlistOrder = none ∧
      (CreateBooking healthy db eventID userID now).2.bookings = db.bookings ++ [booking] ∧
      (CreateBooking healthy db eventID userID now).2.events = db.events := by
  rw [CreateBooking_seat db eventID userID now event hev hwin (activeFor_eq_nil.mpr hfree)
    hseat hseq]
  exact ⟨_, rfl, rfl, rfl, rfl, rfl, rfl, rfl⟩

theorem C4_create_confirmed_witness :
    ∃ booking : Booking,
      (CreateBooking healthy dbEmpty 1 "user-000" 100).1 =
        { result := some booking, err := none } ∧
      booking.Status = BookingStatus.StatusConfirmed ∧ booking.EventID = 1 ∧
      booking.UserID = "user-000" ∧ booking.WaitlistOrder = none ∧
      (CreateBooking healthy dbEmpty 1 "user-000" 100).2.bookings = dbEmpty.bookings ++ [booking] ∧
      (CreateBooking healthy dbEmpty 1 "user-000" 100).2.events = dbEmpty.events :=
  C4_create_confirmed dbEmpty 1 "user-000" 100 workshop (by decide) (by decide) (by decide)
    (by decide) (by decide)

/-- C5: when the event exists, the window is open, the user has no active booking, every
seat is taken and w bookings are waitlisted with w below the waitlist limit, CreateBooking
succeeds and returns and inserts a waitlisted booking with waitlist order w + 1. -/
theorem C5_create_waitlisted (db : DB) (eventID : Nat) (userID : String) (now : Time)
    (event : Event) (hev : db.eventRow eventID = some event)
    (hwin : event.BookingStartAt ≤ now ∧ now ≤ event.BookingEndAt)
    (hfree : ∀ b ∈ db.bookings, b.EventID = eventID → b.UserID = userID →
      b.Status = BookingStatus.StatusCancelled)
    (hseat : event.MaxSeats ≤ (db.count eventID BookingStatus.StatusConfirmed : Int))
    (hroom : (db.count eventID BookingStatus.StatusWaitlisted : Int) < event.WaitlistLimit)
    (hseq : db.SeqAhead) :
    ∃ booking : Booking,
      (CreateBooking healthy db eventID userID now).1 = { result := some booking, err := none } ∧
      booking.Status = BookingStatus.StatusWaitlisted ∧
      booking.WaitlistOrder = some ((db.count eventID BookingStatus.StatusWaitlisted : Int) + 1) ∧
      booking.EventID = eventID ∧ booking.UserID = userID ∧
      (CreateBooking healthy db eventID userID now).2.bookings = db.bookings ++ [booking] ∧
      (CreateBooking healthy db eventID userID now).2.events = db.events := by
  rw [CreateBooking_waitlist db eventID userID now event hev hwin (activeFor_eq_nil.mpr hfree)
    hseat hroom hseq]
  exact ⟨_, rfl, rfl, rfl, rfl, rfl, rfl, rfl⟩

theorem C5_create_waitlisted_witness :
    ∃ booking : Booking,
      (CreateBooking healthy dbSeatsTaken 1 "user-002" 150).1 =
        { result := some booking, err := none } ∧
      booking.Status = BookingStatus.StatusWaitlisted ∧
      booking.WaitlistOrder =
        some ((dbSeatsTaken.count 1 BookingStatus.StatusWaitlisted : Int) + 1) ∧
      booking.EventID = 1 ∧ booking.UserID = "user-002" ∧
      (CreateBooking healthy dbSeatsTaken 1 "user-002" 150).2.bookings =
        dbSeatsTaken.bookings ++ [booking] ∧
      (CreateBooking healthy dbSeatsTaken 1 "user-002" 150).2.events = dbSeatsTaken.events :=
  C5_create_waitlisted dbSeatsTaken 1 "user-002" 150 workshop (by decide) (by decide)
    (by decide) (by decide) (by decide) (by decide)

/-- C6: when the event exists, the window is open, the user has no active booking, every
seat is taken and the waitlist is at its limit, CreateBooking fails with
ErrEventFullyBooked, returns no booking and leaves the database exactly as it was. -/
theorem C6_create_full (db : DB) (eventID : Nat) (userID : String) (now : Time)
    (event : Event) (hev : db.eventRow eventID = some event)
    (hwin : event.BookingStartAt ≤ now ∧ now ≤ event.BookingEndAt)
    (hfree : ∀ b ∈ db.bookings, b.EventID = eventID → b.UserID = userID →
      b.Status = BookingStatus.StatusCancelled)
    (hseat : event.MaxSeats ≤ (db.count eventID BookingStatus.StatusConfirmed : Int))
    (hroom : event.WaitlistLimit ≤ (db.count eventID BookingStatus.StatusWaitlisted : Int)) :
    CreateBooking healthy db eventID userID now =
      ({ result := none, err := some Error.ErrEventFullyBooked }, db) :=
  CreateBooking_full db eventID userID now event hev hwin (activeFor_eq_nil.mpr hfree) hseat hroom

theorem C6_create_full_witness :
    CreateBooking healthy dbFull 1 "user-003" 200 =
      ({ result := none, err := some Error.ErrEventFullyBooked }, dbFull) :=
  C6_create_full dbFull 1 "user-003" 200 workshop (by decide) (by decide) (by decide)
    (by decide) (by decide)

/-- C7: when the event exists, the window is open and the user already has a confirmed or
waitlisted booking for the event, CreateBooking fails with ErrAlreadyBooked whatever the
seat and waitlist counts are, returns no booking and leaves the database unchanged.
Consequently, of repeated CreateBooking calls by one user for one event with nothing in
between, every call after the first fails and returns no booking, with ErrAlreadyBooked
when the first succeeded: only the first can succeed. -/
theorem C7_already_booked (db : DB) (eventID : Nat) (userID : String) (event : Event)
    (hev : db.eventRow eventID = some event) :
    (∀ now : Time, event.BookingStartAt ≤ now ∧ now ≤ event.BookingEndAt →
      (∃ b ∈ db.bookings, b.EventID = eventID ∧ b.UserID = userID ∧
        (b.Status = BookingStatus.StatusConfirmed ∨ b.Status = BookingStatus.StatusWaitlisted)) →
      CreateBooking healthy db eventID userID now =
        ({ result := none, err := some Error.ErrAlreadyBooked }, db)) ∧
    (∀ (times : List Time) (first : Reply) (rest : List Reply),
      (∀ t ∈ times, event.BookingStartAt ≤ t ∧ t ≤ event.BookingEndAt) →
      (createAll db eventID (times.map (fun t => (userID, t)))).1 = first :: rest →
      (∀ r ∈ rest, r.result = none ∧ r.err ≠ none) ∧
      (first.err = none →
        ∀ r ∈ rest, r = { result := none, err := some Error.ErrAlreadyBooked })) := by
  constructor
  · intro now hwin ⟨b, hb, he, hu, hs⟩
    apply CreateBooking_already db eventID userID now event hev hwin
    apply List.ne_nil_of_mem (a := b)
    have hs2 : b.Status ≠ BookingStatus.StatusCancelled := by
      rcases hs with h | h <;> rw [h] <;> simp
    simp [DB.activeFor, hb, he, hu, hs2]
  · intro times first rest hw hout
    cases times with
    | nil => simp [createAll] at hout
    | cons t0 ts =>
      obtain ⟨reply, heq, hres, herr, hal⟩ := createAll_sameUser db eventID userID event hev
        t0 ts (hw t0 (List.mem_cons_self _ _)) (fun t ht => hw t (List.mem_cons_of_mem _ ht))
      rw [heq] at hout
      obtain ⟨h1, h2⟩ := List.cons.inj hout
      subst h1; subst h2
      refine ⟨fun r hr => ?_, fun hfirst r hr => ?_⟩
      · rw [List.eq_of_mem_replicate hr]; exact ⟨hres, herr⟩
      · rw [List.eq_of_mem_replicate hr]; exact hal hfirst

theorem C7_already_booked_witness :
    CreateBooking healthy dbSeatsTaken 1 "user-000" 150 =
      ({ result := none, err := some Error.ErrAlreadyBooked }, dbSeatsTaken) ∧
    (∀ r ∈ List.tail (createAll dbEmpty 1
        (List.map (fun t => ("user-000", t)) [100, 150, 200])).1,
      r = { result := none, err := some Error.ErrAlreadyBooked }) :=
  ⟨(C7_already_booked dbSeatsTaken 1 "user-000" workshop (by decide)).1 150 (by decide)
      (by decide),
    ((C7_already_booked dbEmpty 1 "user-000" workshop (by decide)).2 [100, 150, 200]
      _ _ (by decide) rfl).2 rfl⟩

/-- C8: for an existing event and any instant, CreateBooking fails with ErrBookingClosed
exactly when the instant is before BookingStartAt or after BookingEndAt, whatever bookings
the store holds; a window rejection returns no booking and writes nothing; and at the two
instants BookingStartAt and BookingEndAt of a window the request is not rejected for the
window (both bounds are inclusive). -/
theorem C8_booking_window (drv : Driver) (db : DB) (eventID : Nat) (userID : String)
    (now : Time) (event : Event) (hev : db.eventRow eventID = some event)
    (hbegin : drv Call.Begin = none) (hlock : drv Call.FindByIDForUpdate = none) :
    ((CreateBooking drv db eventID userID now).1.err = some Error.ErrBookingClosed ↔
      (now < event.BookingStartAt ∨ now > event.BookingEndAt)) ∧
    ((now < event.BookingStartAt ∨ now > event.BookingEndAt) →
      CreateBooking drv db eventID userID now =
        ({ result := none, err := some Error.ErrBookingClosed }, db)) ∧
    (event.BookingStartAt ≤ event.BookingEndAt →
      (CreateBooking drv db eventID userID event.BookingStartAt).1.err ≠
          some Error.ErrBookingClosed ∧
      (CreateBooking drv db eventID userID event.BookingEndAt).1.err ≠
          some Error.ErrBookingClosed) := by
  refine ⟨CreateBooking_closed_iff drv db eventID userID now event hev hbegin hlock,
    CreateBooking_closed drv db eventID userID now event hev hbegin hlock, ?_⟩
  intro hle
  constructor
  · rw [Ne, CreateBooking_closed_iff drv db eventID userID _ event hev hbegin hlock]
    rintro (h | h)
    · exact lt_irrefl _ h
    · exact absurd h (not_lt.mpr hle)
  · rw [Ne, CreateBooking_closed_iff drv db eventID userID _ event hev hbegin hlock]
    rintro (h | h)
    · exact absurd h (not_lt.mpr hle)
    · exact lt_irrefl _ h

theorem C8_booking_window_witness :
    ((CreateBooking healthy dbFull 1 "user-003" 201).1.err = some Error.ErrBookingClosed ↔
      ((201 : Time) < workshop.BookingStartAt ∨ (201 : Time) > workshop.BookingEndAt)) ∧
    (((201 : Time) < workshop.BookingStartAt ∨ (201 : Time) > workshop.BookingEndAt) →
      CreateBooking healthy dbFull 1 "user-003" 201 =
        ({ result := none, err := some Error.ErrBookingClosed }, dbFull)) ∧
    (workshop.BookingStartAt ≤ workshop.BookingEndAt →
      (CreateBooking healthy dbFull 1 "user-003" workshop.BookingStartAt).1.err ≠
          some Error.ErrBookingClosed ∧
      (CreateBooking healthy dbFull 1 "user-003" workshop.BookingEndAt).1.err ≠
          some Error.ErrBookingClosed) :=
  C8_booking_window healthy dbFull 1 "user-003" 201 workshop (by decide) rfl rfl

/-- C9: for an event id with no row in the event store, CreateBooking fails with
ErrEventNotFound for every user and every instant (once its transaction has begun,
whatever the driver does afterwards), returns no booking and leaves the database
unchanged. -/
theorem C9_event_not_found (drv : Driver) (db : DB) (eventID : Nat) (userID : String)
    (now : Time) (hbegin : drv Call.Begin = none) (hno : ∀ e ∈ db.events, e.ID ≠ eventID) :
    CreateBooking drv db eventID userID now =
      ({ result := none, err := some Error.ErrEventNotFound }, db) := by
  apply CreateBooking_no_event drv db eventID userID now hbegin
  unfold DB.eventRow
  rw [List.find?_eq_none]
  intro e he
  simpa using hno e he

theorem C9_event_not_found_witness :
    CreateBooking healthy dbFull 99999 "user-1" 150 =
      ({ result := none, err := some Error.ErrEventNotFound }, dbFull) :=
  C9_event_not_found healthy dbFull 99999 "user-1" 150 rfl (by decide)

/-- C10: when booking b is confirmed and its event has at least one waitlisted booking, a
successful CancelBooking of b turns into confirmed exactly one other booking, the
waitlisted booking of that event that is first in the order (WaitlistOrder ascending, ID
ascending); every other row but b is unchanged, so every other waitlisted booking stays
waitlisted; the confirmed count of the event is the same before and after, and the
waitlisted count decreases by exactly one. -/
theorem C10_promotion_on_cancel (drv : Driver) (db : DB) (b : Booking) (now : Time)
    (hpk : db.PrimaryKey) (hb : b ∈ db.bookings)
    (hconf : b.Status = BookingStatus.StatusConfirmed)
    (hwait : ∃ x ∈ db.bookings, x.EventID = b.EventID ∧
      x.Status = BookingStatus.StatusWaitlisted)
    (hok : (CancelBooking drv db b.ID now).1.err = none) :
    ∃ w ∈ db.bookings, w.EventID = b.EventID ∧ w.Status = BookingStatus.StatusWaitlisted ∧
      w.ID ≠ b.ID ∧
      (∀ x ∈ db.bookings, x.EventID = b.EventID → x.Status = BookingStatus.StatusWaitlisted →
        x ≠ w → waitlistBefore w x = true) ∧
      (CancelBooking drv db b.ID now).2.bookings = promotedRows db.bookings b w now ∧
      (∀ x ∈ db.bookings, x.EventID = b.EventID → x.Status = BookingStatus.StatusWaitlisted →
        x ≠ w → x ∈ (CancelBooking drv db b.ID now).2.bookings) ∧
      (CancelBooking drv db b.ID now).2.count b.EventID BookingStatus.StatusConfirmed =
        db.count b.EventID BookingStatus.StatusConfirmed ∧
      (CancelBooking drv db b.ID now).2.count b.EventID BookingStatus.StatusWaitlisted + 1 =
        db.count b.EventID BookingStatus.StatusWaitlisted := by
  have hwait2 : db.waitlistedOf b.EventID ≠ [] := by
    obtain ⟨x, hx, he, hs⟩ := hwait
    exact List.ne_nil_of_mem (mem_waitlistedOf.mpr ⟨hx, he, hs⟩)
  obtain ⟨w, hw, hne, hw1, -, hdb⟩ := CancelBooking_promotes drv db b now hpk hb hconf hwait2 hok
  obtain ⟨hwmem, hwe, hws⟩ := mem_waitlistedOf.mp (firstBy_mem hw)
  have hrows := setStatus_setStatus db b w now hne
  have hother : ∀ x ∈ db.bookings, x ≠ w → x.ID ≠ w.ID :=
    fun x hx hxw hid => hxw (primaryKey_unique hpk hx hwmem hid)
  have hpk1 := setStatus_primaryKey db b.ID BookingStatus.StatusCancelled now hpk
  have hc1 := setStatus_count db hpk hb BookingStatus.StatusCancelled now b.EventID
    BookingStatus.StatusConfirmed
  have hc2 := setStatus_count _ hpk1 hw1 BookingStatus.StatusConfirmed now b.EventID
    BookingStatus.StatusConfirmed
  have hq1 := setStatus_count db hpk hb BookingStatus.StatusCancelled now b.EventID
    BookingStatus.StatusWaitlisted
  have hq2 := setStatus_count _ hpk1 hw1 BookingStatus.StatusConfirmed now b.EventID
    BookingStatus.StatusWaitlisted
  simp only [hconf, hwe, hws, true_and, and_true, if_true, reduceCtorEq, if_false,
    and_false] at hc1 hc2 hq1 hq2
  refine ⟨w, hwmem, hwe, hws, hne, ?_, ?_, ?_, ?_, ?_⟩
  · intro x hx he hs hxw
    have hmin := firstBy_waitlist_min hw x (mem_waitlistedOf.mpr ⟨hx, he, hs⟩)
    exact waitlistBefore_total (hother x hx hxw) hmin
  · rw [hdb]; exact hrows
  · intro x hx he hs hxw
    rw [hdb, hrows]
    unfold promotedRows
    apply List.mem_map.mpr
    refine ⟨x, hx, ?_⟩
    have h1 : x.ID ≠ b.ID := by
      intro hid
      have := primaryKey_unique hpk hx hb hid
      rw [this, hconf] at hs
      exact absurd hs (by simp)
    simp [h1, hother x hx hxw]
  · rw [hdb]; omega
  · rw [hdb]; omega

theorem C10_promotion_on_cancel_witness :
    ∃ w ∈ dbFull.bookings,
      w.EventID = (sampleRow 1 "user-000" BookingStatus.StatusConfirmed none).EventID ∧
      w.Status = BookingStatus.StatusWaitlisted ∧
      w.ID ≠ (sampleRow 1 "user-000" BookingStatus.StatusConfirmed none).ID ∧
      (∀ x ∈ dbFull.bookings,
        x.EventID = (sampleRow 1 "user-000" BookingStatus.StatusConfirmed none).EventID →
        x.Status = BookingStatus.StatusWaitlisted → x ≠ w → waitlistBefore w x = true) ∧
      (CancelBooking healthy dbFull
          (sampleRow 1 "user-000" BookingStatus.StatusConfirmed none).ID 160).2.bookings =
        promotedRows dbFull.bookings (sampleRow 1 "user-000" BookingStatus.StatusConfirmed none)
          w 160 ∧
      (∀ x ∈ dbFull.bookings,
        x.EventID = (sampleRow 1 "user-000" BookingStatus.StatusConfirmed none).EventID →
        x.Status = BookingStatus.StatusWaitlisted → x ≠ w →
        x ∈ (CancelBooking healthy dbFull
          (sampleRow 1 "user-000" BookingStatus.StatusConfirmed none).ID 160).2.bookings) ∧
      (CancelBooking healthy dbFull
          (sampleRow 1 "user-000" BookingStatus.StatusConfirmed none).ID 160).2.count
          (sampleRow 1 "user-000" BookingStatus.StatusConfirmed none).EventID
          BookingStatus.StatusConfirmed =
        dbFull.count (sampleRow 1 "user-000" BookingStatus.StatusConfirmed none).EventID
          BookingStatus.StatusConfirmed ∧
      (CancelBooking healthy dbFull
          (sampleRow 1 "user-000" BookingStatus.StatusConfirmed none).ID 160).2.count
          (sampleRow 1 "user-000" BookingStatus.StatusConfirmed none).EventID
          BookingStatus.StatusWaitlisted + 1 =
        dbFull.count (sampleRow 1 "user-000" BookingStatus.StatusConfirmed none).EventID
          BookingStatus.StatusWaitlisted :=
  C10_promotion_on_cancel healthy dbFull
    (sampleRow 1 "user-000" BookingStatus.StatusConfirmed none) 160
    (by decide) (by decide) (by decide) (by decide) (by decide)

/-- C13: when booking b is stored with status confirmed or waitlisted and its event row
exists, CancelBooking of its id succeeds and returns a booking with the ID, EventID, UserID
and WaitlistOrder of b and status cancelled; afterwards the stored row for that id has
status cancelled and the EventID, UserID and WaitlistOrder of b. -/
theorem C13_cancel_success (db : DB) (b : Booking) (now : Time) (event : Event)
    (hpk : db.PrimaryKey) (hau : db.ActiveUnique) (hb : b ∈ db.bookings)
    (hs : b.Status = BookingStatus.StatusConfirmed ∨ b.Status = BookingStatus.StatusWaitlisted)
    (hev : db.eventRow b.EventID = some event) :
    (∃ r : Booking,
      (CancelBooking healthy db b.ID now).1 = { result := some r, err := none } ∧
      r.ID = b.ID ∧ r.EventID = b.EventID ∧ r.UserID = b.UserID ∧
      r.WaitlistOrder = b.WaitlistOrder ∧ r.Status = BookingStatus.StatusCancelled) ∧
    (∃ stored ∈ (CancelBooking healthy db b.ID now).2.bookings,
      stored.ID = b.ID ∧ stored.Status = BookingStatus.StatusCancelled ∧
      stored.EventID = b.EventID ∧ stored.UserID = b.UserID ∧
      stored.WaitlistOrder = b.WaitlistOrder ∧
      ∀ r ∈ (CancelBooking healthy db b.ID now).2.bookings, r.ID = b.ID → r = stored) := by
  have hne : b.Status ≠ BookingStatus.StatusCancelled := by
    rcases hs with h | h <;> rw [h] <;> simp
  obtain ⟨hrep, hdb⟩ := CancelBooking_healthy_ok db b now event hpk hau hb hne hev
  have hst := stored_after_cancel db hpk hb now (CancelBooking healthy db b.ID now).2
    (by
      rcases hdb with h | ⟨w, hw, -, -, h⟩
      · exact Or.inl h
      · exact Or.inr ⟨w, hw, h⟩)
  refine ⟨⟨_, hrep, rfl, rfl, rfl, rfl, rfl⟩, ?_⟩
  exact ⟨_, hst.1, rfl, rfl, rfl, rfl, rfl, hst.2⟩

theorem C13_cancel_success_witness :
    (∃ r : Booking,
      (CancelBooking healthy dbFull
        (sampleRow 1 "user-000" BookingStatus.StatusConfirmed none).ID 160).1 =
          { result := some r, err := none } ∧
      r.ID = (sampleRow 1 "user-000" BookingStatus.StatusConfirmed none).ID ∧
      r.EventID = (sampleRow 1 "user-000" BookingStatus.StatusConfirmed none).EventID ∧
      r.UserID = (sampleRow 1 "user-000" BookingStatus.StatusConfirmed none).UserID ∧
      r.WaitlistOrder =
        (sampleRow 1 "user-000" BookingStatus.StatusConfirmed none).WaitlistOrder ∧
      r.Status = BookingStatus.StatusCancelled) ∧
    (∃ stored ∈ (CancelBooking healthy dbFull
        (sampleRow 1 "user-000" BookingStatus.StatusConfirmed none).ID 160).2.bookings,
      stored.ID = (sampleRow 1 "user-000" BookingStatus.StatusConfirmed none).ID ∧
      stored.Status = BookingStatus.StatusCancelled ∧
      stored.EventID = (sampleRow 1 "user-000" BookingStatus.StatusConfirmed none).EventID ∧
      stored.UserID = (sampleRow 1 "user-000" BookingStatus.StatusConfirmed none).UserID ∧
      stored.WaitlistOrder =
        (sampleRow 1 "user-000" BookingStatus.StatusConfirmed none).WaitlistOrder ∧
      ∀ r ∈ (CancelBooking healthy dbFull
          (sampleRow 1 "user-000" BookingStatus.StatusConfirmed none).ID 160).2.bookings,
        r.ID = (sampleRow 1 "user-000" BookingStatus.StatusConfirmed none).ID → r = stored) :=
  C13_cancel_success dbFull (sampleRow 1 "user-000" BookingStatus.StatusConfirmed none) 160
    workshop (by decide) (by decide) (by decide) (by decide) (by decide)

/-- C14: when booking b is stored with status cancelled, CancelBooking of its id fails with
the already-cancelled error, returns no booking and leaves the database exactly as it was,
so no row changes and no waitlisted booking is promoted. -/
theorem C14_cancel_already_cancelled (drv : Driver) (db : DB) (b : Booking) (now : Time)
    (hpk : db.PrimaryKey) (hb : b ∈ db.bookings)
    (hs : b.Status = BookingStatus.StatusCancelled)
    (hbegin : drv Call.Begin = none) (hload : drv Call.FindByID = none) :
    CancelBooking drv db b.ID now =
      ({ result := none, err := some (Error.New "booking is already cancelled") }, db) :=
  CancelBooking_cancelled drv db b now hpk hb hs hbegin hload

theorem C14_cancel_already_cancelled_witness :
    CancelBooking healthy dbOneCancelled
        (sampleRow 1 "user-000" BookingStatus.StatusCancelled none).ID 160 =
      ({ result := none, err := some (Error.New "booking is already cancelled") },
        dbOneCancelled) :=
  C14_cancel_already_cancelled healthy dbOneCancelled
    (sampleRow 1 "user-000" BookingStatus.StatusCancelled none) 160
    (by decide) (by decide) (by decide) rfl rfl

/-- C15: for a booking id with no row in the booking store, CancelBooking fails with
ErrBookingNotFound (once its transaction has begun, whatever the driver does afterwards),
returns no booking and leaves the database unchanged. -/
theorem C15_cancel_not_found (drv : Driver) (db : DB) (bookingID : Nat) (now : Time)
    (hbegin : drv Call.Begin = none) (hno : ∀ b ∈ db.bookings, b.ID ≠ bookingID) :
    CancelBooking drv db bookingID now =
      ({ result := none, err := some Error.ErrBookingNotFound }, db) :=
  CancelBooking_absent drv db bookingID now hbegin hno

theorem C15_cancel_not_found_witness :
    CancelBooking healthy dbFull 99999 160 =
      ({ result := none, err := some Error.ErrBookingNotFound }, dbFull) :=
  C15_cancel_not_found healthy dbFull 99999 160 rfl (by decide)

/-- C16: when booking b is confirmed, its event row exists and the event has no waitlisted
booking, CancelBooking of its id succeeds (the empty waitlist lookup is not an error) and
the only row that differs between the database before and after is the row of b. -/
theorem C16_cancel_without_waitlist (db : DB) (b : Booking) (now : Time) (event : Event)
    (hpk : db.PrimaryKey) (hb : b ∈ db.bookings)
    (hconf : b.Status = BookingStatus.StatusConfirmed)
    (hnowait : ∀ x ∈ db.bookings, x.EventID = b.EventID →
      x.Status ≠ BookingStatus.StatusWaitlisted)
    (hev : db.eventRow b.EventID = some event) :
    (CancelBooking healthy db b.ID now).1 =
      { result := some { b with Status := BookingStatus.StatusCancelled }, err := none } ∧
    (CancelBooking healthy db b.ID now).2.events = db.events ∧
    ∃ pre post, db.bookings = pre ++ b :: post ∧
      (CancelBooking healthy db b.ID now).2.bookings =
        pre ++ b.withStatus BookingStatus.StatusCancelled now :: post := by
  have hne : b.Status ≠ BookingStatus.StatusCancelled := by rw [hconf]; simp
  have hnw : b.Status ≠ BookingStatus.StatusWaitlisted := by rw [hconf]; simp
  have hwl : (db.setStatus b.ID BookingStatus.StatusCancelled now).waitlistedOf b.EventID =
      [] := by
    rw [waitlistedOf_cancel db hpk hb hnw]
    unfold DB.waitlistedOf
    rw [List.filter_eq_nil_iff]
    intro x hx
    simp only [Bool.and_eq_true, decide_eq_true_eq, not_and]
    exact fun he => hnowait x hx he
  rw [CancelBooking_healthy db b now event hpk hb hne hev, hwl]
  simp only [hconf, if_true, firstBy, true_and]
  obtain ⟨pre, post, hrows, hnew, -, -⟩ :=
    setStatus_split db hpk hb BookingStatus.StatusCancelled now
  exact ⟨rfl, pre, post, hrows, hnew⟩

theorem C16_cancel_without_waitlist_witness :
    (CancelBooking healthy dbSeatsTaken
        (sampleRow 1 "user-000" BookingStatus.StatusConfirmed none).ID 160).1 =
      { result := some { sampleRow 1 "user-000" BookingStatus.StatusConfirmed none with
          Status := BookingStatus.StatusCancelled }, err := none } ∧
    (CancelBooking healthy dbSeatsTaken
        (sampleRow 1 "user-000" BookingStatus.StatusConfirmed none).ID 160).2.events =
      dbSeatsTaken.events ∧
    ∃ pre post,
      dbSeatsTaken.bookings =
        pre ++ sampleRow 1 "user-000" BookingStatus.StatusConfirmed none :: post ∧
      (CancelBooking healthy dbSeatsTaken
          (sampleRow 1 "user-000" BookingStatus.StatusConfirmed none).ID 160).2.bookings =
        pre ++ (sampleRow 1 "user-000" BookingStatus.StatusConfirmed none).withStatus
          BookingStatus.StatusCancelled 160 :: post :=
  C16_cancel_without_waitlist dbSeatsTaken
    (sampleRow 1 "user-000" BookingStatus.StatusConfirmed none) 160 workshop
    (by decide) (by decide) (by decide) (by decide) (by decide)

/-- C17: when booking b is waitlisted, a successful CancelBooking of its id promotes nobody:
the only row that changes is the row of b, every other booking of any event is unchanged
and keeps its status, and the confirmed count of every event is unchanged. -/
theorem C17_cancel_waitlisted (drv : Driver) (db : DB) (b : Booking) (now : Time)
    (hpk : db.PrimaryKey) (hb : b ∈ db.bookings)
    (hwait : b.Status = BookingStatus.StatusWaitlisted)
    (hok : (CancelBooking drv db b.ID now).1.err = none) :
    (∃ pre post, db.bookings = pre ++ b :: post ∧
      (CancelBooking drv db b.ID now).2.bookings =
        pre ++ b.withStatus BookingStatus.StatusCancelled now :: post) ∧
    (∀ x ∈ db.bookings, x.ID ≠ b.ID → x ∈ (CancelBooking drv db b.ID now).2.bookings) ∧
    (∀ eventID, (CancelBooking drv db b.ID now).2.count eventID BookingStatus.StatusConfirmed =
      db.count eventID BookingStatus.StatusConfirmed) := by
  have hdb : (CancelBooking drv db b.ID now).2 =
      db.setStatus b.ID BookingStatus.StatusCancelled now := by
    rcases CancelBooking_inv drv db b.ID now with ⟨herr, -⟩ | ⟨b2, hb2, hid, -, -, hcases⟩
    · exact absurd hok herr
    · have hbb : b2 = b := primaryKey_unique hpk hb2 hb hid
      subst hbb
      rcases hcases with ⟨-, h⟩ | ⟨hc, -, -⟩ | ⟨hc, -⟩
      · exact h
      · rw [hwait] at hc; exact absurd hc (by simp)
      · rw [hwait] at hc; exact absurd hc (by simp)
  obtain ⟨pre, post, hrows, hnew, hpre, hpost⟩ :=
    setStatus_split db hpk hb BookingStatus.StatusCancelled now
  rw [hdb]
  refine ⟨⟨pre, post, hrows, hnew⟩, ?_, ?_⟩
  · intro x hx hne
    rw [hnew]
    rw [hrows] at hx
    rcases List.mem_append.mp hx with h | h
    · exact List.mem_append_left _ h
    · rcases List.mem_cons.mp h with h | h
      · exact absurd (by rw [h]) hne
      · exact List.mem_append_right _ (List.mem_cons_of_mem _ h)
  · intro eventID
    have := setStatus_count db hpk hb BookingStatus.StatusCancelled now eventID
      BookingStatus.StatusConfirmed
    simp only [hwait, reduceCtorEq, and_false, if_false, Nat.add_zero] at this
    exact this

theorem C17_cancel_waitlisted_witness :
    (∃ pre post,
      dbFull.bookings =
        pre ++ sampleRow 3 "user-002" BookingStatus.StatusWaitlisted (some 1) :: post ∧
      (CancelBooking healthy dbFull
          (sampleRow 3 "user-002" BookingStatus.StatusWaitlisted (some 1)).ID 160).2.bookings =
        pre ++ (sampleRow 3 "user-002" BookingStatus.StatusWaitlisted (some 1)).withStatus
          BookingStatus.StatusCancelled 160 :: post) ∧
    (∀ x ∈ dbFull.bookings,
      x.ID ≠ (sampleRow 3 "user-002" BookingStatus.StatusWaitlisted (some 1)).ID →
      x ∈ (CancelBooking healthy dbFull
        (sampleRow 3 "user-002" BookingStatus.StatusWaitlisted (some 1)).ID 160).2.bookings) ∧
    (∀ eventID, (CancelBooking healthy dbFull
        (sampleRow 3 "user-002" BookingStatus.StatusWaitlisted (some 1)).ID 160).2.count eventID
          BookingStatus.StatusConfirmed =
      dbFull.count eventID BookingStatus.StatusConfirmed) :=
  C17_cancel_waitlisted healthy dbFull
    (sampleRow 3 "user-002" BookingStatus.StatusWaitlisted (some 1)) 160
    (by decide) (by decide) (by decide) (by decide)

/-- C18: along every sequence of CreateBooking and CancelBooking calls (whatever the driver
does), no booking row is ever removed, a cancelled booking stays cancelled, and at each
call the status of a stored booking either stays, or goes from confirmed to cancelled, from
waitlisted to cancelled, or from waitlisted to confirmed, the latter only while the call
cancels a confirmed booking of the same event. -/
theorem C18_lifecycle (db0 : DB) (hpk : db0.PrimaryKey) (ops : List Op) :
    (∀ r ∈ db0.bookings, ∃ r2 ∈ (run db0 ops).bookings, r2.ID = r.ID ∧
      (r.Status = BookingStatus.StatusCancelled →
        r2.Status = BookingStatus.StatusCancelled)) ∧
    (∀ (op : Op) (r : Booking), r ∈ (run db0 ops).bookings →
      ∃ r2 ∈ (step (run db0 ops) op).bookings, r2.ID = r.ID ∧
        (∀ x ∈ (step (run db0 ops) op).bookings, x.ID = r.ID → x = r2) ∧
        (r2.Status = r.Status ∨
         (r.Status = BookingStatus.StatusConfirmed ∧
            r2.Status = BookingStatus.StatusCancelled) ∨
         (r.Status = BookingStatus.StatusWaitlisted ∧
            r2.Status = BookingStatus.StatusCancelled) ∨
         (r.Status = BookingStatus.StatusWaitlisted ∧
            r2.Status = BookingStatus.StatusConfirmed ∧
            ∃ drv bookingID now, op = Op.cancel drv bookingID now ∧
              ∃ b ∈ (run db0 ops).bookings, b.ID = bookingID ∧
                b.Status = BookingStatus.StatusConfirmed ∧ b.EventID = r.EventID ∧
                b.withStatus BookingStatus.StatusCancelled now ∈
                  (step (run db0 ops) op).bookings))) := by
  refine ⟨run_keeps ops db0 hpk, ?_⟩
  intro op r hr
  have hpk1 := run_primaryKey ops db0 hpk
  obtain ⟨r2, hr2, hid, -, -, hkind⟩ := step_lifecycle (run db0 ops) hpk1 op r hr
  refine ⟨r2, hr2, hid, ?_, hkind⟩
  intro x hx hxid
  exact primaryKey_unique (step_primaryKey _ op hpk1) hx hr2 (hxid.trans hid.symm)

theorem C18_lifecycle_witness :
    (∀ r ∈ dbFull.bookings, ∃ r2 ∈ (run dbFull sampleOps).bookings, r2.ID = r.ID ∧
      (r.Status = BookingStatus.StatusCancelled →
        r2.Status = BookingStatus.StatusCancelled)) ∧
    (∀ (op : Op) (r : Booking), r ∈ (run dbFull sampleOps).bookings →
      ∃ r2 ∈ (step (run dbFull sampleOps) op).bookings, r2.ID = r.ID ∧
        (∀ x ∈ (step (run dbFull sampleOps) op).bookings, x.ID = r.ID → x = r2) ∧
        (r2.Status = r.Status ∨
         (r.Status = BookingStatus.StatusConfirmed ∧
            r2.Status = BookingStatus.StatusCancelled) ∨
         (r.Status = BookingStatus.StatusWaitlisted ∧
            r2.Status = BookingStatus.StatusCancelled) ∨
         (r.Status = BookingStatus.StatusWaitlisted ∧
            r2.Status = BookingStatus.StatusConfirmed ∧
            ∃ drv bookingID now, op = Op.cancel drv bookingID now ∧
              ∃ b ∈ (run dbFull sampleOps).bookings, b.ID = bookingID ∧
                b.Status = BookingStatus.StatusConfirmed ∧ b.EventID = r.EventID ∧
                b.withStatus BookingStatus.StatusCancelled now ∈
                  (step (run dbFull sampleOps) op).bookings))) :=
  C18_lifecycle dbFull (by decide) sampleOps

/-- C11 (the code at the failing input): from an empty booking store, four users book the
one-seat clinic, the two first waitlisted users cancel and a fifth user books. Bookings 4
(order 3) and 5 (order 2) are then waitlisted; cancelling the confirmed booking 1 promotes
booking 5, created last, and leaves booking 4, the earliest still waitlisted, waiting. -/
theorem C11_promotion_not_fifo :
    ((run dbClinic waitlistChurn).waitlistedOf 1).map
        (fun b => (b.ID, b.UserID, b.WaitlistOrder)) =
      [(4, "user-003", some 3), (5, "user-004", some 2)] ∧
    (run dbClinic waitlistChurn).count 1 BookingStatus.StatusConfirmed = 1 ∧
    (CancelBooking healthy (run dbClinic waitlistChurn) 1 170).1.err = none ∧
    (CancelBooking healthy (run dbClinic waitlistChurn) 1 170).2.bookings.map
        (fun b => (b.ID, b.Status)) =
      [(1, BookingStatus.StatusCancelled), (2, BookingStatus.StatusCancelled),
       (3, BookingStatus.StatusCancelled), (4, BookingStatus.StatusWaitlisted),
       (5, BookingStatus.StatusConfirmed)] := by
  decide

/-- C12 (the code at the failing inputs): from an empty booking store, after a waitlisted
booking has been cancelled the next waitlisted booking gets the order of one that is still
waiting (bookings 3 and 4, both order 2); and after two have been cancelled the booking
created later gets the smaller order (booking 4 has order 3, booking 5 has order 2). -/
theorem C12_waitlist_order_reused :
    ((run dbClinic waitlistReuse).waitlistedOf 1).map (fun b => (b.ID, b.WaitlistOrder)) =
      [(3, some 2), (4, some 2)] ∧
    ((run dbClinic waitlistChurn).waitlistedOf 1).map (fun b => (b.ID, b.WaitlistOrder)) =
      [(4, some 3), (5, some 2)] := by
  decide

/-- C19 (the code at the failing inputs): the event row of the workshop exists and the
driver fails the locking read with a connection error: CreateBooking reports
ErrEventNotFound; booking 1 exists and the driver fails the load of the booking:
CancelBooking reports ErrBookingNotFound. A failure of the locking read inside
CancelBooking is returned as it is. -/
theorem C19_storage_failure_masked :
    dbEmpty.eventRow 1 = some workshop ∧
    (CreateBooking lockReadFails dbEmpty 1 "user-000" 150).1 =
      { result := none, err := some Error.ErrEventNotFound } ∧
    sampleRow 1 "user-000" BookingStatus.StatusConfirmed none ∈ dbFull.bookings ∧
    (CancelBooking loadFails dbFull 1 160).1 =
      { result := none, err := some Error.ErrBookingNotFound } ∧
    (CancelBooking lockReadFails dbFull 1 160).1 =
      { result := none, err := some (Error.driver "connection reset by peer") } := by
  decide

/-- C20 (the code at the failing inputs): cancelling the cancelled booking 1 twice gives
twice an error made on the spot, which matches neither the error of the other failure nor
any exported sentinel; the handler answers 400 for it as it does for a storage failure
during a cancellation; and a storage failure of the locking read in CreateBooking is the
sentinel ErrEventNotFound itself. -/
theorem C20_already_cancelled_not_matchable :
    (CancelBooking healthy dbOneCancelled 1 160).1.err =
      some (Error.New "booking is already cancelled") ∧
    (CancelBooking healthy dbOneCancelled 1 170).1.err =
      some (Error.New "booking is already cancelled") ∧
    errorsIs (Error.New "booking is already cancelled")
      (Error.New "booking is already cancelled") = false ∧
    (∀ target ∈ exportedErrors,
      errorsIs (Error.New "booking is already cancelled") target = false) ∧
    BookingHandler.CancelBooking (fun id => (CancelBooking healthy dbOneCancelled id 160).1)
      (some 1) = 400 ∧
    BookingHandler.CancelBooking (fun id => (CancelBooking lockReadFails dbFull id 160).1)
      (some 1) = 400 ∧
    (CreateBooking lockReadFails dbEmpty 1 "user-000" 150).1.err =
      some Error.ErrEventNotFound ∧
    errorsIs Error.ErrEventNotFound Error.ErrEventNotFound = true := by
  decide

/-- C27: for an event E with MaxSeats >= 0, in every state reached from a state with no
bookings for E by any finite sequence of CreateBooking and CancelBooking calls (each run to
completion, successful or not, whatever the driver does): if E has at least one waitlisted
booking, then the number of confirmed bookings of E equals E.MaxSeats. -/
theorem C27_no_idle_seat (db : DB) (eventID : Nat) (event : Event) (ops : List Op)
    (hev : db.eventRow eventID = some event) (hseats : 0 ≤ event.MaxSeats)
    (hpk : db.PrimaryKey)
    (hnone : ∀ b ∈ db.bookings, b.EventID ≠ eventID)
    (hwait : 0 < (run db ops).count eventID BookingStatus.StatusWaitlisted) :
    ((run db ops).count eventID BookingStatus.StatusConfirmed : Int) = event.MaxSeats := by
  have hzero : ∀ st, db.count eventID st = 0 := by
    intro st
    unfold DB.count
    rw [List.countP_eq_zero]
    intro b hb
    simp [hnone b hb]
  refine (run_noIdleSeat ops eventID event db hev hpk ?_ ?_).2 hwait
  · rw [hzero]; exact_mod_cast hseats
  · intro h; rw [hzero] at h; exact absurd h (lt_irrefl 0)

theorem C27_no_idle_seat_witness :
    0 < (run dbClinic waitlistReuse).count 1 BookingStatus.StatusWaitlisted ∧
    ((run dbClinic waitlistReuse).count 1 BookingStatus.StatusConfirmed : Int) =
      clinic.MaxSeats :=
  ⟨by decide, C27_no_idle_seat dbClinic 1 clinic waitlistReuse (by decide) (by decide)
    (by decide) (by decide) (by decide)⟩

/-- C29: a successful CreateBooking leaves the bookings as they were and appends the one
booking it returns, whose key no stored row had; a failed CreateBooking leaves the database
as it was; and neither CreateBooking nor CancelBooking changes the table of events,
whatever the driver does. -/
theorem C29_frame (drv : Driver) (db : DB) (eventID : Nat) (userID : String)
    (bookingID : Nat) (now : Time) :
    ((CreateBooking drv db eventID userID now).1.err = none →
      ∃ booking, (CreateBooking drv db eventID userID now).1.result = some booking ∧
        (CreateBooking drv db eventID userID now).2.bookings = db.bookings ++ [booking] ∧
        ∀ b ∈ db.bookings, b.ID ≠ booking.ID) ∧
    ((CreateBooking drv db eventID userID now).1.err ≠ none →
      (CreateBooking drv db eventID userID now).2 = db) ∧
    (CreateBooking drv db eventID userID now).2.events = db.events ∧
    (CancelBooking drv db bookingID now).2.events = db.events := by
  refine ⟨?_, ?_, step_events db (Op.create drv eventID userID now),
    step_events db (Op.cancel drv bookingID now)⟩
  · intro hok
    rcases CreateBooking_inv drv db eventID userID now with ⟨herr, -, -⟩ |
      ⟨_, status, order, -, -, -, hfresh, h, -⟩
    · exact absurd hok herr
    · exact ⟨newRow db eventID userID status order now, by rw [h], by rw [h]; rfl, hfresh⟩
  · intro herr
    rcases CreateBooking_inv drv db eventID userID now with ⟨-, h, -⟩ |
      ⟨_, _, _, -, -, -, -, h, -⟩
    · exact h
    · rw [h] at herr; exact absurd rfl herr

/-- C30: in a store in which every booking of the user for event E is cancelled, with E
present and the call inside the booking window, CreateBooking never fails with
ErrAlreadyBooked, whatever the driver does; with a healthy driver it either returns a new
confirmed or waitlisted booking of the user for E, under a key that no stored row has, and
appends it to the bookings, or it fails with ErrEventFullyBooked and leaves the database as
it was; in both cases every stored row, the cancelled ones among them, is still stored
unchanged. -/
theorem C30_rebook_after_cancel (db : DB) (eventID : Nat) (userID : String) (now : Time)
    (event : Event) (hev : db.eventRow eventID = some event)
    (hw : event.BookingStartAt ≤ now ∧ now ≤ event.BookingEndAt)
    (hcancelled : ∀ b ∈ db.bookings, b.EventID = eventID → b.UserID = userID →
      b.Status = BookingStatus.StatusCancelled)
    (hseq : db.SeqAhead) :
    (∀ drv : Driver,
      (CreateBooking drv db eventID userID now).1.err ≠ some Error.ErrAlreadyBooked) ∧
    ((∃ booking : Booking,
        (CreateBooking healthy db eventID userID now).1 =
          { result := some booking, err := none } ∧
        (booking.Status = BookingStatus.StatusConfirmed ∨
          booking.Status = BookingStatus.StatusWaitlisted) ∧
        booking.EventID = eventID ∧ booking.UserID = userID ∧
        (∀ b ∈ db.bookings, b.ID ≠ booking.ID) ∧
        (CreateBooking healthy db eventID userID now).2.bookings = db.bookings ++ [booking]) ∨
      CreateBooking healthy db eventID userID now =
        ({ result := none, err := some Error.ErrEventFullyBooked }, db)) ∧
    (∀ b ∈ db.bookings, b ∈ (CreateBooking healthy db eventID userID now).2.bookings) := by
  have ha : db.activeFor userID eventID = [] := activeFor_eq_nil.mpr hcancelled
  have hfresh : ∀ b ∈ db.bookings, b.ID ≠ db.bookings_id_seq + 1 := by
    intro b hb
    have := hseq b hb
    omega
  refine ⟨?_, ?_, ?_⟩
  · intro drv herr
    rcases CreateBooking_err_inv drv db eventID userID now _ herr with
      ⟨h, -⟩ | ⟨h, -⟩ | ⟨-, h⟩ | ⟨h, -⟩ | ⟨_, h⟩
    · cases h
    · cases h
    · exact h ha
    · cases h
    · cases h
  · by_cases hc : (db.count eventID BookingStatus.StatusConfirmed : Int) < event.MaxSeats
    · left
      refine ⟨newRow db eventID userID BookingStatus.StatusConfirmed none now, ?_,
        Or.inl rfl, rfl, rfl, hfresh, ?_⟩
      · rw [CreateBooking_seat db eventID userID now event hev hw ha hc hseq]
      · rw [CreateBooking_seat db eventID userID now event hev hw ha hc hseq]; rfl
    · by_cases hq : (db.count eventID BookingStatus.StatusWaitlisted : Int) < event.WaitlistLimit
      · left
        refine ⟨newRow db eventID userID BookingStatus.StatusWaitlisted
          (some ((db.count eventID BookingStatus.StatusWaitlisted : Int) + 1)) now, ?_,
          Or.inr rfl, rfl, rfl, hfresh, ?_⟩
        · rw [CreateBooking_waitlist db eventID userID now event hev hw ha (not_lt.mp hc) hq hseq]
        · rw [CreateBooking_waitlist db eventID userID now event hev hw ha (not_lt.mp hc) hq hseq]
          rfl
      · right
        exact CreateBooking_full db eventID userID now event hev hw ha (not_lt.mp hc)
          (not_lt.mp hq)
  · intro b hb
    rcases CreateBooking_inv healthy db eventID userID now with ⟨-, h, -⟩ |
      ⟨_, _, _, -, -, -, -, h, -⟩
    · rw [h]; exact hb
    · rw [h]; exact List.mem_append_left _ hb

theorem C30_rebook_after_cancel_witness :
    (∀ b ∈ dbOneCancelled.bookings, b.EventID = 1 → b.UserID = "user-000" →
      b.Status = BookingStatus.StatusCancelled) ∧
    ((∀ drv : Driver,
      (CreateBooking drv dbOneCancelled 1 "user-000" 150).1.err ≠
        some Error.ErrAlreadyBooked) ∧
    ((∃ booking : Booking,
        (CreateBooking healthy dbOneCancelled 1 "user-000" 150).1 =
          { result := some booking, err := none } ∧
        (booking.Status = BookingStatus.StatusConfirmed ∨
          booking.Status = BookingStatus.StatusWaitlisted) ∧
        booking.EventID = 1 ∧ booking.UserID = "user-000" ∧
        (∀ b ∈ dbOneCancelled.bookings, b.ID ≠ booking.ID) ∧
        (CreateBooking healthy dbOneCancelled 1 "user-000" 150).2.bookings =
          dbOneCancelled.bookings ++ [booking]) ∨
      CreateBooking healthy dbOneCancelled 1 "user-000" 150 =
        ({ result := none, err := some Error.ErrEventFullyBooked }, dbOneCancelled)) ∧
    (∀ b ∈ dbOneCancelled.bookings,
      b ∈ (CreateBooking healthy dbOneCancelled 1 "user-000" 150).2.bookings)) :=
  ⟨by decide, C30_rebook_after_cancel dbOneCancelled 1 "user-000" 150 workshop (by decide)
    (by decide) (by decide) (by decide)⟩

/-- C28 fails: in the store with both seats of the workshop taken and one booking waiting,
the cancellation of booking 1 during which the lookup of the first waitlisted booking fails
returns that error together with booking 1 marked cancelled, and the database is rolled
back to what it was, where booking 1 is still confirmed. -/
theorem C28_error_carries_booking :
    CancelBooking waitlistLookupFails dbFull 1 160 =
      ({ result := some (sampleRow 1 "user-000" BookingStatus.StatusCancelled none),
         err := some (Error.driver "connection reset by peer") }, dbFull) ∧
    sampleRow 1 "user-000" BookingStatus.StatusConfirmed none ∈ dbFull.bookings := by
  decide

/-- C24: for a request whose event id parses and whose user_id is not empty, the
CreateBooking handler calls the service once and answers 201 with the id, event id, user id,
status, waitlist order and creation time of the booking when the service returns a booking
and no error, 404 when the error is ErrEventNotFound, 400 for ErrBookingClosed, 409 for
ErrAlreadyBooked, 409 for ErrEventFullyBooked and 500 for every other error; when the event
id does not parse or the user_id is empty it answers 400 and the service is not called. -/
theorem C24_create_handler_status {σ : Type} (svc : σ → Nat → String → Reply × σ) (s : σ)
    (eventID : Nat) (userID : String) (huser : userID ≠ "") :
    (∀ booking, (svc s eventID userID).1 = { result := some booking, err := none } →
      BookingHandler.CreateBooking svc s (some eventID) (some userID) =
        (Answer.JSON 201
          { ID := booking.ID, EventID := booking.EventID, UserID := booking.UserID,
            Status := booking.Status, WaitlistOrder := booking.WaitlistOrder,
            CreatedAt := booking.CreatedAt },
         (svc s eventID userID).2)) ∧
    ((svc s eventID userID).1.err = some Error.ErrEventNotFound →
      BookingHandler.CreateBooking svc s (some eventID) (some userID) =
        (Answer.HTTPError 404, (svc s eventID userID).2)) ∧
    ((svc s eventID userID).1.err = some Error.ErrBookingClosed →
      BookingHandler.CreateBooking svc s (some eventID) (some userID) =
        (Answer.HTTPError 400, (svc s eventID userID).2)) ∧
    ((svc s eventID userID).1.err = some Error.ErrAlreadyBooked →
      BookingHandler.CreateBooking svc s (some eventID) (some userID) =
        (Answer.HTTPError 409, (svc s eventID userID).2)) ∧
    ((svc s eventID userID).1.err = some Error.ErrEventFullyBooked →
      BookingHandler.CreateBooking svc s (some eventID) (some userID) =
        (Answer.HTTPError 409, (svc s eventID userID).2)) ∧
    (∀ err, (svc s eventID userID).1.err = some err →
      err ≠ Error.ErrEventNotFound → err ≠ Error.ErrBookingClosed →
      err ≠ Error.ErrAlreadyBooked → err ≠ Error.ErrEventFullyBooked →
      BookingHandler.CreateBooking svc s (some eventID) (some userID) =
        (Answer.HTTPError 500, (svc s eventID userID).2)) ∧
    (∀ bound, BookingHandler.CreateBooking svc s none bound = (Answer.HTTPError 400, s)) ∧
    (∀ param, BookingHandler.CreateBooking svc s param (some "") =
      (Answer.HTTPError 400, s)) := by
  unfold BookingHandler.CreateBooking
  simp only [huser, if_false]
  rcases hsvc : svc s eventID userID with ⟨⟨result, err⟩, s1⟩
  refine ⟨?_, ?_, ?_, ?_, ?_, ?_, ?_, ?_⟩
  · intro booking h
    cases h
    rfl
  · intro h; cases h; simp [errorsIs, Error.packageLevel]
  · intro h; cases h; simp [errorsIs, Error.packageLevel]
  · intro h; cases h; simp [errorsIs, Error.packageLevel]
  · intro h; cases h; simp [errorsIs, Error.packageLevel]
  · intro e h h1 h2 h3 h4
    cases h
    simp [errorsIs, h1, h2, h3, h4]
  · intro _; trivial
  · intro param; cases param <;> simp

theorem C24_create_handler_status_witness :
    "user-000" ≠ "" ∧
    (CreateBooking healthy dbEmpty 1 "user-000" 150).1 =
      { result := some { ID := 1, EventID := 1, UserID := "user-000",
                         Status := BookingStatus.StatusConfirmed, WaitlistOrder := none,
                         CreatedAt := 150, UpdatedAt := 150 },
        err := none } ∧
    BookingHandler.CreateBooking
        (fun db eventID userID => CreateBooking healthy db eventID userID 150)
        dbEmpty (some 1) (some "user-000") =
      (Answer.JSON 201
        { ID := 1, EventID := 1, UserID := "user-000",
          Status := BookingStatus.StatusConfirmed, WaitlistOrder := none, CreatedAt := 150 },
        { events := [workshop],
          bookings := [{ ID := 1, EventID := 1, UserID := "user-000",
                         Status := BookingStatus.StatusConfirmed, WaitlistOrder := none,
                         CreatedAt := 150, UpdatedAt := 150 }],
          bookings_id_seq := 1 }) :=
  ⟨by decide, by decide,
    (C24_create_handler_status
      (fun db eventID userID => CreateBooking healthy db eventID userID 150) dbEmpty 1
      "user-000" (by decide)).1
      { ID := 1, EventID := 1, UserID := "user-000",
        Status := BookingStatus.StatusConfirmed, WaitlistOrder := none,
        CreatedAt := 150, UpdatedAt := 150 } (by decide)⟩

/-- C25 fails in its last part: the request with a name, 50 seats, a window from 100 to
200 and the waitlist limit -1 is answered 201, and the service is given an event whose
WaitlistLimit is -1. -/
theorem C25_waitlist_limit_unchecked :
    EventHandler.CreateEvent mockEventService [] (some negativeWaitlistRequest) =
      (201, [{ ID := 0, Name := "Golang Workshop", MaxSeats := 50, WaitlistLimit := -1,
               Price := 0, BookingStartAt := 100, BookingEndAt := 200, CreatedAt := 0,
               UpdatedAt := 0 }]) := by
  decide

/-- C21: for every delivery, handleMessage makes exactly one call on it: Nack without
requeue, leaving the database as it was, when the body does not decode; Nack with requeue
when the body decodes and the upsert fails; Ack when the upsert succeeds, the database
then being the one the upsert made. -/
theorem C21_consumer_settlement (fails : Option String) (now : Time) (nextval : Nat) (db : DB)
    (decoded : Option Event) :
    (EventConsumer.handleMessage fails now nextval db decoded).1.length = 1 ∧
    (decoded = none →
      EventConsumer.handleMessage fails now nextval db decoded =
        ([Settlement.Nack false false], db)) ∧
    (∀ event err, decoded = some event →
      EventConsumer.upsert fails now nextval db event = Except.error err →
      EventConsumer.handleMessage fails now nextval db decoded =
        ([Settlement.Nack false true], db)) ∧
    (∀ event db1, decoded = some event →
      EventConsumer.upsert fails now nextval db event = Except.ok db1 →
      EventConsumer.handleMessage fails now nextval db decoded =
        ([Settlement.Ack false], db1)) := by
  refine ⟨?_, ?_, ?_, ?_⟩
  · unfold EventConsumer.handleMessage
    cases decoded with
    | none => rfl
    | some event =>
      simp only
      cases EventConsumer.upsert fails now nextval db event <;> rfl
  · intro h; subst h; rfl
  · intro event err h hu; subst h
    simp only [EventConsumer.handleMessage, hu]
  · intro event db1 h hu; subst h
    simp only [EventConsumer.handleMessage, hu]

/-- C22 (as amended): for every database whose events have distinct ids and every two
decoded events e1, e2 with the same id, that id not zero and the update timestamp of e2 not
zero: the upsert of e1 followed by the upsert of e2 succeeds and leaves exactly one row
with that id, whose name, max seats, waitlist limit, price, booking start, booking end and
update timestamp are those of e2; the rows with another id and the bookings are as they
were; and when e1 and e2 are the same event, the second upsert changes nothing. -/
theorem C22_upsert_last_write_wins (db : DB) (e1 e2 : Event) (now1 now2 : Time)
    (nextval1 nextval2 : Nat) (hpk : db.EventsPrimaryKey) (hid : e1.ID = e2.ID)
    (hkey : e2.ID ≠ 0) (hstamp : e2.UpdatedAt ≠ 0) :
    ∃ db1 db2 row,
      EventConsumer.upsert none now1 nextval1 db e1 = Except.ok db1 ∧
      EventConsumer.upsert none now2 nextval2 db1 e2 = Except.ok db2 ∧
      db2.events.filter (fun e => decide (e.ID = e2.ID)) = [row] ∧
      row.Name = e2.Name ∧ row.MaxSeats = e2.MaxSeats ∧
      row.WaitlistLimit = e2.WaitlistLimit ∧ row.Price = e2.Price ∧
      row.BookingStartAt = e2.BookingStartAt ∧ row.BookingEndAt = e2.BookingEndAt ∧
      row.UpdatedAt = e2.UpdatedAt ∧
      db2.events.filter (fun e => decide (e.ID ≠ e2.ID)) =
        db.events.filter (fun e => decide (e.ID ≠ e2.ID)) ∧
      db2.bookings = db.bookings ∧
      (e1 = e2 → db2 = db1) := by
  have hkey1 : e1.ID ≠ 0 := by rw [hid]; exact hkey
  rcases upsert_ok now1 nextval1 db e1 hkey1 with ⟨hno, h1⟩ | ⟨hyes, h1⟩
  · rw [hid] at hno
    have habs := hasEvent_false hno
    have hf1 : (e1.filled nextval1 now1).ID = e2.ID := by
      rw [filled_ID e1 nextval1 now1 hkey1, hid]
    have hhas : DB.hasEvent { db with events := db.events ++ [e1.filled nextval1 now1] }
        e2.ID = true := by
      unfold DB.hasEvent
      rw [List.any_eq_true]
      exact ⟨e1.filled nextval1 now1, by simp, by simp [hf1]⟩
    rcases upsert_ok now2 nextval2
        { db with events := db.events ++ [e1.filled nextval1 now1] } e2 hkey with
      ⟨hno2, -⟩ | ⟨-, h2⟩
    · rw [hhas] at hno2; cases hno2
    · refine ⟨_, _, (e1.filled nextval1 now1).assigned e2, h1, h2, ?_, rfl, rfl, rfl, rfl,
        rfl, rfl, rfl, ?_, rfl, ?_⟩
      · simp only [map_assign_filter_eq, List.filter_append, filter_absent db.events e2.ID habs,
          List.nil_append, List.filter_cons, hf1, decide_True, if_true, List.filter_nil,
          List.map_cons, List.map_nil, assigned_filled _ e2 nextval2 now2 hstamp]
      · simp only [map_assign_filter_ne, List.filter_append, List.filter_cons, hf1, ne_eq,
          not_true_eq_false, decide_False, List.filter_nil, List.append_nil]
        simp
      · intro he
        subst he
        simp only [List.map_append, List.map_cons, List.map_nil, hf1, if_true,
          map_assign_absent db.events e1.ID _ habs,
          assigned_filled _ e1 nextval2 now2 hstamp,
          filled_assigned_self e1 nextval1 now1 hstamp]
  · rw [hid] at hyes h1
    obtain ⟨r, hr, hfilter⟩ := eventsKey_filter hpk hyes
    have hhas : DB.hasEvent { db with events := db.events.map (fun r =>
        if r.ID = e2.ID then r.assigned (e1.filled nextval1 now1) else r) } e2.ID = true := by
      have hmem : r ∈ db.events := by
        have : r ∈ db.events.filter (fun e => decide (e.ID = e2.ID)) := by
          rw [hfilter]; simp
        exact (List.mem_filter.mp this).1
      unfold DB.hasEvent
      rw [List.any_eq_true]
      refine ⟨r.assigned (e1.filled nextval1 now1), ?_, by simp [assigned_ID, hr]⟩
      simp only [List.mem_map]
      exact ⟨r, hmem, by simp [hr]⟩
    rcases upsert_ok now2 nextval2
        { db with events := db.events.map (fun r =>
          if r.ID = e2.ID then r.assigned (e1.filled nextval1 now1) else r) } e2 hkey with
      ⟨hno2, -⟩ | ⟨-, h2⟩
    · rw [hhas] at hno2; cases hno2
    · refine ⟨_, _, r.assigned e2, h1, h2, ?_, rfl, rfl, rfl, rfl, rfl, rfl, rfl, ?_, rfl, ?_⟩
      · simp only [map_assign_filter_eq, hfilter, List.map_cons, List.map_nil,
          assigned_assigned, assigned_filled _ e2 nextval2 now2 hstamp]
      · simp only [map_assign_filter_ne]
      · intro he
        subst he
        have : ∀ x : Event,
            (fun r : Event => if r.ID = e1.ID then r.assigned (e1.filled nextval2 now2) else r)
              ((fun r : Event =>
                if r.ID = e1.ID then r.assigned (e1.filled nextval1 now1) else r) x) =
            (fun r : Event =>
              if r.ID = e1.ID then r.assigned (e1.filled nextval1 now1) else r) x := by
          intro x
          by_cases hx : x.ID = e1.ID
          · simp only [hx, if_true, assigned_ID, assigned_assigned,
              assigned_filled _ e1 _ _ hstamp]
          · simp only [hx, if_false]
        simp only [List.map_map]
        congr 1
        apply List.map_congr_left
        intro x _
        exact this x

theorem C22_upsert_last_write_wins_witness :
    dbEmpty.EventsPrimaryKey ∧ workshopUnstamped.ID = workshopEnlarged.ID ∧
    workshopEnlarged.ID ≠ 0 ∧ workshopEnlarged.UpdatedAt ≠ 0 ∧
    ∃ db1 db2 row,
      EventConsumer.upsert none 96 1 dbEmpty workshopUnstamped = Except.ok db1 ∧
      EventConsumer.upsert none 97 1 db1 workshopEnlarged = Except.ok db2 ∧
      db2.events.filter (fun e => decide (e.ID = workshopEnlarged.ID)) = [row] ∧
      row.Name = workshopEnlarged.Name ∧ row.MaxSeats = workshopEnlarged.MaxSeats ∧
      row.WaitlistLimit = workshopEnlarged.WaitlistLimit ∧ row.Price = workshopEnlarged.Price ∧
      row.BookingStartAt = workshopEnlarged.BookingStartAt ∧
      row.BookingEndAt = workshopEnlarged.BookingEndAt ∧
      row.UpdatedAt = workshopEnlarged.UpdatedAt ∧
      db2.events.filter (fun e => decide (e.ID ≠ workshopEnlarged.ID)) =
        dbEmpty.events.filter (fun e => decide (e.ID ≠ workshopEnlarged.ID)) ∧
      db2.bookings = dbEmpty.bookings ∧
      (workshopUnstamped = workshopEnlarged → db2 = db1) :=
  ⟨by decide, by decide, by decide, by decide,
    C22_upsert_last_write_wins dbEmpty workshopUnstamped workshopEnlarged 96 97 1 1
      (by decide) (by decide) (by decide) (by decide)⟩

/-- C22 as stated fails: a message that carries the workshop under id 1 without the field
`updated_at` is delivered twice to the empty database, at the instants 10 and 20. After the
second upsert the stored update timestamp is 20, not the zero timestamp of the decoded
event, and the database is not the one that the first upsert left. -/
theorem C22_counterexample :
    workshopUnstamped.UpdatedAt = 0 ∧
    EventConsumer.upsert none 10 1 dbBlank workshopUnstamped =
      Except.ok { dbBlank with events := [{ workshopUnstamped with UpdatedAt := 10 }] } ∧
    EventConsumer.upsert none 20 1
        { dbBlank with events := [{ workshopUnstamped with UpdatedAt := 10 }] }
        workshopUnstamped =
      Except.ok { dbBlank with events := [{ workshopUnstamped with UpdatedAt := 20 }] } ∧
    ({ dbBlank with events := [{ workshopUnstamped with UpdatedAt := 20 }] } : DB) ≠
      { dbBlank with events := [{ workshopUnstamped with UpdatedAt := 10 }] } :=
  ⟨rfl, rfl, rfl, by decide⟩

/-- C26 fails: in the clinic (one seat) booking 1 holds the seat and bookings 2 and 3
wait. Two calls of CancelBooking for booking 1 both load it while it is confirmed, then run
their second steps one after the other. Both return without an error, bookings 2 and 3 are
both promoted, and the event has two confirmed bookings for its one seat. -/
theorem C26_double_promotion :
    CancelBooking.load healthy dbClinicWaiting 1 =
      Cancelling.loaded (sampleRow 1 "user-000" BookingStatus.StatusConfirmed none) true ∧
    (CancelBooking.locked healthy dbClinicWaiting 1 140
      (CancelBooking.load healthy dbClinicWaiting 1)).1.err = none ∧
    (CancelBooking.locked healthy
      (CancelBooking.locked healthy dbClinicWaiting 1 140
        (CancelBooking.load healthy dbClinicWaiting 1)).2 1 150
      (CancelBooking.load healthy dbClinicWaiting 1)).1.err = none ∧
    dbClinicWaiting.count 1 BookingStatus.StatusConfirmed = 1 ∧
    dbClinicWaiting.count 1 BookingStatus.StatusWaitlisted = 2 ∧
    (CancelBooking.locked healthy
      (CancelBooking.locked healthy dbClinicWaiting 1 140
        (CancelBooking.load healthy dbClinicWaiting 1)).2 1 150
      (CancelBooking.load healthy dbClinicWaiting 1)).2.count 1
        BookingStatus.StatusConfirmed = 2 ∧
    (CancelBooking.locked healthy
      (CancelBooking.locked healthy dbClinicWaiting 1 140
        (CancelBooking.load healthy dbClinicWaiting 1)).2 1 150
      (CancelBooking.load healthy dbClinicWaiting 1)).2.count 1
        BookingStatus.StatusWaitlisted = 0 ∧
    clinic.MaxSeats = 1 := by
  decide

/-- C23 fails: the clinic has one seat and no bookings, and two users call at the same
time. In the schedule in which both calls run their reads before either inserts, both read
a confirmed count of 0, both insert a confirmed booking and both return without an error:
the event has two confirmed bookings for its one seat. Run one after the other, the same
two calls leave one confirmed and one waitlisted booking. Two calls of one user in the same
schedule end with one success, the second insert being refused by `idx_booking_active`. -/
theorem C23_capacity_overshoot :
    clinic.MaxSeats = 1 ∧ clinic.WaitlistLimit = 3 ∧ (twoCalls.map Prod.fst).Nodup ∧
    ((World.start dbClinic twoCalls).play 1 readsFirst).allSettled = true ∧
    ((World.start dbClinic twoCalls).play 1 readsFirst).settled.map (fun s => s.2.err) =
      [none, none] ∧
    ((World.start dbClinic twoCalls).play 1 readsFirst).db.count 1
      BookingStatus.StatusConfirmed = 2 ∧
    ((World.start dbClinic twoCalls).play 1 readsFirst).db.count 1
      BookingStatus.StatusWaitlisted = 0 ∧
    (createAll dbClinic 1 twoCalls).2.count 1 BookingStatus.StatusConfirmed = 1 ∧
    (createAll dbClinic 1 twoCalls).2.count 1 BookingStatus.StatusWaitlisted = 1 ∧
    ((World.start dbClinic sameUserTwice).play 1 readsFirst).settled.map (fun s => s.2.err) =
      [none, some (Error.driver
        "duplicate key value violates unique constraint idx_booking_active")] := by
  decide

end BookingMicroservice
